import Mathlib

/-!
# Calendar extension: task / calendar synchronisation

A shallow embedding of the task store, the popup's to-do handlers
(`src/popup.js`) and the background's remote operations and message router
(`src/background.js`), followed by the properties proved about them.

Conventions of the embedding.

* JavaScript values that the code only tests for truthiness are modelled by
  `Option String` together with `truthy` (absent, `null` and `''` are falsy).
* Everything the code reads from its environment is an explicit input: the
  clock reading of each `new Date()`, the answers of `chrome.identity`, the
  responses of the remote server, the reply the background gives to a message.
* Effects are returned as data: the store after the call, the messages sent,
  the notices shown, the trace of identity calls and network requests.
-/

namespace CalendarExtension

/-! ## JavaScript helpers -/

/-- Truthiness of a value that is either absent (`undefined` / `null`) or a string. -/
def truthy : Option String → Bool
  | some s => s != ""
  | none => false

/-- The value of `x || d` for an optional string `x` and a string `d`. -/
def orElse (x : Option String) (d : String) : String :=
  if truthy x then x.getD d else d

/-- The value of `x || null` / `x || undefined` for an optional string `x`. -/
def orNull (x : Option String) : Option String :=
  if truthy x then x else none

/-- `String.prototype.padStart(len, fill)` for a one-character fill. -/
def padStart (s : String) (len : Nat) (fill : Char) : String :=
  String.mk (List.replicate (len - s.length) fill) ++ s

/-! ## Dates and day keys -/

/-- A `Date` object seen through its local-time getters `getFullYear()`,
`getMonth()` (zero based) and `getDate()`. -/
structure JsDate where
  fullYear : Int
  month : Nat
  date : Nat
deriving DecidableEq, Repr

/-- `keyForDate(d)` of `popup.js`. -/
def keyForDate (d : JsDate) : String :=
  let yyyy := d.fullYear
  let mm := padStart (toString (d.month + 1)) 2 '0'
  let dd := padStart (toString d.date) 2 '0'
  "todos_" ++ toString yyyy ++ "-" ++ mm ++ "-" ++ dd

/-- `todayKey()` of `popup.js`; `now` is the value of `new Date()` at the call. -/
def todayKey (now : JsDate) : String :=
  let d := now
  let yyyy := d.fullYear
  let mm := padStart (toString (d.month + 1)) 2 '0'
  let dd := padStart (toString d.date) 2 '0'
  "todos_" ++ toString yyyy ++ "-" ++ mm ++ "-" ++ dd

/-! ## Task records and the store -/

/-- A task record as the popup writes it: `{ title, done, ts, eventId?, originalColorId? }`. -/
structure Task where
  title : String
  done : Bool
  ts : Nat
  eventId : Option String
  originalColorId : Option String
deriving DecidableEq, Repr

/-- A value held by `chrome.storage.sync` under one key. -/
inductive StoreVal where
  | tasks (items : List Task)
  | bool (b : Bool)
  | str (s : String)
  | other (json : String)
deriving DecidableEq, Repr

/-- The content of `chrome.storage.sync`: records in key order. -/
abbrev Storage := List (String × StoreVal)

/-- `chrome.storage.sync.get([key])[key]`. -/
def Storage.get (s : Storage) (key : String) : Option StoreVal :=
  (s.find? (fun p => p.1 == key)).map Prod.snd

/-- `chrome.storage.sync.set({ [key]: v })`: replaces the record in place, or adds it. -/
def Storage.set (s : Storage) (key : String) (v : StoreVal) : Storage :=
  if s.any (fun p => p.1 == key) then
    s.map (fun p => if p.1 == key then (key, v) else p)
  else
    s ++ [(key, v)]

/-- `Array.isArray(data[key]) ? data[key] : []`. -/
def Storage.bucket (s : Storage) (key : String) : List Task :=
  match s.get key with
  | some (StoreVal.tasks items) => items
  | _ => []

/-- `saveTodos(items)` of `popup.js`; `now` is the clock reading of its `todayKey()`. -/
def saveTodos (items : List Task) (now : JsDate) (store : Storage) : Storage :=
  let key := todayKey now
  store.set key (StoreVal.tasks items)

/-! ## Messages and replies -/

/-- Payload of `TOGGLE_DONE` as the popup builds it. -/
structure TogglePayload where
  eventId : Option String
  done : Bool
  originalTitle : String
  originalColorId : Option String
deriving DecidableEq, Repr

/-- Payload of `CREATE_EVENT` as the popup builds it (instants are ISO strings). -/
structure CreatePayload where
  title : String
  startISO : String
  endISO : String
  notes : String
  timeZone : Option String
  colorId : Option String
  section_ : String
deriving DecidableEq, Repr

/-- A command sent from the popup to the background. -/
inductive Message where
  | createEvent (payload : CreatePayload)
  | deleteEvent (eventId : Option String)
  | toggleDone (payload : TogglePayload)
  | emailUnfinishedNow
  | notifyToggle (enabled : Bool) (email : Option String)
deriving DecidableEq, Repr

/-- A parsed JSON document, observed through its `id` member and through its
`JSON.stringify` rendering. -/
structure JsonDoc where
  id : Option String
  rendered : String
deriving DecidableEq, Repr

/-- A reply `{ ok, code?, error?, data? }` of the background router. -/
structure Resp where
  ok : Bool
  code : Option Nat := none
  error : Option String := none
  data : Option JsonDoc := none
deriving DecidableEq, Repr

/-- `resp?.ok` as a condition. -/
def respOk : Option Resp → Bool
  | some r => r.ok
  | none => false

/-- `resp?.error || fallback`. -/
def respErrorOr (resp : Option Resp) (fallback : String) : String :=
  match resp with
  | some r => orElse r.error fallback
  | none => fallback

/-! ## Recognising a vanished event (`isEventGone`) -/

/-- The regular-expression class `\w` (without the `u` flag): `[A-Za-z0-9_]`. -/
def isWordChar (c : Char) : Bool :=
  c.isAlphanum || c == '_'

/-- The regular-expression class `\s`: white space and line terminators. -/
def isJsSpace (c : Char) : Bool :=
  let n := c.toNat
  n == 0x09 || n == 0x0A || n == 0x0B || n == 0x0C || n == 0x0D || n == 0x20 ||
  n == 0xA0 || n == 0x1680 || (0x2000 ≤ n && n ≤ 0x200A) || n == 0x2028 ||
  n == 0x2029 || n == 0x202F || n == 0x205F || n == 0x3000 || n == 0xFEFF

/-- Whether an optional neighbouring character is a word character (a string end is not). -/
def isWordAt : Option Char → Bool
  | some c => isWordChar c
  | none => false

/-- The assertion `\b` between the characters `before` and `after`. -/
def wordBoundary (before after : Option Char) : Bool :=
  isWordAt before != isWordAt after

/-- Case-insensitive comparison of a pattern character with an input character
(flag `i` without `u`: only the ASCII letters fold). -/
def ciEq (p c : Char) : Bool :=
  p.toUpper == c.toUpper

/-- Matches a literal case-insensitively at the head of the input; the rest on success. -/
def matchLit : List Char → List Char → Option (List Char)
  | [], cs => some cs
  | _ :: _, [] => none
  | p :: ps, c :: cs => if ciEq p c then matchLit ps cs else none

/-- The greedy `\s*` followed by a non-space pattern character: drops leading spaces. -/
def skipSpaces : List Char → List Char
  | [] => []
  | c :: cs => if isJsSpace c then skipSpaces cs else c :: cs

/-- The alternative `\bNNN\b` at a position whose preceding character is `prev`. -/
def matchStatusWord (digits : List Char) (prev : Option Char) (cs : List Char) : Bool :=
  wordBoundary prev cs.head? &&
  match matchLit digits cs with
  | some rest => wordBoundary digits.getLast? rest.head?
  | none => false

/-- The alternative `"reason"\s*:\s*"(?:notFound|deleted)"` at a position. -/
def matchReason (cs : List Char) : Bool :=
  match matchLit "\"reason\"".toList cs with
  | none => false
  | some r1 =>
    match matchLit [':'] (skipSpaces r1) with
    | none => false
    | some r2 =>
      match matchLit ['"'] (skipSpaces r2) with
      | none => false
      | some r3 =>
        (match matchLit "notFound".toList r3 with
          | some r4 => (matchLit ['"'] r4).isSome
          | none => false) ||
        (match matchLit "deleted".toList r3 with
          | some r4 => (matchLit ['"'] r4).isSome
          | none => false)

/-- The pattern `goneRe` tried at one position. -/
def goneReAt (prev : Option Char) (cs : List Char) : Bool :=
  matchStatusWord "404".toList prev cs || matchStatusWord "410".toList prev cs ||
  matchReason cs

/-- The search of `goneRe` from a position on: the pattern is tried at every start. -/
def goneReSearch (prev : Option Char) : List Char → Bool
  | [] => goneReAt prev []
  | c :: cs => goneReAt prev (c :: cs) || goneReSearch (some c) cs

/-- `goneRe.test(s)` for
`goneRe = /(?:\b404\b|\b410\b|"reason"\s*:\s*"(?:notFound|deleted)")/i`. -/
def goneReTest (s : String) : Bool :=
  goneReSearch none s.toList

/-- `JSON.stringify(resp)` for a reply without an `error` member. -/
def stringifyResp (r : Resp) : String :=
  "\x7b\"ok\":" ++ (if r.ok then "true" else "false") ++
  (match r.code with
    | some c => ",\"code\":" ++ toString c
    | none => "") ++
  (match r.data with
    | some d => ",\"data\":" ++ d.rendered
    | none => "") ++ "\x7d"

/-- `isEventGone(resp)` of `popup.js`. -/
def isEventGone (resp : Option Resp) : Bool :=
  match resp with
  | none => false
  | some r =>
    if r.code = some 404 ∨ r.code = some 410 then true
    else
      let s := match r.error with
        | some e => e
        | none => stringifyResp r
      goneReTest s

/-! ## The to-do handlers of the popup -/

/-- What a popup handler leaves behind. -/
structure PopupOut where
  items : List Task
  store : Storage
  sent : List Message
  notices : List (String × String)
deriving DecidableEq, Repr

/-- The payload of the `TOGGLE_DONE` message the checkbox handler builds for the task `t`. -/
def togglePayload (t : Task) (nextDone : Bool) : TogglePayload :=
  { eventId := t.eventId, done := nextDone, originalTitle := t.title,
    originalColorId := orNull t.originalColorId }

/-- The `TOGGLE_DONE` message the checkbox handler sends for the task `t`. -/
def toggleMessage (t : Task) (nextDone : Bool) : Message :=
  Message.toggleDone (togglePayload t nextDone)

/-- The `change` handler of the checkbox of row `idx` in `renderTodos(items)`.
`nextDone` is `cb.checked`, `now1` and `now2` are the clock readings of the
optimistic save and of the rollback save, `reply` is the answer of the
background to the message sent. A row that does not exist has no handler. -/
def toggleHandler (items : List Task) (idx : Nat) (nextDone : Bool)
    (now1 now2 : JsDate) (reply : Message → Option Resp) (store : Storage) : PopupOut :=
  match items[idx]? with
  | none => { items := items, store := store, sent := [], notices := [] }
  | some t =>
    let prevDone := t.done
    -- optimistic update
    let t1 := { t with done := nextDone }
    let items1 := items.set idx t1
    let store1 := saveTodos items1 now1 store
    -- reflect on Calendar if linked
    if truthy t.eventId then
      let msg := toggleMessage t nextDone
      let resp := reply msg
      if !respOk resp then
        -- rollback on failure
        let t2 := { t1 with done := prevDone }
        let items2 := items1.set idx t2
        let store2 := saveTodos items2 now2 store1
        { items := items2, store := store2, sent := [msg],
          notices := [("Could not update Calendar: " ++ respErrorOr resp "Unknown error", "err")] }
      else
        { items := items1, store := store1, sent := [msg],
          notices := [(if nextDone then "Marked done (synced to Calendar)"
                       else "Marked not done (synced to Calendar)", "ok")] }
    else
      { items := items1, store := store1, sent := [],
        notices := [(if nextDone then "✓ Marked done (local only)"
                     else "↩️ Marked not done (local only)", "ok")] }

/-- The `click` handler of the Delete button of row `idx` in `renderTodos(items)`.
`now` is the clock reading of the save, `reply` the answer of the background. -/
def deleteHandler (items : List Task) (idx : Nat) (now : JsDate)
    (reply : Message → Option Resp) (store : Storage) : PopupOut :=
  match items[idx]? with
  | none => { items := items, store := store, sent := [], notices := [] }
  | some item =>
    if truthy item.eventId then
      let msg := Message.deleteEvent item.eventId
      let resp := reply msg
      if respOk resp || isEventGone resp then
        -- Event deleted or already gone: remove locally
        let items1 := items.eraseIdx idx
        { items := items1, store := saveTodos items1 now store, sent := [msg],
          notices := [("Task deleted", "ok")] }
      else
        { items := items, store := store, sent := [msg],
          notices := [("Could not delete Calendar event: " ++ respErrorOr resp "Unknown error",
                       "err")] }
    else
      -- Local-only task
      let items1 := items.eraseIdx idx
      { items := items1, store := saveTodos items1 now store, sent := [],
        notices := [("Task deleted", "ok")] }

/-! ## When a reply shows that the event is absent -/

/-- The text carries `404` or `410` as a word of its own: no letter, digit or
underscore stands right before or right after it. -/
def CarriesGoneStatus (text : String) : Prop :=
  ∃ (pre post digits : String), (digits = "404" ∨ digits = "410") ∧
    text = pre ++ digits ++ post ∧
    isWordAt pre.toList.getLast? = false ∧ isWordAt post.toList.head? = false

/-- The text embeds a member `"reason": "notFound"` or `"reason": "deleted"`,
with any white space around the colon. -/
def CarriesGoneReason (text : String) : Prop :=
  ∃ (pre post ws1 ws2 reason : String), (reason = "notFound" ∨ reason = "deleted") ∧
    (∀ c ∈ ws1.toList, isJsSpace c = true) ∧ (∀ c ∈ ws2.toList, isJsSpace c = true) ∧
    text = pre ++ "\"reason\"" ++ ws1 ++ ":" ++ ws2 ++ "\"" ++ reason ++ "\"" ++ post

/-- The reply shows that the remote event is absent: code 404 or 410, or an error
text that carries such a status or such a reason. -/
def ShowsAbsent (r : Resp) : Prop :=
  r.code = some 404 ∨ r.code = some 410 ∨
    ∃ text, r.error = some text ∧ (CarriesGoneStatus text ∨ CarriesGoneReason text)

/-- The character standing right before a position reached after reading `pre`. -/
def charBefore (prev : Option Char) (pre : List Char) : Option Char :=
  match pre.getLast? with
  | some c => some c
  | none => prev

/-! ## The background: environment, state and effects -/

/-- A response of the remote service: its status, `res.text()` and `res.json()`
(which rejects with a message when the body is not JSON). -/
structure Response where
  status : Nat
  text : String
  json : Except String JsonDoc

/-- `res.ok`: the status is in the range 200-299. -/
def Response.ok (r : Response) : Bool :=
  200 ≤ r.status && r.status ≤ 299

/-- An answer of `chrome.identity.getAuthToken`: the token handed to the callback
and the message of `chrome.runtime.lastError`, either of which may be missing. -/
structure AuthAnswer where
  token : Option String
  lastError : Option String
deriving DecidableEq, Repr

/-- The local time scale of the runtime, as `Date` uses it: `localOf t` is
`LocalTime(t)`, the local time value of the instant `t`, and `utcOf l` is
`UTC(l)`, the instant the runtime gives to the local time value `l`. In a zone
whose offset from UTC changes, a local time can be skipped or read twice. -/
structure Zone where
  localOf : Int → Int
  utcOf : Int → Int

/-- What the background reads from outside: the answer of `chrome.identity` to its
`n`-th token request (which may depend on the `interactive` flag), the response of
the remote service to the `n`-th request, and the time zone of the runtime.
Further: the `n`-th reading of the clock (`new Date()`, in milliseconds since the
epoch), the value of `getTimezoneOffset()` in minutes of the dates the getters
read, the rendering `toLocaleString()` gives of an instant, the `email` of
`getProfileUserInfo`, the error, if any, with which the `n`-th operation on
`chrome.storage.sync` rejects, and the local time scale the setters of `Date`
work in. -/
structure Env where
  identity : Bool → Nat → AuthAnswer
  server : Nat → Response
  timeZone : String
  clock : Nat → Int := fun _ => 0
  tzOffset : Int := 0
  toLocaleString : Int → String := fun _ => ""
  profileEmail : Option String := none
  storageFault : Nat → Option String := fun _ => none
  zone : Zone := { localOf := fun t => t, utcOf := fun l => l }

/-- A member that is always written and may be an explicit `null`. -/
inductive Nullable where
  | null
  | value (s : String)
deriving DecidableEq, Repr

/-- Body of the calendar create request; `colorId` is absent when `none`. -/
structure CreateBody where
  summary : String
  description : String
  startDateTime : String
  startTimeZone : String
  endDateTime : String
  endTimeZone : String
  colorId : Option String
deriving DecidableEq, Repr

/-- Body of the calendar patch request of the done-toggle. -/
structure PatchBody where
  summary : String
  colorId : Nullable
  transparency : String
deriving DecidableEq, Repr

/-- Body of a request. -/
inductive ReqBody where
  | empty
  | create (body : CreateBody)
  | patch (body : PatchBody)
  | mail (raw : String)
deriving DecidableEq, Repr

/-- The resource a request addresses (its URL is built from these parts). -/
inductive Endpoint where
  | events (calendarId : String)
  | event (calendarId : String) (eventId : String)
  | gmailSend
deriving DecidableEq, Repr

/-- A request sent with `fetch` to the remote service. -/
structure Request where
  method : String
  endpoint : Endpoint
  bearer : String
  body : ReqBody
deriving DecidableEq, Repr

/-- An effect of the background, in the order it happens. -/
inductive Event where
  | getAuthToken (interactive : Bool)
  | removeCachedAuthToken (token : String)
  | request (req : Request)
  | tokenInfo (token : String)
  | getProfileUserInfo
  | storageGet (keys : Option (List String))
  | storageSet (items : List (String × StoreVal))
  | storageRemove (keys : List String)
  | alarmCreate (name : String) (scheduled : Int)
deriving DecidableEq, Repr

/-- State threaded through a background operation: how many token requests and
remote requests were made, and the trace of effects. Further: the content of
`chrome.storage.sync`, the pending alarms of `chrome.alarms` (name and time),
and how many clock readings and storage operations were made. -/
structure Bg where
  authCalls : Nat
  requests : Nat
  trace : List Event
  store : Storage := []
  alarms : List (String × Int) := []
  clockReads : Nat := 0
  storageOps : Nat := 0
deriving DecidableEq, Repr

/-- The state before anything happened. -/
def Bg.init : Bg := { authCalls := 0, requests := 0, trace := [] }

/-- An asynchronous background computation: it resolves with a value or rejects
with the message of the error thrown, and leaves a state. -/
def BgM (α : Type) : Type := Env → Bg → Except String α × Bg

/-- Resolve with a value. -/
def BgM.pure {α : Type} (a : α) : BgM α := fun _ st => (Except.ok a, st)

/-- Reject with a message (`throw new Error(msg)`). -/
def BgM.throw {α : Type} (msg : String) : BgM α := fun _ st => (Except.error msg, st)

/-- Sequencing (`await`): a rejection skips the rest. -/
def BgM.bind {α β : Type} (m : BgM α) (f : α → BgM β) : BgM β := fun env st =>
  match m env st with
  | (Except.ok a, st1) => f a env st1
  | (Except.error e, st1) => (Except.error e, st1)

instance : Monad BgM where
  pure := BgM.pure
  bind := BgM.bind

/-- Records an effect. -/
def logEvent (e : Event) : BgM Unit := fun _ st =>
  (Except.ok (), { st with trace := st.trace ++ [e] })

/-- `chrome.identity.getAuthToken({ interactive }, callback)`: the answer handed to the callback. -/
def getAuthToken (interactive : Bool) : BgM AuthAnswer := fun env st =>
  (Except.ok (env.identity interactive st.authCalls),
    { st with authCalls := st.authCalls + 1,
              trace := st.trace ++ [Event.getAuthToken interactive] })

/-- `getAccessTokenInteractive()` of `background.js`. -/
def getAccessTokenInteractive : BgM String := do
  let a ← getAuthToken true
  if truthy a.token then pure (a.token.getD "")
  else BgM.throw (a.lastError.getD "No token")

/-- `removeCachedToken(token)` of `background.js`. -/
def removeCachedToken (token : String) : BgM Unit :=
  logEvent (Event.removeCachedAuthToken token)

/-- The eviction step of the calendar operations: look the cached token up without
interaction and, if there is one, remove it from the cache. -/
def evictCachedToken : BgM Unit := do
  let a ← getAuthToken false
  if truthy a.token then logEvent (Event.removeCachedAuthToken (a.token.getD ""))
  else pure ()

/-- `verifyScopes(token)`, started and not awaited: a probe of the token-info endpoint. -/
def verifyScopes (token : String) : BgM Unit :=
  logEvent (Event.tokenInfo token)

/-- `fetch(url, init)` against the remote service. -/
def fetch (req : Request) : BgM Response := fun env st =>
  (Except.ok (env.server st.requests),
    { st with requests := st.requests + 1, trace := st.trace ++ [Event.request req] })

/-! ## The remote operations of `background.js` -/

/-- Arguments of `createCalendarEvent`. -/
structure CreateArgs where
  title : String
  startISO : String
  endISO : String
  notes : Option String
  timeZone : Option String
  colorId : Option String
  calendarId : Option String
deriving DecidableEq, Repr

/-- Arguments of `toggleEventDone`. -/
structure ToggleArgs where
  eventId : String
  done : Bool
  originalTitle : String
  originalColorId : Option String
  calendarId : Option String
deriving DecidableEq, Repr

/-- Arguments of `deleteCalendarEvent`. -/
structure DeleteArgs where
  eventId : Option String
  calendarId : Option String
deriving DecidableEq, Repr

/-- Result of `deleteCalendarEvent`; a member left out reads as `false`. -/
structure DeleteResult where
  deleted : Bool
  notFound : Bool
deriving DecidableEq, Repr

/-- The request body built by `createCalendarEvent`. -/
def createBody (a : CreateArgs) (runtimeZone : String) : CreateBody :=
  let tz := orElse a.timeZone runtimeZone
  { summary := a.title,
    description := orElse a.notes "",
    startDateTime := a.startISO, startTimeZone := tz,
    endDateTime := a.endISO, endTimeZone := tz,
    colorId := if truthy a.colorId then a.colorId else none }

/-- The end of `createCalendarEvent` and `toggleEventDone`, run on the last
response `res`: `if (!res.ok) throw ...; return res.json()`. -/
def finishJson (label : String) (res : Response) : Except String JsonDoc :=
  if !res.ok then
    Except.error (label ++ " " ++ toString res.status ++ ": " ++ res.text)
  else res.json

/-- Lifts a finished result into the computation. -/
def BgM.ofExcept {α : Type} (r : Except String α) : BgM α := fun _ st => (r, st)

/-- `createCalendarEvent(args)` of `background.js`. -/
def createCalendarEvent (a : CreateArgs) : BgM JsonDoc := fun env =>
  (do
    let token ← getAccessTokenInteractive
    let body := createBody a env.timeZone
    let calendarId := a.calendarId.getD "primary"
    let res ← fetch { method := "POST", endpoint := Endpoint.events calendarId,
                      bearer := token, body := ReqBody.create body }
    -- retry once if token stale
    let res ←
      if res.status = 401 then do
        evictCachedToken
        let token ← getAccessTokenInteractive
        fetch { method := "POST", endpoint := Endpoint.events calendarId,
                bearer := token, body := ReqBody.create body }
      else pure res
    BgM.ofExcept (finishJson "calendar.create" res) : BgM JsonDoc) env

/-- The patch body built by `toggleEventDone`. -/
def patchBody (done : Bool) (originalTitle : String) (originalColorId : Option String) :
    PatchBody :=
  if done then
    { summary := "✓ " ++ originalTitle, colorId := Nullable.value "8",
      transparency := "transparent" }
  else
    { summary := originalTitle,
      colorId := if truthy originalColorId then Nullable.value (originalColorId.getD "")
                 else Nullable.null,
      transparency := "opaque" }

/-- `toggleEventDone(args)` of `background.js`. -/
def toggleEventDone (a : ToggleArgs) : BgM JsonDoc := do
  let token ← getAccessTokenInteractive
  let body := patchBody a.done a.originalTitle a.originalColorId
  let calendarId := a.calendarId.getD "primary"
  let res ← fetch { method := "PATCH", endpoint := Endpoint.event calendarId a.eventId,
                    bearer := token, body := ReqBody.patch body }
  let res ←
    if res.status = 401 then do
      evictCachedToken
      let token ← getAccessTokenInteractive
      fetch { method := "PATCH", endpoint := Endpoint.event calendarId a.eventId,
              bearer := token, body := ReqBody.patch body }
    else pure res
  BgM.ofExcept (finishJson "calendar.patch" res)

/-- The end of `deleteCalendarEvent`, run on the last response `res`. -/
def finishDelete (res : Response) : Except String DeleteResult :=
  -- Google Calendar returns 204 No Content on success
  if res.status = 204 then Except.ok { deleted := true, notFound := false }
  else if res.status = 404 then Except.ok { deleted := false, notFound := true }
  else Except.error ("calendar.delete " ++ toString res.status ++ ": " ++ res.text)

/-- `deleteCalendarEvent(args)` of `background.js`. -/
def deleteCalendarEvent (a : DeleteArgs) : BgM DeleteResult :=
  if !truthy a.eventId then pure { deleted := false, notFound := true }
  else do
    let eventId := a.eventId.getD ""
    let calendarId := a.calendarId.getD "primary"
    let token ← getAccessTokenInteractive
    let res ← fetch { method := "DELETE", endpoint := Endpoint.event calendarId eventId,
                      bearer := token, body := ReqBody.empty }
    -- retry once on stale token
    let res ←
      if res.status = 401 then do
        evictCachedToken
        let token ← getAccessTokenInteractive
        fetch { method := "DELETE", endpoint := Endpoint.event calendarId eventId,
                bearer := token, body := ReqBody.empty }
      else pure res
    BgM.ofExcept (finishDelete res)

/-- The body `gmailSend` keeps of a response: its JSON, or `{ note: 'No JSON body' }`. -/
def mailResponseBody (res : Response) : JsonDoc :=
  match res.json with
  | Except.ok j => j
  | Except.error _ => { id := none, rendered := "\x7b\"note\":\"No JSON body\"\x7d" }

/-- The end of `gmailSend`, run on the last response `res`. -/
def finishMail (res : Response) : Except String JsonDoc :=
  if !res.ok then
    Except.error ("gmail.send " ++ toString res.status ++ ": " ++ (mailResponseBody res).rendered)
  else Except.ok (mailResponseBody res)

/-- The part of `gmailSend` that follows the encoding of the message: it submits
the encoded message `raw` to the send endpoint. -/
def gmailSendRaw (raw : String) : BgM JsonDoc := do
  let token ← getAccessTokenInteractive
  verifyScopes token
  let res ← fetch { method := "POST", endpoint := Endpoint.gmailSend,
                    bearer := token, body := ReqBody.mail raw }
  -- Handle expired/invalid token quickly
  let res ←
    if res.status = 401 then do
      removeCachedToken token
      let token ← getAccessTokenInteractive
      verifyScopes token
      fetch { method := "POST", endpoint := Endpoint.gmailSend,
              bearer := token, body := ReqBody.mail raw }
    else pure res
  BgM.ofExcept (finishMail res)

/-! ## The message router of `background.js` -/

/-- The arguments `createCalendarEvent` takes out of a `CREATE_EVENT` payload. -/
def CreatePayload.toArgs (p : CreatePayload) : CreateArgs :=
  { title := p.title, startISO := p.startISO, endISO := p.endISO, notes := some p.notes,
    timeZone := p.timeZone, colorId := p.colorId, calendarId := none }

/-- The arguments `toggleEventDone` takes out of a `TOGGLE_DONE` payload. -/
def TogglePayload.toArgs (p : TogglePayload) : ToggleArgs :=
  { eventId := p.eventId.getD "undefined", done := p.done, originalTitle := p.originalTitle,
    originalColorId := p.originalColorId, calendarId := none }

/-- The reply of the `DELETE_EVENT` case to a result of `deleteCalendarEvent`. -/
def deleteReply : Except String DeleteResult → Resp
  | Except.ok data =>
    if data.deleted then { ok := true }
    else if data.notFound then { ok := false, code := some 404, error := some "Event not found" }
    else { ok := false, error := some "Delete failed" }
  | Except.error e => { ok := false, error := some e }

/-- The reply of the `CREATE_EVENT` and `TOGGLE_DONE` cases to a result. -/
def dataReply : Except String JsonDoc → Resp
  | Except.ok data => { ok := true, data := some data }
  | Except.error e => { ok := false, error := some e }

/-! ## The remote operations as one family -/

/-- One of the four remote operations, with its arguments; `gmail raw` is
`gmailSend` from its first token request on, for the encoded message `raw`. -/
inductive RemoteOp where
  | create (a : CreateArgs)
  | toggle (a : ToggleArgs)
  | delete (a : DeleteArgs)
  | gmail (raw : String)
deriving DecidableEq, Repr

/-- The value a remote operation resolves with. -/
inductive OpResult where
  | json (j : JsonDoc)
  | deleted (r : DeleteResult)
deriving DecidableEq, Repr

/-- Runs a remote operation. -/
def RemoteOp.run (op : RemoteOp) (env : Env) (st : Bg) : Except String OpResult × Bg :=
  match op with
  | RemoteOp.create a =>
    let out := createCalendarEvent a env st
    (out.1.map OpResult.json, out.2)
  | RemoteOp.toggle a =>
    let out := toggleEventDone a env st
    (out.1.map OpResult.json, out.2)
  | RemoteOp.delete a =>
    let out := deleteCalendarEvent a env st
    (out.1.map OpResult.deleted, out.2)
  | RemoteOp.gmail raw =>
    let out := gmailSendRaw raw env st
    (out.1.map OpResult.json, out.2)

/-- What the end of the operation makes of the last response. -/
def RemoteOp.finish (op : RemoteOp) (res : Response) : Except String OpResult :=
  match op with
  | RemoteOp.create _ => (finishJson "calendar.create" res).map OpResult.json
  | RemoteOp.toggle _ => (finishJson "calendar.patch" res).map OpResult.json
  | RemoteOp.delete _ => (finishDelete res).map OpResult.deleted
  | RemoteOp.gmail _ => (finishMail res).map OpResult.json

/-- Whether the operation gets as far as the network: `deleteCalendarEvent`
returns at once when its `eventId` is missing or empty. -/
def RemoteOp.sendsRequests : RemoteOp → Bool
  | RemoteOp.delete a => truthy a.eventId
  | _ => true

/-- The requests of a trace, in order. -/
def requestsOf (trace : List Event) : List Request :=
  trace.filterMap (fun e => match e with
    | Event.request req => some req
    | _ => none)

/-- Whether an effect is a request to the remote service. -/
def Event.isRequest : Event → Bool
  | Event.request _ => true
  | _ => false

/-- The effects that happen strictly between the first and the second request. -/
def betweenRequests (trace : List Event) : List Event :=
  ((trace.dropWhile (fun e => !e.isRequest)).drop 1).takeWhile (fun e => !e.isRequest)

/-- Number of cache evictions (`removeCachedAuthToken`) among some effects. -/
def evictions (events : List Event) : Nat :=
  events.countP (fun e => match e with
    | Event.removeCachedAuthToken _ => true
    | _ => false)

/-- Number of token refreshes (interactive `getAuthToken`) among some effects. -/
def refreshes (events : List Event) : Nat :=
  events.countP (fun e => match e with
    | Event.getAuthToken true => true
    | _ => false)

/-! ## The create flow of the popup -/

/-- The payload of the `CREATE_EVENT` message built by the create click handler;
`colorIdToUse` is the colour the handler resolved. -/
def createPayload (title startISO endISO notes : String) (tz : String)
    (colorIdToUse : String) (sectionName : String) : CreatePayload :=
  { title := title, startISO := startISO, endISO := endISO, notes := notes,
    timeZone := some tz, colorId := orNull (some colorIdToUse), section_ := sectionName }

/-- The task record the create click handler pushes after a successful create. -/
def newTaskRecord (title : String) (eventId : Option String) (colorIdToUse : String)
    (ts : Nat) : Task :=
  { title := title, done := false, ts := ts, eventId := eventId,
    originalColorId := some (orElse (some colorIdToUse) "") }

/-- What the response callback of the create click handler leaves behind:
the store, the text of the status line, the notices shown on the to-do tab and
the list handed to `renderTodos`, if any. -/
structure CreateOut where
  store : Storage
  status : String
  notices : List (String × String)
  rendered : Option (List Task)
deriving DecidableEq, Repr

/-- The response callback of the create click handler. `title`, `start`,
`colorIdToUse` and `shownDate` are the values the click handler computed before
sending; `ts` is `Date.now()` and `now` the clock reading of `todayKey()`.
A reply that is ok but carries no `data` makes `event.id` throw, which ends the
callback before anything is written. -/
def createCallback (title : String) (start : JsDate) (colorIdToUse : String)
    (shownDate : String) (ts : Nat) (now : JsDate) (resp : Option Resp)
    (store : Storage) : CreateOut :=
  let status := if respOk resp then "Event successfully created!"
                else respErrorOr resp "Failed to create event"
  if !respOk resp then
    { store := store, status := status, notices := [], rendered := none }
  else
    match resp.bind Resp.data with
    | none => { store := store, status := status, notices := [], rendered := none }
    | some event =>
      -- Add to the event-day to-dos (not always "today")
      let eventId := event.id
      let listKey := keyForDate start
      let items := store.bucket listKey ++ [newTaskRecord title eventId colorIdToUse ts]
      let store1 := store.set listKey (StoreVal.tasks items)
      -- Refresh UI only if the event is for today
      if listKey = todayKey now then
        { store := store1, status := status, notices := [("Added to today’s list", "ok")],
          rendered := some items }
      else
        { store := store1, status := status,
          notices := [("Added to " ++ shownDate ++ " to-dos", "ok")], rendered := none }

/-! ## The remote calendar -/

/-- Modelled from the spec: the calendar service, which is not code of the
repository. The remote event is kept in the members the extension writes: a
create stores the members of the request body, a patch overwrites the members it
names, and an explicit `null` clears the colour. -/
structure RemoteEvent where
  summary : String
  colorId : Option String
  transparency : Option String
deriving DecidableEq, Repr

/-- Modelled from the spec: the event the calendar service stores for a create
request (`summary` and the optional `colorId` of the body). -/
def RemoteEvent.ofCreate (b : CreateBody) : RemoteEvent :=
  { summary := b.summary, colorId := b.colorId, transparency := none }

/-- Modelled from the spec: the event after the calendar service applied a
done-toggle patch, which names `summary`, `colorId` and `transparency`. -/
def RemoteEvent.applyPatch (_ev : RemoteEvent) (p : PatchBody) : RemoteEvent :=
  { summary := p.summary,
    colorId := match p.colorId with
      | Nullable.null => none
      | Nullable.value c => some c,
    transparency := some p.transparency }

/-- The patch body the background builds for a `TOGGLE_DONE` payload of the popup. -/
def patchBodyOfPayload (payload : TogglePayload) : PatchBody :=
  patchBody payload.toArgs.done payload.toArgs.originalTitle payload.toArgs.originalColorId

/-- The remote event after the create request built from a popup payload. -/
def remoteAfterCreate (payload : CreatePayload) (runtimeZone : String) : RemoteEvent :=
  RemoteEvent.ofCreate (createBody payload.toArgs runtimeZone)

/-- The remote event after the patch request of a toggle of the task `t`. -/
def remoteAfterToggle (ev : RemoteEvent) (t : Task) (nextDone : Bool) : RemoteEvent :=
  ev.applyPatch (patchBodyOfPayload (togglePayload t nextDone))

/-! ## The clock and the calendar of the runtime

Instants are time values: milliseconds since the epoch. The functions below are
the date algorithms of ECMAScript. The getters read a date through the value of
`getTimezoneOffset()` at that date; the setters work in the local time scale of
a `Zone`, whose offset may change. -/

/-- Milliseconds in a day. -/
def msPerDay : Int := 86400000

/-- Milliseconds in an hour. -/
def msPerHour : Int := 3600000

/-- Milliseconds in a minute. -/
def msPerMinute : Int := 60000

/-- `Day(t)`: the day number of a time value. -/
def dayOf (t : Int) : Int := t / msPerDay

/-- `TimeWithinDay(t)`. -/
def timeWithinDay (t : Int) : Int := t % msPerDay

/-- `DaysInYear(y)`. -/
def daysInYear (y : Int) : Int :=
  if y % 4 ≠ 0 then 365
  else if y % 100 ≠ 0 then 366
  else if y % 400 ≠ 0 then 365
  else 366

/-- `DayFromYear(y)`: the day number of the first day of year `y`. -/
def dayFromYear (y : Int) : Int :=
  365 * (y - 1970) + (y - 1969) / 4 - (y - 1901) / 100 + (y - 1601) / 400

/-- Search of `YearFromTime`: goes up from a year not after the one sought. -/
def yearFromDayAux : Nat → Int → Int → Int
  | 0, y, _ => y
  | fuel + 1, y, d => if dayFromYear (y + 1) ≤ d then yearFromDayAux fuel (y + 1) d else y

/-- `YearFromTime`, on day numbers: the largest year whose first day is not after `d`. -/
def yearFromDay (d : Int) : Int :=
  yearFromDayAux (d.natAbs / 100000 + 4) (1970 + min (d / 365) (d / 366)) d

/-- `InLeapYear`, as 0 or 1, for a year. -/
def leapDays (y : Int) : Int :=
  if daysInYear y = 366 then 1 else 0

/-- `DayWithinYear`, on day numbers. -/
def dayWithinYear (d : Int) : Int :=
  d - dayFromYear (yearFromDay d)

/-- Number of days of the year that precede the month `m` (zero based). -/
def daysBeforeMonth (leap : Int) (m : Nat) : Int :=
  match m with
  | 0 => 0
  | 1 => 31
  | 2 => 59 + leap
  | 3 => 90 + leap
  | 4 => 120 + leap
  | 5 => 151 + leap
  | 6 => 181 + leap
  | 7 => 212 + leap
  | 8 => 243 + leap
  | 9 => 273 + leap
  | 10 => 304 + leap
  | _ => 334 + leap

/-- The month (zero based) of the day `w` within a year, `leap` being 1 in a leap
year and 0 otherwise. -/
def monthOfYearDay (w leap : Int) : Fin 12 :=
  if w < 31 then 0
  else if w < 59 + leap then 1
  else if w < 90 + leap then 2
  else if w < 120 + leap then 3
  else if w < 151 + leap then 4
  else if w < 181 + leap then 5
  else if w < 212 + leap then 6
  else if w < 243 + leap then 7
  else if w < 273 + leap then 8
  else if w < 304 + leap then 9
  else if w < 334 + leap then 10
  else 11

/-- `MonthFromTime`, on day numbers (zero based). -/
def monthFromDay (d : Int) : Nat :=
  (monthOfYearDay (dayWithinYear d) (leapDays (yearFromDay d))).val

/-- `DateFromTime`, on day numbers: the day of the month. -/
def dateFromDay (d : Int) : Int :=
  dayWithinYear d - daysBeforeMonth (leapDays (yearFromDay d)) (monthFromDay d) + 1

/-- `WeekDay`, on day numbers: 0 is Sunday. -/
def weekDay (d : Int) : Int := (d + 4) % 7

/-- `MakeDay(year, month, date)`: the day number of a calendar date, the month
being carried into the year and the date counted from the first of the month. -/
def makeDay (year : Int) (month : Nat) (date : Int) : Int :=
  let ym := year + month / 12
  let mn := month % 12
  dayFromYear ym + daysBeforeMonth (leapDays ym) mn + date - 1

/-- `LocalTime(t)` for the offset `tzOffset` (`getTimezoneOffset()`, minutes). -/
def localTime (tzOffset : Int) (t : Int) : Int := t - tzOffset * msPerMinute

/-- `UTC(t)`: the time value of a local time. -/
def utcTime (tzOffset : Int) (local_ : Int) : Int := local_ + tzOffset * msPerMinute

/-- A zone with one offset at all times; `tzOffset` is its `getTimezoneOffset()`. -/
def Zone.fixed (tzOffset : Int) : Zone :=
  { localOf := localTime tzOffset, utcOf := utcTime tzOffset }

/-- A zone whose offset from UTC (local time minus UTC, in milliseconds) is
`before` up to the instant `change` and `after` from it on. A local time that
the change skips or repeats is given the instant it has with the offset before
the change, as `UTC(t)` of ECMAScript requires. -/
def Zone.oneChange (before after change : Int) : Zone :=
  { localOf := fun t => if t < change then t + before else t + after,
    utcOf := fun l => if l < change + max before after then l - before else l - after }

/-- `getDate()` of the date object with time value `t`. -/
def getDate (z : Zone) (t : Int) : Int :=
  dateFromDay (dayOf (z.localOf t))

/-- `getHours()`. -/
def getHours (tzOffset : Int) (t : Int) : Int :=
  timeWithinDay (localTime tzOffset t) / msPerHour

/-- `getMinutes()`. -/
def getMinutes (tzOffset : Int) (t : Int) : Int :=
  timeWithinDay (localTime tzOffset t) / msPerMinute % 60

/-- `getSeconds()`. -/
def getSeconds (tzOffset : Int) (t : Int) : Int :=
  timeWithinDay (localTime tzOffset t) / 1000 % 60

/-- `setHours(0, 0, 0, 0)`: the time value of the start of the local day of `t`. -/
def setHoursZero (z : Zone) (t : Int) : Int :=
  z.utcOf (dayOf (z.localOf t) * msPerDay)

/-- `setDate(date)`: the local day is remade from the year and month of `t` and
the given date; the time within the day is kept. -/
def setDate (z : Zone) (t : Int) (date : Int) : Int :=
  let lt := z.localOf t
  let d := dayOf lt
  z.utcOf (makeDay (yearFromDay d) (monthFromDay d) date * msPerDay + timeWithinDay lt)

/-- The local getters `getFullYear()`, `getMonth()`, `getDate()` of the date object
with time value `t`. -/
def localFields (tzOffset : Int) (t : Int) : JsDate :=
  let d := dayOf (localTime tzOffset t)
  { fullYear := yearFromDay d, month := monthFromDay d, date := (dateFromDay d).toNat }

/-- Whether the instant `t` is a local midnight: 00:00:00.000 local time. -/
def IsLocalMidnight (z : Zone) (t : Int) : Prop :=
  timeWithinDay (z.localOf t) = 0

instance (z : Zone) (t : Int) : Decidable (IsLocalMidnight z t) := by
  unfold IsLocalMidnight
  infer_instance

/-- The local clock reaches the local time `l` at the instant `utcOf l`: it reads
`l` there, an earlier time at every earlier instant, and no earlier time at any
later instant. A local time that a change of offset skips is not reached. -/
def Zone.Reaches (z : Zone) (l : Int) : Prop :=
  z.localOf (z.utcOf l) = l ∧
  (∀ t, t < z.utcOf l → z.localOf t < l) ∧
  (∀ t, z.utcOf l ≤ t → l ≤ z.localOf t)

/-- The local clock passes the local time `l` exactly once: it reaches it, and
reads a later time at every later instant. A local time that a change of offset
repeats is not passed once. -/
def Zone.PassesOnce (z : Zone) (l : Int) : Prop :=
  z.Reaches l ∧ ∀ t, z.utcOf l < t → l < z.localOf t

/-! ## The scheduling of the daily digest (`background.js`) -/

/-- `nextLocalMidnight()` of `background.js`; `now` is the value of `new Date()`. -/
def nextLocalMidnight (z : Zone) (now : Int) : Int :=
  let next := setHoursZero z now
  if next ≤ now then setDate z next (getDate z next + 1)
  else next

/-! ## `chrome.storage.sync` and the clock, as the background uses them -/

/-- Truthiness of a stored value; a value of another kind is given by its
canonical JSON text, of which `null` and `0` are falsy. -/
def StoreVal.truthy : StoreVal → Bool
  | StoreVal.tasks _ => true
  | StoreVal.bool b => b
  | StoreVal.str s => s != ""
  | StoreVal.other json => json != "null" && json != "0"

/-- The string a stored value becomes inside a template literal; a value of
another kind (a number, `null`) is given by its JSON text. -/
def StoreVal.toJsString : StoreVal → String
  | StoreVal.tasks items => String.intercalate "," (items.map (fun _ => "[object Object]"))
  | StoreVal.bool b => if b then "true" else "false"
  | StoreVal.str s => s
  | StoreVal.other json => json

/-- The records of the given keys: the object `get(keys)` resolves with. -/
def Storage.pick (s : Storage) (keys : List String) : Storage :=
  s.filter (fun p => keys.contains p.1)

/-- The store without the records of the given keys (`remove(keys)`). -/
def Storage.remove (s : Storage) (keys : List String) : Storage :=
  s.filter (fun p => !keys.contains p.1)

/-- The store after `set(items)`: the items are written one after the other. -/
def Storage.setMany (s : Storage) (items : List (String × StoreVal)) : Storage :=
  items.foldl (fun acc p => acc.set p.1 p.2) s

/-- `Object.keys(all)`. -/
def Storage.keys (s : Storage) : List String :=
  s.map Prod.fst

/-- `await chrome.storage.sync.get(keys)`; `none` stands for `get(null)`, which
resolves with every record. -/
def storageGet (keys : Option (List String)) : BgM Storage := fun env st =>
  let st1 := { st with storageOps := st.storageOps + 1,
                       trace := st.trace ++ [Event.storageGet keys] }
  match env.storageFault st.storageOps with
  | some msg => (Except.error msg, st1)
  | none =>
    (Except.ok (match keys with
      | none => st.store
      | some ks => st.store.pick ks), st1)

/-- `await chrome.storage.sync.set(items)`. -/
def storageSet (items : List (String × StoreVal)) : BgM Unit := fun env st =>
  let st1 := { st with storageOps := st.storageOps + 1,
                       trace := st.trace ++ [Event.storageSet items] }
  match env.storageFault st.storageOps with
  | some msg => (Except.error msg, st1)
  | none => (Except.ok (), { st1 with store := st.store.setMany items })

/-- `await chrome.storage.sync.remove(keys)`. -/
def storageRemove (keys : List String) : BgM Unit := fun env st =>
  let st1 := { st with storageOps := st.storageOps + 1,
                       trace := st.trace ++ [Event.storageRemove keys] }
  match env.storageFault st.storageOps with
  | some msg => (Except.error msg, st1)
  | none => (Except.ok (), { st1 with store := st.store.remove keys })

/-- `new Date()`: the next reading of the clock. -/
def readClock : BgM Int := fun env st =>
  (Except.ok (env.clock st.clockReads), { st with clockReads := st.clockReads + 1 })

/-- `try { body } catch (e) { handler(e) }`. -/
def BgM.tryCatch {α : Type} (body : BgM α) (handler : String → BgM α) : BgM α :=
  fun env st =>
    match body env st with
    | (Except.ok a, st1) => (Except.ok a, st1)
    | (Except.error e, st1) => handler e env st1

/-! ## Building and sending mail (`background.js`) -/

/-- The UTF-8 bytes of a character (`TextEncoder`). -/
def utf8EncodeChar (c : Char) : List Nat :=
  let n := c.toNat
  if n < 0x80 then [n]
  else if n < 0x800 then [0xC0 + n / 64, 0x80 + n % 64]
  else if n < 0x10000 then [0xE0 + n / 4096, 0x80 + n / 64 % 64, 0x80 + n % 64]
  else [0xF0 + n / 262144, 0x80 + n / 4096 % 64, 0x80 + n / 64 % 64, 0x80 + n % 64]

/-- `new TextEncoder().encode(str)`. -/
def utf8Encode (str : String) : List Nat :=
  str.toList.flatMap utf8EncodeChar

/-- The Base64 alphabet. -/
def base64Alphabet : List Char :=
  "ABCDEFGHIJKLMNOPQRSTUVWXYZabcdefghijklmnopqrstuvwxyz0123456789+/".toList

/-- The Base64 digit of a six-bit value. -/
def base64Digit (v : Nat) : Char :=
  base64Alphabet.getD v '='

/-- `btoa` on the binary string of the given bytes: Base64 with padding. -/
def btoa : List Nat → List Char
  | a :: b :: c :: rest =>
    base64Digit (a / 4) :: base64Digit (a % 4 * 16 + b / 16) ::
      base64Digit (b % 16 * 4 + c / 64) :: base64Digit (c % 64) :: btoa rest
  | [a, b] =>
    [base64Digit (a / 4), base64Digit (a % 4 * 16 + b / 16), base64Digit (b % 16 * 4), '=']
  | [a] => [base64Digit (a / 4), base64Digit (a % 4 * 16), '=', '=']
  | [] => []

/-- `toBase64Url(str)` of `background.js`: UTF-8, Base64, `+` and `/` replaced by
`-` and `_`, trailing `=` removed. -/
def toBase64Url (str : String) : String :=
  let bytes := utf8Encode str
  let b64 := btoa bytes
  let replaced := b64.map (fun c => if c = '+' then '-' else if c = '/' then '_' else c)
  String.mk (replaced.reverse.dropWhile (fun c => c == '=')).reverse

/-- The first three characters of `toUTCString()`: the name of the day of the week. -/
def weekDayName (w : Int) : String :=
  match w.toNat with
  | 0 => "Sun"
  | 1 => "Mon"
  | 2 => "Tue"
  | 3 => "Wed"
  | 4 => "Thu"
  | 5 => "Fri"
  | _ => "Sat"

/-- The characters 8 to 10 of `toUTCString()`: the name of the month. -/
def monthName (m : Nat) : String :=
  match m with
  | 0 => "Jan"
  | 1 => "Feb"
  | 2 => "Mar"
  | 3 => "Apr"
  | 4 => "May"
  | 5 => "Jun"
  | 6 => "Jul"
  | 7 => "Aug"
  | 8 => "Sep"
  | 9 => "Oct"
  | 10 => "Nov"
  | _ => "Dec"

/-- `rfc2822Date(d)` of `background.js`, for the date object with time value `d`
in a time zone whose `getTimezoneOffset()` is `tzOffset`. -/
def rfc2822Date (tzOffset : Int) (d : Int) : String :=
  let day := weekDayName (weekDay (dayOf d))
  let dd := padStart (toString (dateFromDay (dayOf d))) 2 '0'
  let mon := monthName (monthFromDay (dayOf d))
  let yyyy := yearFromDay (dayOf d)
  let hh := padStart (toString (getHours tzOffset d)) 2 '0'
  let mm := padStart (toString (getMinutes tzOffset d)) 2 '0'
  let ss := padStart (toString (getSeconds tzOffset d)) 2 '0'
  -- tz = offset / -60, and sign = tz >= 0 ? '+' : '-'
  let sign := if tzOffset ≤ 0 then "+" else "-"
  let tzh := padStart (toString (tzOffset.natAbs / 60)) 2 '0'
  let tzm := padStart (toString (tzOffset.natAbs % 60)) 2 '0'
  day ++ ", " ++ dd ++ " " ++ mon ++ " " ++ toString yyyy ++ " " ++ hh ++ ":" ++ mm ++ ":" ++ ss
    ++ " " ++ sign ++ tzh ++ tzm

/-- The argument `{ from, to, subject, text }` of `buildMime`. -/
structure MailArgs where
  from_ : String
  to_ : String
  subject : String
  text : Option String
deriving DecidableEq, Repr

/-- The lines `buildMime` joins. -/
def mimeLines (a : MailArgs) (tzOffset now : Int) : List String :=
  [ "From: taskadealerts@gmail.com",
    "To: " ++ a.to_,
    "Subject: " ++ a.subject,
    "Date: " ++ rfc2822Date tzOffset now,
    "MIME-Version: 1.0",
    "Content-Type: text/plain; charset=\"UTF-8\"",
    "Content-Transfer-Encoding: 8bit",
    "",
    orElse a.text "" ]

/-- `buildMime(args)` of `background.js`; `now` is the reading of the clock in
its call of `rfc2822Date()`. -/
def buildMime (a : MailArgs) (tzOffset now : Int) : String :=
  String.intercalate "\r\n" (mimeLines a tzOffset now)

/-- `getUserEmail()` of `background.js`. -/
def getUserEmail : BgM String := fun env st =>
  (Except.ok (orElse env.profileEmail "me"),
    { st with trace := st.trace ++ [Event.getProfileUserInfo] })

/-- `gmailSend({ to, subject, text })` of `background.js`. -/
def gmailSend (to_ subject : String) (text : Option String) : BgM JsonDoc := fun env =>
  (do
    let fromEmail ← getUserEmail
    let now ← readClock
    let mime := buildMime { from_ := fromEmail, to_ := to_, subject := subject, text := text }
      env.tzOffset now
    let raw := toBase64Url mime
    gmailSendRaw raw : BgM JsonDoc) env

/-- The body of the welcome mail. -/
def welcomeBody : String :=
  "You're subscribed!  \n  I'll email you a summary of your unfinished tasks each night.\n\n" ++
  "  Remember: progress is progress, even if it's just one small step.  \n" ++
  "  You've got this!\n\nBest Regards, \nTaskade"

/-- `sendWelcomeEmail(to)` of `background.js`. -/
def sendWelcomeEmail (to_ : String) : BgM JsonDoc :=
  gmailSend to_ "Taskade: Notifications enabled" (some welcomeBody)

/-- The body of the goodbye mail. -/
def goodbyeBody : String :=
  "You've unsubscribed from nightly task reminders.  \n  Even without me, remember:  \n" ++
  "  Every day is a new opportunity to reset, refocus, and try again.\n\nBest Regards, \nTaskade"

/-- `sendGoodbyeEmail(to)` of `background.js`. -/
def sendGoodbyeEmail (to_ : String) : BgM JsonDoc :=
  gmailSend to_ "Taskade: Notifications disabled" (some goodbyeBody)

/-! ## The unfinished tasks and the manual digest (`background.js`) -/

/-- A stored value read with a default that is falsy (`false`, `''`), as a condition. -/
def prefTruthy : Option StoreVal → Bool
  | some v => v.truthy
  | none => false

/-- A stored value read with the default `''`, as the string it gives in a template. -/
def prefString : Option StoreVal → String
  | some v => v.toJsString
  | none => ""

/-- `Array.isArray(v) ? v : []` for a stored value. -/
def itemsOf : Option StoreVal → List Task
  | some (StoreVal.tasks items) => items
  | _ => []

/-- `s.startsWith(p)`. -/
def startsWith (s p : String) : Bool :=
  p.toList.isPrefixOf s.toList

/-- The keys of the day buckets: `Object.keys(all).filter(k => k.startsWith('todos_'))`. -/
def todoKeysOf (all : Storage) : List String :=
  all.keys.filter (fun k => startsWith k "todos_")

/-- The line pushed for a task. -/
def bulletLine (it : Task) : String :=
  "• " ++ it.title

/-- The lines pushed for the items of one bucket: a line for every item that is
not done and has a (non-empty) title. -/
def unfinishedOf (items : List Task) : List String :=
  (items.filter (fun it => !it.done && it.title != "")).map bulletLine

/-- The list `unfinished` that `emailUnfinishedNow` builds from all records. -/
def unfinishedNowLines (all : Storage) : List String :=
  (todoKeysOf all).flatMap (fun k => unfinishedOf (itemsOf (all.get k)))

/-- `emailUnfinishedNow()` of `background.js`. -/
def emailUnfinishedNow : BgM Unit := fun env =>
  (do
    let prefs ← storageGet (some ["notifyEnabled", "notifyEmail"])
    let notifyEnabled := prefs.get "notifyEnabled"
    let notifyEmail := prefs.get "notifyEmail"
    if !prefTruthy notifyEnabled || !prefTruthy notifyEmail then pure ()
    else do
      let all ← storageGet none
      let unfinished := unfinishedNowLines all
      if unfinished.length = 0 then pure ()
      else do
        let now ← readClock
        let _ ← gmailSend (prefString notifyEmail)
          ("Unfinished tasks (" ++ env.toLocaleString now ++ ")")
          (some (String.intercalate "\n" unfinished))
        pure () : BgM Unit) env

/-! ## The nightly digest (`background.js`) -/

namespace Background

/-- `todayKey()` of `background.js`; `now` is the value of its `new Date()`. -/
def todayKey (now : JsDate) : String :=
  let d := now
  let yyyy := d.fullYear
  let mm := padStart (toString (d.month + 1)) 2 '0'
  let dd := padStart (toString d.date) 2 '0'
  "todos_" ++ toString yyyy ++ "-" ++ mm ++ "-" ++ dd

end Background

/-- Modelled from the spec: the one-shot timers of `chrome.alarms`, which are not
code of the repository. A timer is known by its name; creating one replaces a
pending timer of the same name. -/
def alarmsCreate (name : String) (scheduled : Int) : BgM Unit := fun _ st =>
  (Except.ok (),
    { st with alarms := st.alarms.filter (fun a => a.1 != name) ++ [(name, scheduled)],
              trace := st.trace ++ [Event.alarmCreate name scheduled] })

/-- `scheduleDailyAlarm()` of `background.js`. -/
def scheduleDailyAlarm : BgM Unit := fun env =>
  (do
    let now ← readClock
    let next := nextLocalMidnight env.zone now
    alarmsCreate "dailyDigest" next : BgM Unit) env

/-- The list `unfinished` that the alarm handler builds: the buckets other than
today's, in the order of the keys. -/
def digestLines (all : Storage) (tKey : String) : List String :=
  ((todoKeysOf all).filter (fun key => key != tKey)).flatMap
    (fun key => unfinishedOf (itemsOf (all.get key)))

/-- The subject of the digest mail, from the local getters of its `new Date()`. -/
def digestSubject (now : JsDate) : String :=
  let yyyy := now.fullYear
  let mm := padStart (toString (now.month + 1)) 2 '0'
  let dd := padStart (toString now.date) 2 '0'
  "Taskade: Unfinished tasks for " ++ toString yyyy ++ "-" ++ mm ++ "-" ++ dd

/-- The body of the digest mail. -/
def digestBody (unfinished : List String) : String :=
  String.intercalate "\n"
    (["Here are tasks that carried over:", ""] ++ unfinished ++
     ["\nIt's okay you didn't finish everything today.",
      "Tomorrow is a new day. Taskade will wipe the slate clean so you can start fresh.",
      "Best regards,",
      "Taskade"])

/-- The `try` block of the alarm handler after its first statement: the digest
and the cleanup. -/
def digestAndCleanup : BgM Unit := fun env =>
  (do
    let prefs ← storageGet (some ["notifyEnabled", "notifyEmail"])
    let notifyEnabled := prefs.get "notifyEnabled"
    let notifyEmail := prefs.get "notifyEmail"
    -- Gather unfinished items from all prior days (not today)
    let all ← storageGet none
    let today ← readClock
    let tKey := Background.todayKey (localFields env.tzOffset today)
    let todoKeys := todoKeysOf all
    let unfinished := digestLines all tKey
    -- Send email if enabled and we have something to report
    if prefTruthy notifyEnabled && prefTruthy notifyEmail && unfinished.length != 0 then do
      let now ← readClock
      let subject := digestSubject (localFields env.tzOffset now)
      let body := digestBody unfinished
      BgM.tryCatch
        (do let _ ← gmailSend (prefString notifyEmail) subject (some body); pure ())
        (fun _ => pure ())
    else pure ()
    -- Cleanup: remove all prior-day lists unconditionally
    let keysToRemove := todoKeys.filter (fun k => k != tKey)
    if keysToRemove.length != 0 then storageRemove keysToRemove
    else pure () : BgM Unit) env

/-- The `try` block of the alarm handler. -/
def onAlarmBody : BgM Unit := do
  -- Reschedule the next run immediately to avoid drift
  scheduleDailyAlarm
  digestAndCleanup

/-- The `chrome.alarms.onAlarm` listener of `background.js`. -/
def onAlarm (alarmName : String) : BgM Unit :=
  if alarmName != "dailyDigest" then pure ()
  else
    BgM.tryCatch onAlarmBody
      -- Even on error, try to ensure we reschedule next run
      (fun _ => BgM.tryCatch scheduleDailyAlarm (fun _ => pure ()))

/-- Modelled from the spec: a one-shot timer of `chrome.alarms` fires. It is no
longer pending, and the `onAlarm` listener runs. -/
def fireAlarm (name : String) : BgM Unit := fun env st =>
  onAlarm name env { st with alarms := st.alarms.filter (fun a => a.1 != name) }

/-- The state after the `onInstalled` or `onStartup` listener. -/
def startup (env : Env) (st : Bg) : Bg :=
  (scheduleDailyAlarm env st).2

/-- The state after `n` consecutive fires of the `dailyDigest` timer. -/
def afterFires (env : Env) : Nat → Bg → Bg
  | 0, st => st
  | n + 1, st => (fireAlarm "dailyDigest" env (afterFires env n st)).2

/-- The pending timers named `dailyDigest`. -/
def pendingDigest (st : Bg) : List (String × Int) :=
  st.alarms.filter (fun a => a.1 == "dailyDigest")

/-! ## The notification preference (`background.js` and `popup.js`) -/

/-- `String.prototype.trim()`. -/
def jsTrim (s : String) : String :=
  String.mk ((s.toList.dropWhile isJsSpace).reverse.dropWhile isJsSpace).reverse

/-- The class `[^\s@]`. -/
def isAddrChar (c : Char) : Bool :=
  !isJsSpace c && c != '@'

/-- The ways `[^\s@]+` can match at the head of the input: the rest after each
of them, the longest match first. -/
def addrRunRests : List Char → List (List Char)
  | [] => []
  | c :: cs => if isAddrChar c then addrRunRests cs ++ [cs] else []

/-- `/^[^\s@]+@[^\s@]+\.[^\s@]+$/.test(s)`. -/
def emailReTest (s : String) : Bool :=
  (addrRunRests s.toList).any (fun r1 =>
    match r1 with
    | '@' :: r2 =>
      (addrRunRests r2).any (fun r3 =>
        match r3 with
        | '.' :: r4 => (addrRunRests r4).any (fun r5 => r5.isEmpty)
        | _ => false)
    | _ => false)

/-- `validEmail(s)` of `popup.js`. -/
def validEmail (s : String) : Bool :=
  emailReTest s

/-- The `NOTIFY_TOGGLE` case of the message router of `background.js`: the reply
passed to `sendResponse`. A rejection goes to the `catch` of the router. -/
def notifyToggle (msgEnabled : Bool) (msgEmail : Option String) : BgM Resp :=
  let enabled := msgEnabled
  let email := jsTrim (orElse msgEmail "")
  if enabled then
    if !emailReTest email then
      pure { ok := false, error := some "Invalid email" }
    else do
      storageSet [("notifyEnabled", StoreVal.bool true), ("notifyEmail", StoreVal.str email)]
      -- Best-effort welcome email; success not required to register
      BgM.tryCatch (do let _ ← sendWelcomeEmail email; pure ()) (fun _ => pure ())
      pure { ok := true }
  else do
    let got ← storageGet (some ["notifyEmail"])
    let notifyEmail := got.get "notifyEmail"
    storageSet [("notifyEnabled", StoreVal.bool false)]
    -- Best-effort goodbye email
    if prefTruthy notifyEmail then
      BgM.tryCatch (do let _ ← sendGoodbyeEmail (prefString notifyEmail); pure ())
        (fun _ => pure ())
    else pure ()
    pure { ok := true }

/-- What `saveNotifySettings` leaves behind: the store after its own write, the
message sent, and the text and class of the status line. -/
structure NotifyOut where
  store : Storage
  sent : List Message
  status : String × String
deriving DecidableEq, Repr

/-- `saveNotifySettings()` of `popup.js`; `checked` and `emailValue` are the state
of the checkbox and of the email field, `reply` is the answer of the background. -/
def saveNotifySettings (checked : Bool) (emailValue : String)
    (reply : Message → Option Resp) (store : Storage) : NotifyOut :=
  let enabled := checked
  let email := jsTrim emailValue
  -- Optimistically save UI state
  let store1 := store.setMany
    [("notifyEnabled", StoreVal.bool enabled), ("notifyEmail", StoreVal.str email)]
  if !enabled then
    -- Turning OFF: ask background to unregister and email a goodbye
    let msg := Message.notifyToggle false (some email)
    let resp := reply msg
    { store := store1, sent := [msg],
      status := if respOk resp then ("☑︎ Email unregistered.", "hint ok")
                else ("Could not unregister: " ++ respErrorOr resp "Unknown error", "hint err") }
  else if email == "" || !validEmail email then
    -- Turning ON: validate email then register and send welcome
    { store := store1, sent := [], status := ("Please enter a valid email.", "hint err") }
  else
    let msg := Message.notifyToggle true (some email)
    let resp := reply msg
    { store := store1, sent := [msg],
      status := if respOk resp
                then ("Email registered — nightly summaries enabled.", "hint ok")
                else ("Could not register: " ++ respErrorOr resp "Unknown error", "hint err") }

/-- The notification preference of a store satisfies: an enabled flag comes with
an email that passes the address pattern. -/
def PrefInvariant (s : Storage) : Prop :=
  prefTruthy (s.get "notifyEnabled") = true → emailReTest (prefString (s.get "notifyEmail")) = true

instance (s : Storage) : Decidable (PrefInvariant s) := by
  unfold PrefInvariant
  infer_instance

/-- An address of the shape `local@domain.tld`: the three parts are non-empty and
hold neither white space nor `@` (so there is exactly one `@`), and the dot that
separates the last two has a non-empty part on each side. -/
def ValidAddress (s : String) : Prop :=
  ∃ (loc dom tld : List Char), s.toList = loc ++ '@' :: (dom ++ '.' :: tld) ∧
    loc ≠ [] ∧ dom ≠ [] ∧ tld ≠ [] ∧
    (∀ c ∈ loc, isAddrChar c = true) ∧ (∀ c ∈ dom, isAddrChar c = true) ∧
    (∀ c ∈ tld, isAddrChar c = true)

/-! ## The create click handler (`popup.js`) -/

/-- `TimeClip`: a time value a `Date` can hold, or `none` for `NaN`. -/
def timeClip (t : Int) : Option Int :=
  if t.natAbs ≤ 8640000000000000 then some t else none

/-- `addMinutes(d, mins)` of `popup.js`; a `Date` is given by its time value,
`none` is the invalid date. -/
def addMinutes (d : Option Int) (mins : Int) : Option Int :=
  match d with
  | some t => timeClip (t + mins * 60000)
  | none => none

/-- `a > b` for two `Date` objects; a comparison with the invalid date is false. -/
def dateGt (a b : Option Int) : Bool :=
  match a, b with
  | some x, some y => decide (y < x)
  | _, _ => false

/-- `toISOString()` of a valid date with the time value `t`. -/
def toISOString (t : Int) : String :=
  let d := dayOf t
  let y := yearFromDay d
  let ms := timeWithinDay t
  let yearText :=
    if 0 ≤ y ∧ y ≤ 9999 then padStart (toString y.toNat) 4 '0'
    else (if y < 0 then "-" else "+") ++ padStart (toString y.natAbs) 6 '0'
  yearText ++ "-" ++ padStart (toString (monthFromDay d + 1)) 2 '0' ++
    "-" ++ padStart (toString (dateFromDay d).toNat) 2 '0' ++
    "T" ++ padStart (toString (ms / msPerHour).toNat) 2 '0' ++
    ":" ++ padStart (toString ((ms / msPerMinute) % 60).toNat) 2 '0' ++
    ":" ++ padStart (toString ((ms / 1000) % 60).toNat) 2 '0' ++
    "." ++ padStart (toString (ms % 1000).toNat) 3 '0' ++ "Z"

/-- What the create click handler reads when the button is clicked: the values
of the fields, the dates `buildLocalDate` returns for the start and the end
field (`none` is `null`, `some none` the invalid date), the value of
`parseInt` of the duration when it is finite, the colour state of the popup,
the time zone of the runtime, and whether the write of the sections resolves. -/
structure CreateForm where
  titleValue : String
  start : Option (Option Int)
  endField : Option (Option Int)
  duration : Option Int
  colorValue : String
  sectionValue : String
  notesValue : String
  timeZone : String
  sectionColorMap : List (String × String)
  defaultColorId : String
  sectionsSaved : Bool
deriving DecidableEq, Repr

/-- What the create click handler leaves behind before any reply: the text of
the status line and the messages sent to the background. -/
structure ClickOut where
  status : String
  sent : List Message
deriving DecidableEq, Repr

/-- The end the click handler works with: the end field, or the start plus the
duration when the end field is not after the start and the duration is positive. -/
def effectiveEnd (start : Option Int) (endField : Option (Option Int))
    (duration : Option Int) : Option (Option Int) :=
  let endOk := match endField with
    | some e => dateGt e start
    | none => false
  match duration with
  | some mins =>
    -- Derive end from duration if needed
    if !endOk && decide (0 < mins) then some (addMinutes start mins) else endField
  | none => endField

/-- The colour the click handler resolves from the section or the default. -/
def resolveColor (f : CreateForm) : String :=
  let colorIdToUse := f.colorValue
  let sectionName := jsTrim f.sectionValue
  if sectionName != "" then
    orElse (some colorIdToUse)
      (orElse ((f.sectionColorMap.find? (fun p => p.1 == sectionName)).map Prod.snd)
        (orElse (some f.defaultColorId) "7"))
  else "7"

/-- The click handler of the create button of `popup.js`, up to the sending of
the message. -/
def createClick (f : CreateForm) : ClickOut :=
  let title := jsTrim f.titleValue
  if title == "" then { status := "Title is required.", sent := [] }
  else
    match f.start with
    | none => { status := "Please select a Date and Start time.", sent := [] }
    | some start =>
      match effectiveEnd start f.endField f.duration with
      | some (some e) =>
        match start with
        | some s =>
          if !decide (s < e) then
            { status := "End time must be after Start time.", sent := [] }
          else
            let sectionName := jsTrim f.sectionValue
            if sectionName != "" && !f.sectionsSaved then { status := "", sent := [] }
            else
              { status := "Creating event…",
                sent := [Message.createEvent
                  (createPayload title (toISOString s) (toISOString e) (jsTrim f.notesValue)
                    f.timeZone (resolveColor f) sectionName)] }
        | none => { status := "End time must be after Start time.", sent := [] }
      | _ => { status := "End time must be after Start time.", sent := [] }

/-- A form filled for a one-hour event on 12 September 2025, 16:00 UTC. -/
def sampleForm : CreateForm :=
  { titleValue := " Pay rent ", start := some (some 1757692800000),
    endField := some (some 1757696400000), duration := some 60, colorValue := "",
    sectionValue := "", notesValue := "", timeZone := "UTC", sectionColorMap := [],
    defaultColorId := "11", sectionsSaved := true }

/-! ## Reading and rewriting the list of today (`popup.js`) -/

/-- What a handler that rewrites the list of today leaves behind: the store and
the list handed to `renderTodos`, if any. -/
structure ListOut where
  store : Storage
  rendered : Option (List Task)
deriving DecidableEq, Repr

/-- `loadTodos()` of `popup.js`: the list handed to `renderTodos`; `now` is the
clock reading of its `todayKey()`. -/
def loadTodos (now : JsDate) (store : Storage) : List Task :=
  store.bucket (todayKey now)

/-- The `keydown` handler of the to-do input for the Enter key. `inputValue` is
the value of the input, `ts` is `Date.now()`, `now1` and `now2` are the clock
readings of `todayKey()` in the handler and in `saveTodos`. -/
def addTodoHandler (inputValue : String) (ts : Nat) (now1 now2 : JsDate)
    (store : Storage) : ListOut :=
  let title := jsTrim inputValue
  if title == "" then { store := store, rendered := none }
  else
    let key := todayKey now1
    let items := store.bucket key ++
      [{ title := title, done := false, ts := ts, eventId := none, originalColorId := none }]
    { store := saveTodos items now2 store, rendered := some items }

/-- The `click` handler of the button that clears the completed tasks. -/
def clearCompletedHandler (now1 now2 : JsDate) (store : Storage) : ListOut :=
  let key := todayKey now1
  let items := store.bucket key
  let remaining := items.filter (fun t => !t.done)
  { store := saveTodos remaining now2 store, rendered := some remaining }

/-! ## Base64url as the specification words it -/

/-- The alphabet of base64url: `A-Z`, `a-z`, `0-9`, `-` and `_`. -/
def base64UrlAlphabet : List Char :=
  "ABCDEFGHIJKLMNOPQRSTUVWXYZabcdefghijklmnopqrstuvwxyz0123456789-_".toList

/-- Whether a character belongs to the alphabet of base64url. -/
def isBase64UrlChar (c : Char) : Bool :=
  base64UrlAlphabet.contains c

/-- The base64url digit of a six-bit value. -/
def base64UrlDigit (v : Nat) : Char :=
  base64UrlAlphabet.getD v '='

/-- The six-bit value of a base64url digit. -/
def base64UrlValue (c : Char) : Option Nat :=
  let i := base64UrlAlphabet.indexOf c
  if i < 64 then some i else none

/-- The six-bit groups of a list of bytes, the last group filled with zero bits. -/
def sextets : List Nat → List Nat
  | a :: b :: c :: rest =>
    a / 4 :: (a % 4 * 16 + b / 16) :: (b % 16 * 4 + c / 64) :: c % 64 :: sextets rest
  | [a, b] => [a / 4, a % 4 * 16 + b / 16, b % 16 * 4]
  | [a] => [a / 4, a % 4 * 16]
  | [] => []

/-- The number of `=` that pad the Base64 text of a list of bytes. -/
def padCount : List Nat → Nat
  | _ :: _ :: _ :: rest => padCount rest
  | [_, _] => 1
  | [_] => 2
  | [] => 0

/-- The bytes that a list of six-bit groups writes; the bits of an incomplete
last byte are dropped. -/
def unsextets : List Nat → List Nat
  | p :: q :: r :: t :: rest =>
    (p * 4 + q / 16) :: (q % 16 * 16 + r / 4) :: (r % 4 * 64 + t) :: unsextets rest
  | [p, q, r] => [p * 4 + q / 16, q % 16 * 16 + r / 4]
  | [p, q] => [p * 4 + q / 16]
  | _ => []

/-- The six-bit values of a text of base64url digits, if it is one. -/
def base64UrlValues : List Char → Option (List Nat)
  | [] => some []
  | c :: cs =>
    match base64UrlValue c, base64UrlValues cs with
    | some v, some vs => some (v :: vs)
    | _, _ => none

/-- Decoding of base64url without padding: the bytes a text writes, if it is a
text of base64url digits. -/
def fromBase64Url (s : String) : Option (List Nat) :=
  (base64UrlValues s.toList).map unsextets

/-! ## The day key as the specification words it -/

/-- A number zero-padded to two digits. -/
def twoDigits (n : Nat) : String :=
  if n < 10 then "0" ++ toString n else toString n

/-- The key of the calendar date with year `y`, month number `m` (1 to 12) and
day `d`: `todos_` followed by the year, the month and the day, the month and the
day zero-padded to two digits. -/
def specDayKey (y : Int) (m d : Nat) : String :=
  "todos_" ++ toString y ++ "-" ++ twoDigits m ++ "-" ++ twoDigits d

/-- The number a list of decimal digits writes. -/
def decodeDigits (l : List Char) : Nat :=
  l.foldl (fun acc c => acc * 10 + (c.toNat - 48)) 0

/-- A decimal digit. -/
def IsDecimalDigit (c : Char) : Prop :=
  c ≠ '-' ∧ c.toNat - 48 ≤ 9

/-- The getters of a `Date` give a month from 0 to 11 and a day from 1 to 31. -/
def JsDate.InRange (d : JsDate) : Prop :=
  d.month < 12 ∧ 1 ≤ d.date ∧ d.date ≤ 31

instance (d : JsDate) : Decidable d.InRange := by
  unfold JsDate.InRange
  infer_instance

/-! ## The date line as the specification words it -/

/-- The rendering the specification describes for `rfc2822Date`: the day of the
week, the day, the month, the year and the time of day are all the local-time
fields of `d` for the offset printed at the end. -/
def rfc2822DateSpec (tzOffset : Int) (d : Int) : String :=
  let l := localTime tzOffset d
  let day := weekDayName (weekDay (dayOf l))
  let dd := padStart (toString (dateFromDay (dayOf l))) 2 '0'
  let mon := monthName (monthFromDay (dayOf l))
  let yyyy := yearFromDay (dayOf l)
  let hh := padStart (toString (getHours tzOffset d)) 2 '0'
  let mm := padStart (toString (getMinutes tzOffset d)) 2 '0'
  let ss := padStart (toString (getSeconds tzOffset d)) 2 '0'
  let sign := if tzOffset ≤ 0 then "+" else "-"
  let tzh := padStart (toString (tzOffset.natAbs / 60)) 2 '0'
  let tzm := padStart (toString (tzOffset.natAbs % 60)) 2 '0'
  day ++ ", " ++ dd ++ " " ++ mon ++ " " ++ toString yyyy ++ " " ++ hh ++ ":" ++ mm ++ ":" ++ ss
    ++ " " ++ sign ++ tzh ++ tzm

/-! ## The message listener of `background.js` -/

/-- The reply of the `EMAIL_UNFINISHED_NOW` case to the outcome of its call. -/
def unitReply : Except String Unit → Resp
  | Except.ok _ => { ok := true }
  | Except.error e => { ok := false, error := some e }

/-- The reply of a case that answers itself, or the reply of the `catch` of the router. -/
def replyOrError : Except String Resp → Resp
  | Except.ok r => r
  | Except.error e => { ok := false, error := some e }

/-- The `chrome.runtime.onMessage` listener of `background.js`: the reply passed
to `sendResponse`, and the state left. -/
def router (msg : Message) (env : Env) (st : Bg) : Resp × Bg :=
  match msg with
  | Message.createEvent payload =>
    let out := createCalendarEvent payload.toArgs env st
    (dataReply out.1, out.2)
  | Message.deleteEvent eventId =>
    let out := deleteCalendarEvent { eventId := eventId, calendarId := none } env st
    (deleteReply out.1, out.2)
  | Message.toggleDone payload =>
    let out := toggleEventDone payload.toArgs env st
    (dataReply out.1, out.2)
  | Message.emailUnfinishedNow =>
    let out := emailUnfinishedNow env st
    (unitReply out.1, out.2)
  | Message.notifyToggle enabled email =>
    let out := notifyToggle enabled email env st
    (replyOrError out.1, out.2)

/-- The background seen from the popup: the reply to a message sent to it. -/
def backgroundReply (env : Env) (msg : Message) : Option Resp :=
  some (router msg env Bg.init).1

/-! ## What an operation leaves alone -/

/-- The operation `m` leaves the pending timers as they are and never takes
back a reading of the clock. -/
def KeepsAlarms {α : Type} (m : BgM α) : Prop :=
  ∀ env st, (m env st).2.alarms = st.alarms ∧ st.clockReads ≤ (m env st).2.clockReads

/-! ## Reading traces -/

/-- Whether an effect belongs to the sending of the encoded message `raw`: an
identity call, the probe of a token, or a request to the send endpoint that
carries `raw`. Operations on the store and on the timers do not. -/
def Event.isMailOf (raw : String) : Event → Bool
  | Event.getAuthToken _ => true
  | Event.removeCachedAuthToken _ => true
  | Event.tokenInfo _ => true
  | Event.getProfileUserInfo => true
  | Event.request req =>
    req.method == "POST" && req.endpoint == Endpoint.gmailSend && req.body == ReqBody.mail raw
  | _ => false

/-- The encoded message `gmailSend` submits for its arguments, when its reading
of the clock is `now` and the profile gives the address `fromEmail`. -/
def rawMessage (fromEmail to_ subject : String) (text : Option String) (tzOffset now : Int) :
    String :=
  toBase64Url (buildMime { from_ := fromEmail, to_ := to_, subject := subject, text := text }
    tzOffset now)

/-! ## The data model of the store -/

/-- Every task of every stored list has a non-empty title, as the task records
of the data model have. -/
def titlesPresent (s : Storage) : Bool :=
  s.all (fun p => (itemsOf (some p.2)).all (fun t => t.title != ""))

/-- The lines of the unfinished tasks of one bucket, in the order of the bucket. -/
def openLines (s : Storage) (key : String) : List String :=
  ((s.bucket key).filter (fun t => !t.done)).map bulletLine

/-- Some day bucket of the store holds a task that is not done. -/
def HasOpenTask (s : Storage) : Prop :=
  ∃ key ∈ todoKeysOf s, ∃ t ∈ s.bucket key, t.done = false

/-! ## Sample data -/

/-- A linked task, as the create flow stores it. -/
def sampleLinked : Task :=
  { title := "Pay rent", done := false, ts := 1, eventId := some "evt1",
    originalColorId := some "7" }

/-- A local-only task, as the to-do input stores it. -/
def sampleLocal : Task :=
  { title := "Buy milk", done := true, ts := 2, eventId := none, originalColorId := none }

/-- A clock reading: 12 September 2025. -/
def sampleDay : JsDate := { fullYear := 2025, month := 8, date := 12 }

/-- A clock reading one day later. -/
def sampleNextDay : JsDate := { fullYear := 2025, month := 8, date := 13 }

/-- A store holding the two sample tasks under the sample day. -/
def sampleStore : Storage :=
  [("notifyEnabled", StoreVal.bool true),
   ("todos_2025-09-12", StoreVal.tasks [sampleLocal, sampleLinked])]

/-- An environment in which every token request is granted and the service
answers every request with status 500 and a body that mentions 404. -/
def envServerError : Env :=
  { identity := fun _ _ => { token := some "tok", lastError := none },
    server := fun _ => { status := 500, text := "upstream 404", json := Except.error "no JSON" },
    timeZone := "UTC" }

/-- An environment in which interactive token requests are granted, the
non-interactive lookup finds no token, and the service answers 401 to everything. -/
def envNoCachedToken : Env :=
  { identity := fun interactive _ =>
      if interactive then { token := some "tok", lastError := none }
      else { token := none, lastError := some "OAuth2 not granted or revoked." },
    server := fun _ => { status := 401, text := "Unauthorized", json := Except.error "no JSON" },
    timeZone := "UTC" }

/-- An environment in which every token request is granted, the first request is
answered 401 and the following ones 204. -/
def envStaleThenFine : Env :=
  { identity := fun _ _ => { token := some "tok", lastError := none },
    server := fun n =>
      if n = 0 then { status := 401, text := "Unauthorized", json := Except.error "no JSON" }
      else { status := 204, text := "", json := Except.error "no JSON" },
    timeZone := "UTC" }

/-- An environment in which every token request is granted and the service
answers every request with status 404. -/
def envGone : Env :=
  { identity := fun _ _ => { token := some "tok", lastError := none },
    server := fun _ => { status := 404, text := "Not Found", json := Except.error "no JSON" },
    timeZone := "UTC" }

/-- An environment in which every token request is granted, also the
non-interactive lookup, and the service answers 401 to everything. -/
def envAlwaysUnauthorized : Env :=
  { identity := fun _ _ => { token := some "tok", lastError := none },
    server := fun _ => { status := 401, text := "Unauthorized", json := Except.error "no JSON" },
    timeZone := "UTC" }

/-- An environment in which every token request is granted and the service
answers every request with status 500 and an empty body. -/
def envPlainServerError : Env :=
  { identity := fun _ _ => { token := some "tok", lastError := none },
    server := fun _ => { status := 500, text := "", json := Except.error "no JSON" },
    timeZone := "UTC" }

/-- Arguments of a create request for a one-hour event. -/
def sampleCreateArgs : CreateArgs :=
  { title := "Pay rent", startISO := "2025-09-12T16:00:00.000Z",
    endISO := "2025-09-12T17:00:00.000Z", notes := some "", timeZone := some "UTC",
    colorId := some "7", calendarId := none }

/-- Arguments of a done-toggle of the sample event. -/
def sampleToggleArgs : ToggleArgs :=
  { eventId := "evt1", done := true, originalTitle := "Pay rent",
    originalColorId := some "7", calendarId := none }

/-- The reply of the router to an operation that failed with the message `e`. -/
def errorReply (e : String) : Resp :=
  { ok := false, error := some e }

/-- A successful reply to `CREATE_EVENT` carrying the id `evt1`. -/
def sampleCreateReply : Resp :=
  { ok := true, data := some { id := some "evt1", rendered := "\x7b\"id\":\"evt1\"\x7d" } }

/-- A store on the night of 12 to 13 September 2025: notifications enabled, a
bucket of the day before and a bucket of the new day. -/
def sampleNightStore : Storage :=
  [("notifyEnabled", StoreVal.bool true),
   ("notifyEmail", StoreVal.str "me@example.com"),
   ("todos_2025-09-12", StoreVal.tasks [sampleLinked, sampleLocal]),
   ("todos_2025-09-13", StoreVal.tasks [sampleLinked])]

/-- A background state that holds the store of that night. -/
def sampleNightBg : Bg :=
  { authCalls := 0, requests := 0, trace := [], store := sampleNightStore }

/-- An environment seven hours west of Greenwich whose clock reads a few
milliseconds past the local midnight of 13 September 2025; every token request
is granted and the mail service accepts every message. -/
def envMidnight : Env :=
  { identity := fun _ _ => { token := some "tok", lastError := none },
    server := fun _ => { status := 200, text := "", json := Except.error "no JSON" },
    timeZone := "America/Los_Angeles",
    clock := fun n => 1757746800005 + n,
    tzOffset := 420,
    toLocaleString := fun _ => "9/13/2025, 12:00:00 AM",
    profileEmail := some "owner@example.com",
    zone := Zone.fixed 420 }

/-- The same environment with a mail service that is down. -/
def envMidnightMailDown : Env :=
  { envMidnight with
    server := fun _ => { status := 503, text := "", json := Except.error "no JSON" } }

/-- The same environment with a store that rejects every operation. -/
def envMidnightStoreDown : Env :=
  { envMidnight with storageFault := fun _ => some "QUOTA_BYTES quota exceeded" }

/-- The zone of Los Angeles around 2 November 2025: seven hours behind UTC until
09:00 UTC of that day, when the clocks go back from 02:00 to 01:00, and eight
hours behind from then on. -/
def zoneLosAngeles : Zone :=
  Zone.oneChange (-25200000) (-28800000) 1762074000000

/-- A zone whose clocks go forward from 24:00 to 01:00 at the start of
7 September 2025 (04:00 UTC), as in Santiago de Chile: four hours behind UTC
before, three hours behind from then on. The local midnight of that day is
skipped. -/
def zoneSkipsMidnight : Zone :=
  Zone.oneChange (-14400000) (-10800000) 1757217600000

/-- A zone whose clocks go back from 01:00 to 00:00 on 2 November 2025
(05:00 UTC), as in Havana: four hours behind UTC before, five hours behind from
then on. The local midnight of that day is read twice. -/
def zoneRepeatsMidnight : Zone :=
  Zone.oneChange (-14400000) (-18000000) 1762059600000

/-- A zone whose clocks go back from 00:30 to 23:30 in the night to
2 November 2025 (00:30 UTC): on UTC before, one hour behind from then on. The
local midnight of 2 November is read before the change and again after it. -/
def zoneBackAcrossMidnight : Zone :=
  Zone.oneChange 0 (-3600000) 1762043400000

/-- An environment in Los Angeles whose clock reads the local midnight of
2 November 2025 (07:00 UTC) and the milliseconds after it. -/
def envFallBack : Env :=
  { envMidnight with zone := zoneLosAngeles, clock := fun n => 1762066800000 + n }

/-- An environment in the zone that skips a midnight, whose clock reads noon of
6 September 2025 (16:00 UTC) and the milliseconds after it. -/
def envSkipsMidnight : Env :=
  { envMidnight with
    zone := zoneSkipsMidnight, tzOffset := 240, timeZone := "America/Santiago",
    clock := fun n => 1757174400000 + n }

/-- An environment in the zone whose clocks go back across a midnight; its clock
reads a quarter of an hour after the change (local time 23:45 of 1 November). -/
def envBackAcrossMidnight : Env :=
  { envMidnight with
    zone := zoneBackAcrossMidnight, tzOffset := 60, timeZone := "Etc/GMT+1",
    clock := fun n => 1762044300000 + n }

/-- The sample local task with its checkbox cleared. -/
def sampleLocalOpen : Task :=
  { title := "Buy milk", done := false, ts := 2, eventId := none, originalColorId := none }

/-- A store in which the list of 12 September 2025 has grown by the linked task
since the popup rendered it. -/
def sampleGrownStore : Storage :=
  [("todos_2025-09-12", StoreVal.tasks [sampleLocal, sampleLinked])]

/-! # Theorems -/

/-! ## Lemmas on the store -/

theorem Storage.find_cons_hit (test : String × StoreVal → Bool) (p : String × StoreVal)
    (ps : Storage) (h : test p = true) : List.find? test (p :: ps) = some p := by
  simp [List.find?_cons, h]

theorem Storage.find_cons_miss (test : String × StoreVal → Bool) (p : String × StoreVal)
    (ps : Storage) (h : test p = false) : List.find? test (p :: ps) = List.find? test ps := by
  simp [List.find?_cons, h]

theorem Storage.find_replace_same (s : Storage) (key : String) (v : StoreVal)
    (h : s.any (fun p => p.1 == key) = true) :
    (s.map (fun p => if p.1 == key then (key, v) else p)).find? (fun p => p.1 == key)
      = some (key, v) := by
  induction s with
  | nil => simp at h
  | cons p ps ih =>
    by_cases hp : p.1 = key
    · have hb : (p.1 == key) = true := by simp [hp]
      rw [List.map_cons, if_pos hb, Storage.find_cons_hit _ _ _ (by simp)]
    · have hb : ¬ (p.1 == key) = true := by simp [hp]
      have hps : ps.any (fun q => q.1 == key) = true := by
        simpa [List.any_cons, hp] using h
      rw [List.map_cons, if_neg hb, Storage.find_cons_miss _ _ _ (by simpa using hp)]
      exact ih hps

theorem Storage.find_replace_other (s : Storage) (key other : String) (v : StoreVal)
    (hne : other ≠ key) :
    ((s.map (fun p => if p.1 == key then (key, v) else p)).find?
        (fun p => p.1 == other)).map Prod.snd
      = (s.find? (fun p => p.1 == other)).map Prod.snd := by
  induction s with
  | nil => simp
  | cons p ps ih =>
    by_cases hp : p.1 = key
    · have hb : (p.1 == key) = true := by simp [hp]
      have hko : ((key, v).1 == other) = false := by
        simp only [beq_eq_false_iff_ne]; exact fun h => hne h.symm
      have hpo : (p.1 == other) = false := by
        simp only [beq_eq_false_iff_ne]; exact fun h => hne (h ▸ hp)
      rw [List.map_cons, if_pos hb, Storage.find_cons_miss _ _ _ hko,
        Storage.find_cons_miss _ _ _ hpo]
      exact ih
    · have hb : ¬ (p.1 == key) = true := by simp [hp]
      rw [List.map_cons, if_neg hb]
      by_cases hpo : (p.1 == other) = true
      · rw [Storage.find_cons_hit _ _ _ hpo, Storage.find_cons_hit _ _ _ hpo]
      · have hpo2 : (p.1 == other) = false := by simpa using hpo
        rw [Storage.find_cons_miss _ _ _ hpo2, Storage.find_cons_miss _ _ _ hpo2]
        exact ih

theorem Storage.get_set_same (s : Storage) (key : String) (v : StoreVal) :
    (s.set key v).get key = some v := by
  unfold Storage.set Storage.get
  split
  · rename_i h
    rw [Storage.find_replace_same s key v h]
    rfl
  · rename_i h
    have hnone : s.find? (fun p => p.1 == key) = none := by
      simp only [List.find?_eq_none]
      intro x hx hk
      exact h (List.any_eq_true.mpr ⟨x, hx, hk⟩)
    simp [List.find?_append, hnone]

theorem Storage.get_set_of_ne (s : Storage) (key other : String) (v : StoreVal)
    (hne : other ≠ key) : (s.set key v).get other = s.get other := by
  unfold Storage.set Storage.get
  split
  · exact Storage.find_replace_other s key other v hne
  · have hko : ¬ key = other := fun h => hne h.symm
    simp [List.find?_append, hko]

theorem Storage.map_replace_of_absent (s : Storage) (key : String) (v : StoreVal)
    (h : ¬ s.any (fun p => p.1 == key) = true) :
    s.map (fun p => if p.1 == key then (key, v) else p) = s := by
  induction s with
  | nil => rfl
  | cons p ps ih =>
    have hp : ¬ (p.1 == key) = true := by
      intro hp; exact h (by simp [List.any_cons, hp])
    have hps : ¬ ps.any (fun q => q.1 == key) = true := by
      intro hps; exact h (by simp only [List.any_cons, hps, Bool.or_true])
    rw [List.map_cons, if_neg hp, ih hps]

theorem Storage.set_set_same (s : Storage) (key : String) (v w : StoreVal) :
    (s.set key v).set key w = s.set key w := by
  by_cases h : s.any (fun p => p.1 == key) = true
  · have h1 : (s.map (fun p => if p.1 == key then (key, v) else p)).any
        (fun p => p.1 == key) = true := by
      rw [List.any_eq_true] at h ⊢
      obtain ⟨x, hx, hk⟩ := h
      exact ⟨(key, v), List.mem_map.mpr ⟨x, hx, by simp [hk]⟩, by simp⟩
    unfold Storage.set
    rw [if_pos h, if_pos h1, if_pos h, List.map_map]
    apply List.map_congr_left
    intro p _
    by_cases hp : p.1 = key
    · simp [hp]
    · simp [hp]
  · have h1 : (s ++ [(key, v)]).any (fun p => p.1 == key) = true := by
      simp [List.any_append]
    unfold Storage.set
    rw [if_neg h, if_pos h1, if_neg h, List.map_append,
      Storage.map_replace_of_absent s key w h]
    simp

theorem Storage.bucket_set_same (s : Storage) (key : String) (items : List Task) :
    (s.set key (StoreVal.tasks items)).bucket key = items := by
  simp [Storage.bucket, Storage.get_set_same]

/-! ## Lemmas on the pattern search -/

theorem charBefore_cons (prev : Option Char) (p : Char) (ps : List Char) :
    charBefore prev (p :: ps) = charBefore (some p) ps := by
  cases ps with
  | nil => simp [charBefore]
  | cons q qs =>
    unfold charBefore
    rw [List.getLast?_cons_cons]
    cases h : (q :: qs).getLast? with
    | none => simp at h
    | some c => rfl

theorem goneReSearch_of_here (prev : Option Char) (cs : List Char)
    (h : goneReAt prev cs = true) : goneReSearch prev cs = true := by
  cases cs with
  | nil => simpa [goneReSearch] using h
  | cons c cs => simp [goneReSearch, h]

theorem goneReSearch_append (pre cs : List Char) (prev : Option Char)
    (h : goneReAt (charBefore prev pre) cs = true) :
    goneReSearch prev (pre ++ cs) = true := by
  induction pre generalizing prev with
  | nil => exact goneReSearch_of_here prev cs (by simpa [charBefore] using h)
  | cons p ps ih =>
    rw [charBefore_cons] at h
    simp [goneReSearch, ih (some p) h]

theorem matchLit_self (lit rest : List Char) : matchLit lit (lit ++ rest) = some rest := by
  induction lit with
  | nil => simp [matchLit]
  | cons p ps ih => simp [matchLit, ciEq, ih]

theorem skipSpaces_append (ws : List Char) (c : Char) (rest : List Char)
    (hws : ∀ x ∈ ws, isJsSpace x = true) (hc : isJsSpace c = false) :
    skipSpaces (ws ++ c :: rest) = c :: rest := by
  induction ws with
  | nil => simp [skipSpaces, hc]
  | cons w ws ih =>
    have hw : isJsSpace w = true := hws w (List.mem_cons_self _ _)
    have hrest : ∀ x ∈ ws, isJsSpace x = true := fun x hx => hws x (List.mem_cons_of_mem _ hx)
    simp [skipSpaces, hw, ih hrest]

theorem matchStatusWord_here (digits : List Char) (d : Char) (prev : Option Char)
    (post : List Char) (hfirst : isWordAt digits.head? = true)
    (hlast : digits.getLast? = some d) (hd : isWordAt (some d) = true)
    (hprev : isWordAt prev = false) (hpost : isWordAt post.head? = false) :
    matchStatusWord digits prev (digits ++ post) = true := by
  have hne : digits ≠ [] := by
    intro h; simp [h] at hlast
  have hhead : (digits ++ post).head? = digits.head? := by
    cases digits with
    | nil => exact absurd rfl hne
    | cons x xs => simp
  simp [matchStatusWord, matchLit_self, wordBoundary, hhead, hfirst, hprev, hpost, hlast, hd]

theorem goneReTest_of_status (text : String) (h : CarriesGoneStatus text) :
    goneReTest text = true := by
  obtain ⟨pre, post, digits, hdig, htext, hpre, hpost⟩ := h
  subst htext
  have hlist : (pre ++ digits ++ post).toList
      = pre.toList ++ (digits.toList ++ post.toList) := by
    simp [String.toList, List.append_assoc]
  unfold goneReTest
  rw [hlist]
  apply goneReSearch_append
  have hprev : isWordAt (charBefore none pre.toList) = false := by
    unfold charBefore
    cases hl : pre.toList.getLast? with
    | none => rfl
    | some c => rw [hl] at hpre; exact hpre
  unfold goneReAt
  rcases hdig with rfl | rfl
  · have := matchStatusWord_here "404".toList '4' (charBefore none pre.toList) post.toList
      (by decide) (by decide) (by decide) hprev hpost
    rw [this]; simp
  · have := matchStatusWord_here "410".toList '0' (charBefore none pre.toList) post.toList
      (by decide) (by decide) (by decide) hprev hpost
    rw [this]; simp

theorem matchReason_here (ws1 ws2 reason post : List Char)
    (hreason : reason = "notFound".toList ∨ reason = "deleted".toList)
    (h1 : ∀ c ∈ ws1, isJsSpace c = true) (h2 : ∀ c ∈ ws2, isJsSpace c = true) :
    matchReason ("\"reason\"".toList ++ (ws1 ++ ':' :: (ws2 ++ '"' :: (reason ++ '"' :: post))))
      = true := by
  unfold matchReason
  rw [matchLit_self]
  simp only []
  rw [skipSpaces_append ws1 ':' _ h1 (by decide)]
  have e1 : ∀ rest : List Char, matchLit [':'] (':' :: rest) = some rest :=
    fun rest => matchLit_self [':'] rest
  have e2 : ∀ rest : List Char, matchLit ['"'] ('"' :: rest) = some rest :=
    fun rest => matchLit_self ['"'] rest
  rw [e1]
  simp only []
  rw [skipSpaces_append ws2 '"' _ h2 (by decide), e2]
  simp only []
  rcases hreason with rfl | rfl
  · rw [Bool.or_eq_true]; left
    rw [matchLit_self]; simp only [e2]; rfl
  · rw [Bool.or_eq_true]; right
    rw [matchLit_self "deleted".toList]; simp only [e2]; rfl

theorem goneReTest_of_reason (text : String) (h : CarriesGoneReason text) :
    goneReTest text = true := by
  obtain ⟨pre, post, ws1, ws2, reason, hreason, h1, h2, htext⟩ := h
  subst htext
  have hlist : (pre ++ "\"reason\"" ++ ws1 ++ ":" ++ ws2 ++ "\"" ++ reason ++ "\"" ++ post).toList
      = pre.toList ++ ("\"reason\"".toList ++ (ws1.toList ++ ':' :: (ws2.toList ++
          '"' :: (reason.toList ++ '"' :: post.toList)))) := by
    simp [String.toList, List.append_assoc]
  unfold goneReTest
  rw [hlist]
  apply goneReSearch_append
  unfold goneReAt
  have hr : reason.toList = "notFound".toList ∨ reason.toList = "deleted".toList := by
    rcases hreason with rfl | rfl
    · exact Or.inl rfl
    · exact Or.inr rfl
  rw [matchReason_here ws1.toList ws2.toList reason.toList post.toList hr h1 h2]
  simp

theorem isEventGone_of_showsAbsent (r : Resp) (h : ShowsAbsent r) :
    isEventGone (some r) = true := by
  unfold isEventGone
  rcases h with h | h | ⟨text, herr, h⟩
  · simp [h]
  · simp [h]
  · by_cases hc : r.code = some 404 ∨ r.code = some 410
    · simp [hc]
    · rcases h with h | h
      · simp [hc, herr, goneReTest_of_status text h]
      · simp [hc, herr, goneReTest_of_reason text h]

/-! ## The to-do handlers -/

/-- Rollback of the done-toggle within one day: when the task of row `idx` is
linked and the reply to its `TOGGLE_DONE` message is not ok, the list written by
the rollback save (under the key of that save) is the rendered list again: the
pre-toggle `done` value at `idx` and the unchanged task at every other index. -/
theorem toggle_rollback_restores_persisted_list
    (items : List Task) (idx : Nat) (t : Task) (nextDone : Bool) (now1 now2 : JsDate)
    (reply : Message → Option Resp) (store : Storage)
    (hrow : items[idx]? = some t) (hlinked : truthy t.eventId = true)
    (hfail : respOk (reply (toggleMessage t nextDone)) = false) :
    ∃ persisted : List Task,
      (toggleHandler items idx nextDone now1 now2 reply store).store.get (todayKey now2)
        = some (StoreVal.tasks persisted) ∧
      persisted.length = items.length ∧
      persisted[idx]?.map Task.done = some t.done ∧
      (∀ j, j ≠ idx → persisted[j]? = items[j]?) ∧
      (toggleHandler items idx nextDone now1 now2 reply store).sent
        = [toggleMessage t nextDone] ∧
      (todayKey now1 = todayKey now2 →
        (toggleHandler items idx nextDone now1 now2 reply store).store
          = store.set (todayKey now2) (StoreVal.tasks items)) := by
  have hset : (items.set idx { t with done := nextDone }).set idx t = items := by
    rw [List.set_set]
    apply List.ext_getElem?
    intro j
    by_cases hj : idx = j
    · subst hj
      rw [hrow]
      have hlt : idx < items.length := by
        rcases List.getElem?_eq_some.mp hrow with ⟨h, _⟩
        exact h
      simp [List.getElem?_set, hlt]
    · simp [List.getElem?_set, hj]
  refine ⟨items, ?_, rfl, ?_, fun _ _ => rfl, ?_, ?_⟩
  · simp only [toggleHandler, hrow, hlinked, hfail, if_true, Bool.not_false, saveTodos]
    rw [hset]
    exact Storage.get_set_same _ _ _
  · simp [hrow]
  · simp only [toggleHandler, hrow, hlinked, hfail, if_true, Bool.not_false]
  · intro hday
    simp only [toggleHandler, hrow, hlinked, hfail, if_true, Bool.not_false, saveTodos]
    rw [hset, hday]
    exact Storage.set_set_same _ _ _ _

theorem toggle_rollback_restores_persisted_list_witness :
    [sampleLocal, sampleLinked][1]? = some sampleLinked ∧
    truthy sampleLinked.eventId = true ∧
    respOk ((fun _ => some { ok := false, code := none, error := some "calendar.patch 500: " })
      (toggleMessage sampleLinked true)) = false ∧
    ∃ persisted : List Task,
      (toggleHandler [sampleLocal, sampleLinked] 1 true sampleDay sampleDay
          (fun _ => some { ok := false, code := none, error := some "calendar.patch 500: " })
          sampleStore).store.get (todayKey sampleDay)
        = some (StoreVal.tasks persisted) ∧
      persisted.length = [sampleLocal, sampleLinked].length ∧
      persisted[1]?.map Task.done = some sampleLinked.done ∧
      (∀ j, j ≠ 1 → persisted[j]? = [sampleLocal, sampleLinked][j]?) ∧
      (toggleHandler [sampleLocal, sampleLinked] 1 true sampleDay sampleDay
          (fun _ => some { ok := false, code := none, error := some "calendar.patch 500: " })
          sampleStore).sent = [toggleMessage sampleLinked true] ∧
      (todayKey sampleDay = todayKey sampleDay →
        (toggleHandler [sampleLocal, sampleLinked] 1 true sampleDay sampleDay
          (fun _ => some { ok := false, code := none, error := some "calendar.patch 500: " })
          sampleStore).store
          = sampleStore.set (todayKey sampleDay) (StoreVal.tasks [sampleLocal, sampleLinked])) :=
  ⟨by decide, by decide, by decide,
    toggle_rollback_restores_persisted_list [sampleLocal, sampleLinked] 1 sampleLinked true
      sampleDay sampleDay _ sampleStore (by decide) (by decide) (by decide)⟩

/-- C1, as the code has it. The rollback save writes under the key of the day of
the rollback, not under the key the optimistic save wrote. A linked task is
toggled to done on 12 September 2025, and the failing reply arrives on
13 September: the bucket of 12 September, in which the task is stored, keeps
`done = true`, the toggled value, and the rendered list is written into the
bucket of 13 September. -/
theorem toggle_rollback_misses_bucket_after_midnight :
    respOk ((fun _ => some { ok := false, code := none, error := some "calendar.patch 500: " })
      (toggleMessage sampleLinked true)) = false ∧
    sampleLinked.done = false ∧
    sampleStore.get (todayKey sampleDay) = some (StoreVal.tasks [sampleLocal, sampleLinked]) ∧
    (toggleHandler [sampleLocal, sampleLinked] 1 true sampleDay sampleNextDay
        (fun _ => some { ok := false, code := none, error := some "calendar.patch 500: " })
        sampleStore).store.get (todayKey sampleDay)
      = some (StoreVal.tasks [sampleLocal, { sampleLinked with done := true }]) ∧
    (toggleHandler [sampleLocal, sampleLinked] 1 true sampleDay sampleNextDay
        (fun _ => some { ok := false, code := none, error := some "calendar.patch 500: " })
        sampleStore).store.get (todayKey sampleNextDay)
      = some (StoreVal.tasks [sampleLocal, sampleLinked]) := by
  refine ⟨by decide, by decide, by decide, by decide, by decide⟩

/-- C2. A task without an `eventId` is handled locally: toggling it or deleting it
sends no message to the background, whatever the background would answer; the
store becomes the store with the updated list saved, and nothing else happens to it. -/
theorem local_task_sends_no_message
    (items : List Task) (idx : Nat) (t : Task) (nextDone : Bool) (now1 now2 now : JsDate)
    (reply : Message → Option Resp) (store : Storage)
    (hrow : items[idx]? = some t) (hlocal : t.eventId = none) :
    (toggleHandler items idx nextDone now1 now2 reply store).sent = [] ∧
    (toggleHandler items idx nextDone now1 now2 reply store).store
      = saveTodos (items.set idx { t with done := nextDone }) now1 store ∧
    (toggleHandler items idx nextDone now1 now2 reply store).items
      = items.set idx { t with done := nextDone } ∧
    (deleteHandler items idx now reply store).sent = [] ∧
    (deleteHandler items idx now reply store).store
      = saveTodos (items.eraseIdx idx) now store ∧
    (deleteHandler items idx now reply store).items = items.eraseIdx idx := by
  simp [toggleHandler, deleteHandler, hrow, hlocal, truthy]

theorem local_task_sends_no_message_witness :
    [sampleLocal, sampleLinked][0]? = some sampleLocal ∧ sampleLocal.eventId = none ∧
    (toggleHandler [sampleLocal, sampleLinked] 0 false sampleDay sampleDay
      (fun _ => none) sampleStore).sent = [] ∧
    (toggleHandler [sampleLocal, sampleLinked] 0 false sampleDay sampleDay
      (fun _ => none) sampleStore).store
      = saveTodos ([sampleLocal, sampleLinked].set 0 { sampleLocal with done := false })
          sampleDay sampleStore ∧
    (toggleHandler [sampleLocal, sampleLinked] 0 false sampleDay sampleDay
      (fun _ => none) sampleStore).items
      = [sampleLocal, sampleLinked].set 0 { sampleLocal with done := false } ∧
    (deleteHandler [sampleLocal, sampleLinked] 0 sampleDay (fun _ => none) sampleStore).sent
      = [] ∧
    (deleteHandler [sampleLocal, sampleLinked] 0 sampleDay (fun _ => none) sampleStore).store
      = saveTodos ([sampleLocal, sampleLinked].eraseIdx 0) sampleDay sampleStore ∧
    (deleteHandler [sampleLocal, sampleLinked] 0 sampleDay (fun _ => none) sampleStore).items
      = [sampleLocal, sampleLinked].eraseIdx 0 :=
  ⟨by decide, rfl,
    local_task_sends_no_message [sampleLocal, sampleLinked] 0 sampleLocal false
      sampleDay sampleDay sampleDay (fun _ => none) sampleStore (by decide) rfl⟩

/-! ## The remote operations -/

theorem run_requests_le_two (op : RemoteOp) (env : Env) :
    (requestsOf (op.run env Bg.init).2.trace).length ≤ 2 := by
  cases op with
  | create a =>
    by_cases h0 : truthy (env.identity true 0).token = true <;>
    by_cases h1 : (env.server 0).status = 401 <;>
    by_cases hl : truthy (env.identity false 1).token = true <;>
    by_cases h2 : truthy (env.identity true 2).token = true <;>
    simp [RemoteOp.run, createCalendarEvent, bind, BgM.bind, getAccessTokenInteractive,
      getAuthToken, fetch, evictCachedToken, logEvent, BgM.pure, pure, BgM.throw,
      BgM.ofExcept, Bg.init, h0, h1, hl, h2, requestsOf]
  | toggle a =>
    by_cases h0 : truthy (env.identity true 0).token = true <;>
    by_cases h1 : (env.server 0).status = 401 <;>
    by_cases hl : truthy (env.identity false 1).token = true <;>
    by_cases h2 : truthy (env.identity true 2).token = true <;>
    simp [RemoteOp.run, toggleEventDone, bind, BgM.bind, getAccessTokenInteractive,
      getAuthToken, fetch, evictCachedToken, logEvent, BgM.pure, pure, BgM.throw,
      BgM.ofExcept, Bg.init, h0, h1, hl, h2, requestsOf]
  | delete a =>
    by_cases he : truthy a.eventId = true <;>
    by_cases h0 : truthy (env.identity true 0).token = true <;>
    by_cases h1 : (env.server 0).status = 401 <;>
    by_cases hl : truthy (env.identity false 1).token = true <;>
    by_cases h2 : truthy (env.identity true 2).token = true <;>
    simp [RemoteOp.run, deleteCalendarEvent, bind, BgM.bind, getAccessTokenInteractive,
      getAuthToken, fetch, evictCachedToken, logEvent, BgM.pure, pure, BgM.throw,
      BgM.ofExcept, Bg.init, he, h0, h1, hl, h2, requestsOf]
  | gmail raw =>
    by_cases h0 : truthy (env.identity true 0).token = true <;>
    by_cases h1 : (env.server 0).status = 401 <;>
    by_cases h2 : truthy (env.identity true 1).token = true <;>
    simp [RemoteOp.run, gmailSendRaw, bind, BgM.bind, getAccessTokenInteractive,
      getAuthToken, fetch, removeCachedToken, verifyScopes, logEvent, BgM.pure, pure,
      BgM.throw, BgM.ofExcept, Bg.init, h0, h1, h2, requestsOf]

theorem run_second_request_only_after_401 (op : RemoteOp) (env : Env)
    (htwo : (requestsOf (op.run env Bg.init).2.trace).length = 2) :
    (env.server 0).status = 401 := by
  by_contra h1
  revert htwo
  cases op with
  | create a =>
    by_cases h0 : truthy (env.identity true 0).token = true <;>
    simp [RemoteOp.run, createCalendarEvent, bind, BgM.bind, getAccessTokenInteractive,
      getAuthToken, fetch, evictCachedToken, logEvent, BgM.pure, pure, BgM.throw,
      BgM.ofExcept, Bg.init, h0, h1, requestsOf]
  | toggle a =>
    by_cases h0 : truthy (env.identity true 0).token = true <;>
    simp [RemoteOp.run, toggleEventDone, bind, BgM.bind, getAccessTokenInteractive,
      getAuthToken, fetch, evictCachedToken, logEvent, BgM.pure, pure, BgM.throw,
      BgM.ofExcept, Bg.init, h0, h1, requestsOf]
  | delete a =>
    by_cases he : truthy a.eventId = true <;>
    by_cases h0 : truthy (env.identity true 0).token = true <;>
    simp [RemoteOp.run, deleteCalendarEvent, bind, BgM.bind, getAccessTokenInteractive,
      getAuthToken, fetch, evictCachedToken, logEvent, BgM.pure, pure, BgM.throw,
      BgM.ofExcept, Bg.init, he, h0, h1, requestsOf]
  | gmail raw =>
    by_cases h0 : truthy (env.identity true 0).token = true <;>
    simp [RemoteOp.run, gmailSendRaw, bind, BgM.bind, getAccessTokenInteractive,
      getAuthToken, fetch, removeCachedToken, verifyScopes, logEvent, BgM.pure, pure,
      BgM.throw, BgM.ofExcept, Bg.init, h0, h1, requestsOf]

theorem run_outcome_of_two_requests (op : RemoteOp) (env : Env)
    (htwo : (requestsOf (op.run env Bg.init).2.trace).length = 2) :
    (op.run env Bg.init).1 = op.finish (env.server 1) := by
  revert htwo
  cases op with
  | create a =>
    by_cases h0 : truthy (env.identity true 0).token = true <;>
    by_cases h1 : (env.server 0).status = 401 <;>
    by_cases hl : truthy (env.identity false 1).token = true <;>
    by_cases h2 : truthy (env.identity true 2).token = true <;>
    simp [RemoteOp.run, RemoteOp.finish, createCalendarEvent, bind, BgM.bind,
      getAccessTokenInteractive, getAuthToken, fetch, evictCachedToken, logEvent, BgM.pure,
      pure, BgM.throw, BgM.ofExcept, Bg.init, h0, h1, hl, h2, requestsOf]
  | toggle a =>
    by_cases h0 : truthy (env.identity true 0).token = true <;>
    by_cases h1 : (env.server 0).status = 401 <;>
    by_cases hl : truthy (env.identity false 1).token = true <;>
    by_cases h2 : truthy (env.identity true 2).token = true <;>
    simp [RemoteOp.run, RemoteOp.finish, toggleEventDone, bind, BgM.bind,
      getAccessTokenInteractive, getAuthToken, fetch, evictCachedToken, logEvent, BgM.pure,
      pure, BgM.throw, BgM.ofExcept, Bg.init, h0, h1, hl, h2, requestsOf]
  | delete a =>
    by_cases he : truthy a.eventId = true <;>
    by_cases h0 : truthy (env.identity true 0).token = true <;>
    by_cases h1 : (env.server 0).status = 401 <;>
    by_cases hl : truthy (env.identity false 1).token = true <;>
    by_cases h2 : truthy (env.identity true 2).token = true <;>
    simp [RemoteOp.run, RemoteOp.finish, deleteCalendarEvent, bind, BgM.bind,
      getAccessTokenInteractive, getAuthToken, fetch, evictCachedToken, logEvent, BgM.pure,
      pure, BgM.throw, BgM.ofExcept, Bg.init, he, h0, h1, hl, h2, requestsOf]
  | gmail raw =>
    by_cases h0 : truthy (env.identity true 0).token = true <;>
    by_cases h1 : (env.server 0).status = 401 <;>
    by_cases h2 : truthy (env.identity true 1).token = true <;>
    simp [RemoteOp.run, RemoteOp.finish, gmailSendRaw, bind, BgM.bind,
      getAccessTokenInteractive, getAuthToken, fetch, removeCachedToken, verifyScopes,
      logEvent, BgM.pure, pure, BgM.throw, BgM.ofExcept, Bg.init, h0, h1, h2, requestsOf]

theorem run_outcome_of_one_request (op : RemoteOp) (env : Env)
    (hone : (requestsOf (op.run env Bg.init).2.trace).length = 1)
    (h1 : (env.server 0).status ≠ 401) :
    (op.run env Bg.init).1 = op.finish (env.server 0) := by
  revert hone
  cases op with
  | create a =>
    by_cases h0 : truthy (env.identity true 0).token = true <;>
    simp [RemoteOp.run, RemoteOp.finish, createCalendarEvent, bind, BgM.bind,
      getAccessTokenInteractive, getAuthToken, fetch, evictCachedToken, logEvent, BgM.pure,
      pure, BgM.throw, BgM.ofExcept, Bg.init, h0, h1, requestsOf]
  | toggle a =>
    by_cases h0 : truthy (env.identity true 0).token = true <;>
    simp [RemoteOp.run, RemoteOp.finish, toggleEventDone, bind, BgM.bind,
      getAccessTokenInteractive, getAuthToken, fetch, evictCachedToken, logEvent, BgM.pure,
      pure, BgM.throw, BgM.ofExcept, Bg.init, h0, h1, requestsOf]
  | delete a =>
    by_cases he : truthy a.eventId = true <;>
    by_cases h0 : truthy (env.identity true 0).token = true <;>
    simp [RemoteOp.run, RemoteOp.finish, deleteCalendarEvent, bind, BgM.bind,
      getAccessTokenInteractive, getAuthToken, fetch, evictCachedToken, logEvent, BgM.pure,
      pure, BgM.throw, BgM.ofExcept, Bg.init, he, h0, h1, requestsOf]
  | gmail raw =>
    by_cases h0 : truthy (env.identity true 0).token = true <;>
    simp [RemoteOp.run, RemoteOp.finish, gmailSendRaw, bind, BgM.bind,
      getAccessTokenInteractive, getAuthToken, fetch, removeCachedToken, verifyScopes,
      logEvent, BgM.pure, pure, BgM.throw, BgM.ofExcept, Bg.init, h0, h1, requestsOf]

theorem run_of_granted (op : RemoteOp) (env : Env)
    (hgrant : ∀ n, truthy (env.identity true n).token = true)
    (hsends : op.sendsRequests = true) :
    (requestsOf (op.run env Bg.init).2.trace).length
        = (if (env.server 0).status = 401 then 2 else 1) ∧
    (op.run env Bg.init).1
        = op.finish (if (env.server 0).status = 401 then env.server 1 else env.server 0) := by
  have h0 := hgrant 0
  have hg1 := hgrant 1
  have h2 := hgrant 2
  cases op with
  | create a =>
    by_cases h1 : (env.server 0).status = 401 <;>
    by_cases hl : truthy (env.identity false 1).token = true <;>
    simp [RemoteOp.run, RemoteOp.finish, createCalendarEvent, bind, BgM.bind,
      getAccessTokenInteractive, getAuthToken, fetch, evictCachedToken, logEvent, BgM.pure,
      pure, BgM.throw, BgM.ofExcept, Bg.init, h0, h1, hl, h2, requestsOf]
  | toggle a =>
    by_cases h1 : (env.server 0).status = 401 <;>
    by_cases hl : truthy (env.identity false 1).token = true <;>
    simp [RemoteOp.run, RemoteOp.finish, toggleEventDone, bind, BgM.bind,
      getAccessTokenInteractive, getAuthToken, fetch, evictCachedToken, logEvent, BgM.pure,
      pure, BgM.throw, BgM.ofExcept, Bg.init, h0, h1, hl, h2, requestsOf]
  | delete a =>
    have he : truthy a.eventId = true := hsends
    by_cases h1 : (env.server 0).status = 401 <;>
    by_cases hl : truthy (env.identity false 1).token = true <;>
    simp [RemoteOp.run, RemoteOp.finish, deleteCalendarEvent, bind, BgM.bind,
      getAccessTokenInteractive, getAuthToken, fetch, evictCachedToken, logEvent, BgM.pure,
      pure, BgM.throw, BgM.ofExcept, Bg.init, he, h0, h1, hl, h2, requestsOf]
  | gmail raw =>
    by_cases h1 : (env.server 0).status = 401 <;>
    simp [RemoteOp.run, RemoteOp.finish, gmailSendRaw, bind, BgM.bind,
      getAccessTokenInteractive, getAuthToken, fetch, removeCachedToken, verifyScopes,
      logEvent, BgM.pure, pure, BgM.throw, BgM.ofExcept, Bg.init, h0, h1, hg1, requestsOf]

theorem finish_of_401_fails (op : RemoteOp) (res : Response) (h : res.status = 401) :
    ∃ e, op.finish res = Except.error e := by
  cases op <;>
  simp [RemoteOp.finish, finishJson, finishDelete, finishMail, Response.ok, h, Except.map]


theorem deleteCalendarEvent_granted (a : DeleteArgs) (env : Env)
    (he : truthy a.eventId = true) (hgrant : ∀ n, truthy (env.identity true n).token = true) :
    (deleteCalendarEvent a env Bg.init).1
      = finishDelete (if (env.server 0).status = 401 then env.server 1 else env.server 0) := by
  have h0 := hgrant 0
  have h2 := hgrant 2
  by_cases h1 : (env.server 0).status = 401 <;>
  by_cases hl : truthy (env.identity false 1).token = true <;>
  simp [deleteCalendarEvent, bind, BgM.bind, getAccessTokenInteractive, getAuthToken,
    fetch, evictCachedToken, logEvent, BgM.pure, pure, BgM.throw, BgM.ofExcept, Bg.init,
    he, h0, h1, hl, h2]

theorem deleteHandler_of_absent
    (items : List Task) (idx : Nat) (item : Task) (now : JsDate)
    (reply : Message → Option Resp) (store : Storage) (r : Resp)
    (hrow : items[idx]? = some item) (hlinked : truthy item.eventId = true)
    (hreply : reply (Message.deleteEvent item.eventId) = some r) (habsent : ShowsAbsent r) :
    deleteHandler items idx now reply store
      = { items := items.take idx ++ items.drop (idx + 1),
          store := store.set (todayKey now)
            (StoreVal.tasks (items.take idx ++ items.drop (idx + 1))),
          sent := [Message.deleteEvent item.eventId],
          notices := [("Task deleted", "ok")] } := by
  have hgone : isEventGone (some r) = true := isEventGone_of_showsAbsent r habsent
  have herase : items.eraseIdx idx = items.take idx ++ items.drop (idx + 1) :=
    List.eraseIdx_eq_take_drop_succ items idx
  simp [deleteHandler, hrow, hlinked, hreply, hgone, herase, saveTodos]

theorem router_delete_shows_absent (eventId : Option String) (env : Env)
    (he : truthy eventId = true) (hgrant : ∀ n, truthy (env.identity true n).token = true)
    (final : Response)
    (hfinal : final = (if (env.server 0).status = 401 then env.server 1 else env.server 0))
    (hstatus : final.status = 404 ∨ final.status = 410) :
    ShowsAbsent (router (Message.deleteEvent eventId) env Bg.init).1 := by
  have hres := deleteCalendarEvent_granted { eventId := eventId, calendarId := none } env
    he hgrant
  rw [← hfinal] at hres
  rcases hstatus with h | h
  · left
    simp [router, hres, finishDelete, h, deleteReply]
  · right; right
    refine ⟨"calendar.delete " ++ toString final.status ++ ": " ++ final.text, ?_, Or.inl ?_⟩
    · simp [router, hres, finishDelete, h, deleteReply]
    · refine ⟨"calendar.delete ", ": " ++ final.text, "410", Or.inr rfl, ?_, by decide, ?_⟩
      · rw [h]
        have h410 : toString (410 : Nat) = "410" := by decide
        rw [h410, String.append_assoc]
      · simp [String.toList, isWordAt, isWordChar, Char.isAlphanum, Char.isAlpha,
          Char.isUpper, Char.isLower, Char.isDigit]

/-- C3. Idempotent delete: when the task of row `idx` is linked and the reply to
its `DELETE_EVENT` message shows the event absent (code 404 or 410, or an error
text carrying a 404/410 status or a reason `notFound` / `deleted`), the handler
removes exactly the task at `idx`, persists the shortened list and reports
success instead of an error. In particular this is what happens when the
calendar answers the delete with status 404 or 410 (token requests being
granted). -/
theorem delete_of_absent_event_removes_task
    (items : List Task) (idx : Nat) (item : Task) (now : JsDate) (store : Storage)
    (hrow : items[idx]? = some item) (hlinked : truthy item.eventId = true) :
    (∀ (reply : Message → Option Resp) (r : Resp),
      reply (Message.deleteEvent item.eventId) = some r → ShowsAbsent r →
      (deleteHandler items idx now reply store).items
        = items.take idx ++ items.drop (idx + 1) ∧
      (deleteHandler items idx now reply store).store
        = store.set (todayKey now)
            (StoreVal.tasks (items.take idx ++ items.drop (idx + 1))) ∧
      (deleteHandler items idx now reply store).store.get (todayKey now)
        = some (StoreVal.tasks (items.take idx ++ items.drop (idx + 1))) ∧
      (deleteHandler items idx now reply store).notices = [("Task deleted", "ok")]) ∧
    (∀ (env : Env) (final : Response),
      (∀ n, truthy (env.identity true n).token = true) →
      final = (if (env.server 0).status = 401 then env.server 1 else env.server 0) →
      (final.status = 404 ∨ final.status = 410) →
      (deleteHandler items idx now (backgroundReply env) store).items
        = items.take idx ++ items.drop (idx + 1) ∧
      (deleteHandler items idx now (backgroundReply env) store).store.get (todayKey now)
        = some (StoreVal.tasks (items.take idx ++ items.drop (idx + 1))) ∧
      (deleteHandler items idx now (backgroundReply env) store).notices
        = [("Task deleted", "ok")]) := by
  constructor
  · intro reply r hreply habsent
    rw [deleteHandler_of_absent items idx item now reply store r hrow hlinked hreply habsent]
    exact ⟨rfl, rfl, Storage.get_set_same _ _ _, rfl⟩
  · intro env final hgrant hfinal hstatus
    have habsent := router_delete_shows_absent item.eventId env hlinked hgrant final hfinal
      hstatus
    rw [deleteHandler_of_absent items idx item now (backgroundReply env) store _ hrow hlinked
      rfl habsent]
    exact ⟨rfl, Storage.get_set_same _ _ _, rfl⟩

theorem delete_of_absent_event_removes_task_witness :
    [sampleLocal, sampleLinked][1]? = some sampleLinked ∧
    truthy sampleLinked.eventId = true ∧
    ShowsAbsent (errorReply "calendar.delete 410: Gone") ∧
    (deleteHandler [sampleLocal, sampleLinked] 1 sampleDay
        (fun _ => some (errorReply "calendar.delete 410: Gone")) sampleStore).items
      = [sampleLocal, sampleLinked].take 1 ++ [sampleLocal, sampleLinked].drop (1 + 1) ∧
    (deleteHandler [sampleLocal, sampleLinked] 1 sampleDay
        (fun _ => some (errorReply "calendar.delete 410: Gone")) sampleStore).notices
      = [("Task deleted", "ok")] ∧
    (∀ n, truthy (envGone.identity true n).token = true) ∧
    (envGone.server 0).status = 404 ∧
    (deleteHandler [sampleLocal, sampleLinked] 1 sampleDay (backgroundReply envGone)
        sampleStore).store.get (todayKey sampleDay)
      = some (StoreVal.tasks
          ([sampleLocal, sampleLinked].take 1 ++ [sampleLocal, sampleLinked].drop (1 + 1))) :=
  have habsent : ShowsAbsent (errorReply "calendar.delete 410: Gone") :=
    Or.inr (Or.inr ⟨"calendar.delete 410: Gone", rfl,
      Or.inl ⟨"calendar.delete ", ": Gone", "410", Or.inr rfl, by decide, by decide, by decide⟩⟩)
  ⟨by decide, by decide, habsent,
    ((delete_of_absent_event_removes_task [sampleLocal, sampleLinked] 1 sampleLinked sampleDay
      sampleStore (by decide) (by decide)).1 _ _ rfl habsent).1,
    ((delete_of_absent_event_removes_task [sampleLocal, sampleLinked] 1 sampleLinked sampleDay
      sampleStore (by decide) (by decide)).1 _ _ rfl habsent).2.2.2,
    fun _ => rfl, rfl,
    ((delete_of_absent_event_removes_task [sampleLocal, sampleLinked] 1 sampleLinked sampleDay
      sampleStore (by decide) (by decide)).2 envGone (envGone.server 0) (fun _ => rfl) rfl
      (Or.inl rfl)).2.1⟩

/-- C5. One retry on 401, for each of the four remote operations and every
sequence of responses. At most two requests are issued. A second request is
issued only after a first response 401, and then the second response decides the
outcome; a 401 on it makes the operation fail, with no third request. When a
single request is issued and its response is not 401, that response decides the
outcome. When token requests are granted (and `deleteCalendarEvent` has an
`eventId`), the number of requests is two exactly when the first response is 401,
and one otherwise. -/
theorem one_retry_on_401 (op : RemoteOp) (env : Env) :
    (requestsOf (op.run env Bg.init).2.trace).length ≤ 2 ∧
    ((requestsOf (op.run env Bg.init).2.trace).length = 2 →
      (env.server 0).status = 401 ∧
      (op.run env Bg.init).1 = op.finish (env.server 1) ∧
      ((env.server 1).status = 401 → ∃ e, (op.run env Bg.init).1 = Except.error e)) ∧
    ((requestsOf (op.run env Bg.init).2.trace).length = 1 → (env.server 0).status ≠ 401 →
      (op.run env Bg.init).1 = op.finish (env.server 0)) ∧
    ((∀ n, truthy (env.identity true n).token = true) → op.sendsRequests = true →
      (requestsOf (op.run env Bg.init).2.trace).length
          = (if (env.server 0).status = 401 then 2 else 1) ∧
      (op.run env Bg.init).1
          = op.finish (if (env.server 0).status = 401 then env.server 1 else env.server 0)) := by
  refine ⟨run_requests_le_two op env, ?_, run_outcome_of_one_request op env,
    run_of_granted op env⟩
  intro htwo
  have hresult := run_outcome_of_two_requests op env htwo
  refine ⟨run_second_request_only_after_401 op env htwo, hresult, ?_⟩
  intro h2
  rw [hresult]
  exact finish_of_401_fails op (env.server 1) h2

theorem one_retry_on_401_witness :
    ((requestsOf ((RemoteOp.gmail "bWFpbA").run envNoCachedToken Bg.init).2.trace).length = 2 ∧
      (envNoCachedToken.server 0).status = 401 ∧ (envNoCachedToken.server 1).status = 401 ∧
      ((RemoteOp.gmail "bWFpbA").run envNoCachedToken Bg.init).1
        = (RemoteOp.gmail "bWFpbA").finish (envNoCachedToken.server 1) ∧
      ∃ e, ((RemoteOp.gmail "bWFpbA").run envNoCachedToken Bg.init).1 = Except.error e) ∧
    ((requestsOf ((RemoteOp.create sampleCreateArgs).run envServerError Bg.init).2.trace).length
        = 1 ∧
      (envServerError.server 0).status ≠ 401 ∧
      ((RemoteOp.create sampleCreateArgs).run envServerError Bg.init).1
        = (RemoteOp.create sampleCreateArgs).finish (envServerError.server 0)) ∧
    ((∀ n, truthy (envStaleThenFine.identity true n).token = true) ∧
      (RemoteOp.delete { eventId := some "evt1", calendarId := none }).sendsRequests = true ∧
      (requestsOf ((RemoteOp.delete { eventId := some "evt1", calendarId := none }).run
          envStaleThenFine Bg.init).2.trace).length
        = (if (envStaleThenFine.server 0).status = 401 then 2 else 1) ∧
      ((RemoteOp.delete { eventId := some "evt1", calendarId := none }).run
          envStaleThenFine Bg.init).1
        = (RemoteOp.delete { eventId := some "evt1", calendarId := none }).finish
            (if (envStaleThenFine.server 0).status = 401 then envStaleThenFine.server 1
             else envStaleThenFine.server 0)) :=
  have hgrant : ∀ n, truthy (envStaleThenFine.identity true n).token = true :=
    fun _ => rfl
  ⟨⟨by decide, rfl, rfl,
      ((one_retry_on_401 (RemoteOp.gmail "bWFpbA") envNoCachedToken).2.1 (by decide)).2.1,
      ((one_retry_on_401 (RemoteOp.gmail "bWFpbA") envNoCachedToken).2.1 (by decide)).2.2 rfl⟩,
    ⟨by decide, by decide,
      (one_retry_on_401 (RemoteOp.create sampleCreateArgs) envServerError).2.2.1
        (by decide) (by decide)⟩,
    ⟨hgrant, rfl,
      (one_retry_on_401 (RemoteOp.delete { eventId := some "evt1", calendarId := none })
        envStaleThenFine).2.2.2 hgrant rfl⟩⟩

/-- C7. The outcome of `deleteCalendarEvent`: without an `eventId` (missing or
empty) it returns `{deleted:false, notFound:true}` and leaves no effect at all,
neither a token request nor a network request; otherwise, token requests being
granted, the last response decides: 204 gives `{deleted:true}`, 404 gives
`{deleted:false, notFound:true}`, and every other status makes the operation
fail with an error that carries the status and the body. -/
theorem deleteCalendarEvent_outcome (a : DeleteArgs) (env : Env) :
    (truthy a.eventId = false →
      deleteCalendarEvent a env Bg.init
        = (Except.ok { deleted := false, notFound := true }, Bg.init)) ∧
    (truthy a.eventId = true → (∀ n, truthy (env.identity true n).token = true) →
      ∀ final, final = (if (env.server 0).status = 401 then env.server 1 else env.server 0) →
      (final.status = 204 →
        (deleteCalendarEvent a env Bg.init).1
          = Except.ok { deleted := true, notFound := false }) ∧
      (final.status = 404 →
        (deleteCalendarEvent a env Bg.init).1
          = Except.ok { deleted := false, notFound := true }) ∧
      (final.status ≠ 204 → final.status ≠ 404 →
        (deleteCalendarEvent a env Bg.init).1
          = Except.error ("calendar.delete " ++ toString final.status ++ ": " ++ final.text))) := by
  constructor
  · intro he
    simp [deleteCalendarEvent, he, pure, BgM.pure]
  · intro he hgrant final hfinal
    have hres : (deleteCalendarEvent a env Bg.init).1 = finishDelete final := by
      rw [hfinal]
      exact deleteCalendarEvent_granted a env he hgrant
    rw [hres]
    refine ⟨?_, ?_, ?_⟩
    · intro h; simp [finishDelete, h]
    · intro h; simp [finishDelete, h]
    · intro h204 h404; simp [finishDelete, h204, h404]

theorem deleteCalendarEvent_outcome_witness :
    (truthy (none : Option String) = false ∧
      deleteCalendarEvent { eventId := none, calendarId := none } envStaleThenFine Bg.init
        = (Except.ok { deleted := false, notFound := true }, Bg.init)) ∧
    (truthy (some "evt1") = true ∧
      (∀ n, truthy (envStaleThenFine.identity true n).token = true) ∧
      (envStaleThenFine.server 1).status = 204 ∧
      (deleteCalendarEvent { eventId := some "evt1", calendarId := none }
          envStaleThenFine Bg.init).1
        = Except.ok { deleted := true, notFound := false }) ∧
    (truthy (some "evt1") = true ∧
      (∀ n, truthy (envServerError.identity true n).token = true) ∧
      (envServerError.server 0).status ≠ 204 ∧ (envServerError.server 0).status ≠ 404 ∧
      (deleteCalendarEvent { eventId := some "evt1", calendarId := none }
          envServerError Bg.init).1
        = Except.error ("calendar.delete " ++ toString (envServerError.server 0).status ++ ": "
            ++ (envServerError.server 0).text)) :=
  ⟨⟨rfl, (deleteCalendarEvent_outcome { eventId := none, calendarId := none }
      envStaleThenFine).1 rfl⟩,
    ⟨rfl, fun _ => rfl, rfl,
      ((deleteCalendarEvent_outcome { eventId := some "evt1", calendarId := none }
        envStaleThenFine).2 rfl (fun _ => rfl) (envStaleThenFine.server 1) rfl).1 rfl⟩,
    ⟨rfl, fun _ => rfl, by decide, by decide,
      ((deleteCalendarEvent_outcome { eventId := some "evt1", calendarId := none }
        envServerError).2 rfl (fun _ => rfl) (envServerError.server 0) rfl).2.2
        (by decide) (by decide)⟩⟩


/-- C6, as the code has it. When the first request and its retry are both
answered 401, the operation fails, and between the two requests there is exactly
one token refresh (interactive token request); `gmailSend` evicts the token it
used exactly once, while the calendar operations evict exactly once when their
non-interactive lookup of the cached token finds one, and not at all when it
finds none. The last part lists the effects between the two requests. -/
theorem double_401_fails_after_one_refresh (op : RemoteOp) (env : Env)
    (htwo : (requestsOf (op.run env Bg.init).2.trace).length = 2)
    (h1 : (env.server 0).status = 401) (h2 : (env.server 1).status = 401) :
    (∃ e, (op.run env Bg.init).1 = Except.error e) ∧
    refreshes (betweenRequests (op.run env Bg.init).2.trace) = 1 ∧
    evictions (betweenRequests (op.run env Bg.init).2.trace)
      = (match op with
        | RemoteOp.gmail _ => 1
        | _ => if truthy (env.identity false 1).token then 1 else 0) ∧
    betweenRequests (op.run env Bg.init).2.trace
      = (match op with
        | RemoteOp.gmail _ =>
          [Event.removeCachedAuthToken ((env.identity true 0).token.getD ""),
           Event.getAuthToken true,
           Event.tokenInfo ((env.identity true 1).token.getD "")]
        | _ =>
          [Event.getAuthToken false] ++
          (if truthy (env.identity false 1).token
            then [Event.removeCachedAuthToken ((env.identity false 1).token.getD "")]
            else []) ++
          [Event.getAuthToken true]) := by
  revert htwo
  cases op with
  | create a =>
    by_cases h0 : truthy (env.identity true 0).token = true <;>
    by_cases hl : truthy (env.identity false 1).token = true <;>
    by_cases ht : truthy (env.identity true 2).token = true <;>
    simp [RemoteOp.run, createCalendarEvent, bind, BgM.bind, getAccessTokenInteractive,
      getAuthToken, fetch, evictCachedToken, logEvent, BgM.pure, pure, BgM.throw,
      BgM.ofExcept, Bg.init, h0, h1, h2, hl, ht, requestsOf, betweenRequests, refreshes,
      evictions, Event.isRequest, finishJson, Response.ok, Except.map, List.dropWhile,
      List.takeWhile]
  | toggle a =>
    by_cases h0 : truthy (env.identity true 0).token = true <;>
    by_cases hl : truthy (env.identity false 1).token = true <;>
    by_cases ht : truthy (env.identity true 2).token = true <;>
    simp [RemoteOp.run, toggleEventDone, bind, BgM.bind, getAccessTokenInteractive,
      getAuthToken, fetch, evictCachedToken, logEvent, BgM.pure, pure, BgM.throw,
      BgM.ofExcept, Bg.init, h0, h1, h2, hl, ht, requestsOf, betweenRequests, refreshes,
      evictions, Event.isRequest, finishJson, Response.ok, Except.map, List.dropWhile,
      List.takeWhile]
  | delete a =>
    by_cases he : truthy a.eventId = true <;>
    by_cases h0 : truthy (env.identity true 0).token = true <;>
    by_cases hl : truthy (env.identity false 1).token = true <;>
    by_cases ht : truthy (env.identity true 2).token = true <;>
    simp [RemoteOp.run, deleteCalendarEvent, bind, BgM.bind, getAccessTokenInteractive,
      getAuthToken, fetch, evictCachedToken, logEvent, BgM.pure, pure, BgM.throw,
      BgM.ofExcept, Bg.init, he, h0, h1, h2, hl, ht, requestsOf, betweenRequests, refreshes,
      evictions, Event.isRequest, finishDelete, Except.map, List.dropWhile, List.takeWhile]
  | gmail raw =>
    by_cases h0 : truthy (env.identity true 0).token = true <;>
    by_cases ht : truthy (env.identity true 1).token = true <;>
    simp [RemoteOp.run, gmailSendRaw, bind, BgM.bind, getAccessTokenInteractive,
      getAuthToken, fetch, removeCachedToken, verifyScopes, logEvent, BgM.pure, pure,
      BgM.throw, BgM.ofExcept, Bg.init, h0, h1, h2, ht, requestsOf, betweenRequests,
      refreshes, evictions, Event.isRequest, finishMail, Response.ok, Except.map,
      List.dropWhile, List.takeWhile]


theorem double_401_fails_after_one_refresh_witness :
    (requestsOf ((RemoteOp.toggle sampleToggleArgs).run
        envAlwaysUnauthorized Bg.init).2.trace).length = 2 ∧
    (envAlwaysUnauthorized.server 0).status = 401 ∧
    (envAlwaysUnauthorized.server 1).status = 401 ∧
    (∃ e, ((RemoteOp.toggle sampleToggleArgs).run
        envAlwaysUnauthorized Bg.init).1 = Except.error e) ∧
    refreshes (betweenRequests ((RemoteOp.toggle sampleToggleArgs).run
        envAlwaysUnauthorized Bg.init).2.trace) = 1 ∧
    evictions (betweenRequests ((RemoteOp.toggle sampleToggleArgs).run
        envAlwaysUnauthorized Bg.init).2.trace) = 1 :=
  ⟨by decide, rfl, rfl,
    (double_401_fails_after_one_refresh (RemoteOp.toggle sampleToggleArgs)
      envAlwaysUnauthorized (by decide) rfl rfl).1,
    (double_401_fails_after_one_refresh (RemoteOp.toggle sampleToggleArgs)
      envAlwaysUnauthorized (by decide) rfl rfl).2.1,
    (double_401_fails_after_one_refresh (RemoteOp.toggle sampleToggleArgs)
      envAlwaysUnauthorized (by decide) rfl rfl).2.2.1⟩

/-- C6, the claim as written fails: with no token in the cache at the time of the
lookup, `createCalendarEvent` answers two 401 responses with no eviction at all
between its two requests. -/
theorem double_401_without_eviction :
    (requestsOf ((RemoteOp.create sampleCreateArgs).run envNoCachedToken Bg.init).2.trace).length
      = 2 ∧
    (envNoCachedToken.server 0).status = 401 ∧ (envNoCachedToken.server 1).status = 401 ∧
    evictions (betweenRequests
      ((RemoteOp.create sampleCreateArgs).run envNoCachedToken Bg.init).2.trace) = 0 ∧
    refreshes (betweenRequests
      ((RemoteOp.create sampleCreateArgs).run envNoCachedToken Bg.init).2.trace) = 1 := by
  decide

/-! ## Deleting a linked task -/

theorem deleteErrorText_ne_empty (status : Nat) (text : String) :
    "calendar.delete " ++ toString status ++ ": " ++ text ≠ "" := by
  intro h
  have hlen := congrArg String.length h
  have h16 : "calendar.delete ".length = 16 := by decide
  simp [String.length_append, h16] at hlen

/-- When the delete handler keeps the task. For a linked task, when token requests
are granted and the last response of the remote delete has a status other than
204 and 404, and the pattern of `isEventGone` does not match the error text built
from it, the delete handler leaves the list and the store unchanged and shows
the error. -/
theorem delete_failure_keeps_task
    (items : List Task) (idx : Nat) (item : Task) (now : JsDate) (store : Storage)
    (env : Env) (final : Response)
    (hrow : items[idx]? = some item) (hlinked : truthy item.eventId = true)
    (hgrant : ∀ n, truthy (env.identity true n).token = true)
    (hfinal : final = (if (env.server 0).status = 401 then env.server 1 else env.server 0))
    (h204 : final.status ≠ 204) (h404 : final.status ≠ 404)
    (hnomatch : goneReTest ("calendar.delete " ++ toString final.status ++ ": " ++ final.text)
      = false) :
    (deleteHandler items idx now (backgroundReply env) store).items = items ∧
    (deleteHandler items idx now (backgroundReply env) store).store = store ∧
    (deleteHandler items idx now (backgroundReply env) store).sent
      = [Message.deleteEvent item.eventId] ∧
    (deleteHandler items idx now (backgroundReply env) store).notices
      = [("Could not delete Calendar event: " ++
            ("calendar.delete " ++ toString final.status ++ ": " ++ final.text), "err")] := by
  have hres := deleteCalendarEvent_granted { eventId := item.eventId, calendarId := none } env
    hlinked hgrant
  rw [← hfinal] at hres
  have hfin : finishDelete final
      = Except.error ("calendar.delete " ++ toString final.status ++ ": " ++ final.text) := by
    simp [finishDelete, h204, h404]
  have hreply : backgroundReply env (Message.deleteEvent item.eventId)
      = some (errorReply ("calendar.delete " ++ toString final.status ++ ": " ++ final.text)) := by
    simp only [backgroundReply, router, hres, hfin, deleteReply, errorReply]
  have hne := deleteErrorText_ne_empty final.status final.text
  have hgone : isEventGone (some (errorReply ("calendar.delete " ++ toString final.status ++ ": " ++ final.text)))
      = false := by
    simp [isEventGone, errorReply, hnomatch]
  have herr : respErrorOr (some (errorReply ("calendar.delete " ++ toString final.status ++ ": " ++ final.text)))
      "Unknown error" = "calendar.delete " ++ toString final.status ++ ": " ++ final.text := by
    simp [respErrorOr, errorReply, orElse, truthy, hne]
  simp only [deleteHandler, hrow, hlinked, hreply, hgone, herr, if_true]
  simp [respOk, errorReply]

theorem delete_failure_keeps_task_witness :
    [sampleLocal, sampleLinked][1]? = some sampleLinked ∧
    truthy sampleLinked.eventId = true ∧
    (∀ n, truthy (envPlainServerError.identity true n).token = true) ∧
    (envPlainServerError.server 0).status ≠ 204 ∧ (envPlainServerError.server 0).status ≠ 404 ∧
    goneReTest ("calendar.delete " ++ toString (envPlainServerError.server 0).status ++ ": "
      ++ (envPlainServerError.server 0).text) = false ∧
    (deleteHandler [sampleLocal, sampleLinked] 1 sampleDay (backgroundReply envPlainServerError)
      sampleStore).items = [sampleLocal, sampleLinked] ∧
    (deleteHandler [sampleLocal, sampleLinked] 1 sampleDay (backgroundReply envPlainServerError)
      sampleStore).store = sampleStore ∧
    (deleteHandler [sampleLocal, sampleLinked] 1 sampleDay (backgroundReply envPlainServerError)
      sampleStore).sent = [Message.deleteEvent sampleLinked.eventId] ∧
    (deleteHandler [sampleLocal, sampleLinked] 1 sampleDay (backgroundReply envPlainServerError)
      sampleStore).notices
      = [("Could not delete Calendar event: " ++
            ("calendar.delete " ++ toString (envPlainServerError.server 0).status ++ ": "
              ++ (envPlainServerError.server 0).text), "err")] :=
  ⟨by decide, by decide, fun _ => rfl, by decide, by decide, by decide,
    delete_failure_keeps_task [sampleLocal, sampleLinked] 1 sampleLinked sampleDay sampleStore
      envPlainServerError (envPlainServerError.server 0) (by decide) (by decide) (fun _ => rfl)
      rfl (by decide) (by decide) (by decide)⟩

/-- C4, as the code has it. The service answers the delete with status 500 and a
body that mentions 404: the remote delete fails with an outcome that is neither
success nor absence, yet the handler removes the task from the persisted list
and reports a deletion instead of the error. -/
theorem delete_failure_mentioning_404_removes_task :
    (envServerError.server 0).status = 500 ∧
    (deleteCalendarEvent { eventId := sampleLinked.eventId, calendarId := none }
        envServerError Bg.init).1 = Except.error "calendar.delete 500: upstream 404" ∧
    sampleStore.get (todayKey sampleDay) = some (StoreVal.tasks [sampleLocal, sampleLinked]) ∧
    (deleteHandler [sampleLocal, sampleLinked] 1 sampleDay (backgroundReply envServerError)
      sampleStore).store.get (todayKey sampleDay) = some (StoreVal.tasks [sampleLocal]) ∧
    (deleteHandler [sampleLocal, sampleLinked] 1 sampleDay (backgroundReply envServerError)
      sampleStore).notices = [("Task deleted", "ok")] :=
  ⟨rfl, rfl, by decide, by decide, by decide⟩


/-! ## The done-toggle on the calendar -/

theorem toggle_requests_are_patches (a : ToggleArgs) (env : Env) :
    ∀ req ∈ requestsOf (toggleEventDone a env Bg.init).2.trace,
      req.method = "PATCH" ∧
      req.endpoint = Endpoint.event (a.calendarId.getD "primary") a.eventId ∧
      req.body = ReqBody.patch (patchBody a.done a.originalTitle a.originalColorId) := by
  intro req
  by_cases h0 : truthy (env.identity true 0).token = true <;>
  by_cases h1 : (env.server 0).status = 401 <;>
  by_cases hl : truthy (env.identity false 1).token = true <;>
  by_cases h2 : truthy (env.identity true 2).token = true <;>
  simp [toggleEventDone, bind, BgM.bind, getAccessTokenInteractive, getAuthToken, fetch,
    evictCachedToken, logEvent, BgM.pure, pure, BgM.throw, BgM.ofExcept, Bg.init,
    h0, h1, hl, h2, requestsOf] <;>
  (try (rintro (rfl | rfl) <;> simp))

theorem toggle_sends_request (a : ToggleArgs) (env : Env)
    (hgrant : truthy (env.identity true 0).token = true) :
    requestsOf (toggleEventDone a env Bg.init).2.trace ≠ [] := by
  by_cases h1 : (env.server 0).status = 401 <;>
  by_cases hl : truthy (env.identity false 1).token = true <;>
  by_cases h2 : truthy (env.identity true 2).token = true <;>
  simp [toggleEventDone, bind, BgM.bind, getAccessTokenInteractive, getAuthToken, fetch,
    evictCachedToken, logEvent, BgM.pure, pure, BgM.throw, BgM.ofExcept, Bg.init,
    hgrant, h1, hl, h2, requestsOf]

/-- C8. The body of the done-toggle patch. When the token is granted,
`toggleEventDone` sends a request, and every request it sends is a PATCH of the
event whose body is: for `done = true`, the title prefixed with the completion
glyph and a space, colour `'8'` and transparency `transparent`; for
`done = false`, the title itself, the original colour as a string when there is
one (a non-empty one) and an explicit `null` otherwise, and transparency
`opaque`. -/
theorem toggle_patch_body (a : ToggleArgs) (env : Env)
    (hgrant : truthy (env.identity true 0).token = true) :
    (∃ req rest, requestsOf (toggleEventDone a env Bg.init).2.trace = req :: rest) ∧
    (∀ req ∈ requestsOf (toggleEventDone a env Bg.init).2.trace,
      req.method = "PATCH" ∧
      req.endpoint = Endpoint.event (a.calendarId.getD "primary") a.eventId) ∧
    (a.done = true →
      ∀ req ∈ requestsOf (toggleEventDone a env Bg.init).2.trace,
        req.body = ReqBody.patch
          { summary := "✓ " ++ a.originalTitle, colorId := Nullable.value "8",
            transparency := "transparent" }) ∧
    (a.done = false → ∀ c, a.originalColorId = some c → c ≠ "" →
      ∀ req ∈ requestsOf (toggleEventDone a env Bg.init).2.trace,
        req.body = ReqBody.patch
          { summary := a.originalTitle, colorId := Nullable.value c,
            transparency := "opaque" }) ∧
    (a.done = false → (a.originalColorId = none ∨ a.originalColorId = some "") →
      ∀ req ∈ requestsOf (toggleEventDone a env Bg.init).2.trace,
        req.body = ReqBody.patch
          { summary := a.originalTitle, colorId := Nullable.null,
            transparency := "opaque" }) := by
  have hall := toggle_requests_are_patches a env
  refine ⟨?_, fun req hreq => ⟨(hall req hreq).1, (hall req hreq).2.1⟩, ?_, ?_, ?_⟩
  · have hne := toggle_sends_request a env hgrant
    cases hreqs : requestsOf (toggleEventDone a env Bg.init).2.trace with
    | nil => exact absurd hreqs hne
    | cons req rest => exact ⟨req, rest, rfl⟩
  · intro hd req hreq
    rw [(hall req hreq).2.2]
    simp [patchBody, hd]
  · intro hd c hc hne req hreq
    rw [(hall req hreq).2.2]
    simp [patchBody, hd, hc, truthy, hne]
  · intro hd hc req hreq
    rw [(hall req hreq).2.2]
    rcases hc with hc | hc <;> simp [patchBody, hd, hc, truthy]

theorem toggle_patch_body_witness :
    truthy (envStaleThenFine.identity true 0).token = true ∧
    sampleToggleArgs.done = true ∧
    (requestsOf (toggleEventDone sampleToggleArgs envStaleThenFine Bg.init).2.trace).map
        Request.body
      = [ReqBody.patch { summary := "✓ Pay rent", colorId := Nullable.value "8",
                         transparency := "transparent" },
         ReqBody.patch { summary := "✓ Pay rent", colorId := Nullable.value "8",
                         transparency := "transparent" }] ∧
    (∃ req rest, requestsOf (toggleEventDone sampleToggleArgs envStaleThenFine
        Bg.init).2.trace = req :: rest) ∧
    (∀ req ∈ requestsOf (toggleEventDone { sampleToggleArgs with done := false }
        envStaleThenFine Bg.init).2.trace,
      req.body = ReqBody.patch
        { summary := "Pay rent", colorId := Nullable.value "7", transparency := "opaque" }) ∧
    (∀ req ∈ requestsOf (toggleEventDone
        { sampleToggleArgs with done := false, originalColorId := none }
        envStaleThenFine Bg.init).2.trace,
      req.body = ReqBody.patch
        { summary := "Pay rent", colorId := Nullable.null, transparency := "opaque" }) :=
  ⟨rfl, rfl, by decide,
    (toggle_patch_body sampleToggleArgs envStaleThenFine rfl).1,
    (toggle_patch_body { sampleToggleArgs with done := false } envStaleThenFine rfl).2.2.2.1
      rfl "7" rfl (by decide),
    (toggle_patch_body { sampleToggleArgs with done := false, originalColorId := none }
      envStaleThenFine rfl).2.2.2.2 rfl (Or.inl rfl)⟩

/-- C9. Done / undone round trip. An event is created through the create flow
with the title `title` and the resolved colour `colorIdToUse`; the done-toggle
built from the stored task record gives the remote event the prefixed title and
the colour `'8'`; the undone-toggle built from the same record gives it back the
summary `title` and the colour it was created with, and no colour when it was
created without one. -/
theorem done_undone_round_trip
    (title startISO endISO notes tz colorIdToUse sectionName runtimeZone : String)
    (eventId : Option String) (ts : Nat) :
    (remoteAfterCreate (createPayload title startISO endISO notes tz colorIdToUse sectionName)
        runtimeZone).summary = title ∧
    (remoteAfterCreate (createPayload title startISO endISO notes tz colorIdToUse sectionName)
        runtimeZone).colorId = (if colorIdToUse = "" then none else some colorIdToUse) ∧
    (remoteAfterToggle
        (remoteAfterCreate (createPayload title startISO endISO notes tz colorIdToUse sectionName)
          runtimeZone)
        (newTaskRecord title eventId colorIdToUse ts) true).summary = "✓ " ++ title ∧
    (remoteAfterToggle
        (remoteAfterCreate (createPayload title startISO endISO notes tz colorIdToUse sectionName)
          runtimeZone)
        (newTaskRecord title eventId colorIdToUse ts) true).colorId = some "8" ∧
    (remoteAfterToggle
        (remoteAfterToggle
          (remoteAfterCreate
            (createPayload title startISO endISO notes tz colorIdToUse sectionName) runtimeZone)
          (newTaskRecord title eventId colorIdToUse ts) true)
        { newTaskRecord title eventId colorIdToUse ts with done := true } false).summary
      = title ∧
    (remoteAfterToggle
        (remoteAfterToggle
          (remoteAfterCreate
            (createPayload title startISO endISO notes tz colorIdToUse sectionName) runtimeZone)
          (newTaskRecord title eventId colorIdToUse ts) true)
        { newTaskRecord title eventId colorIdToUse ts with done := true } false).colorId
      = (remoteAfterCreate (createPayload title startISO endISO notes tz colorIdToUse sectionName)
          runtimeZone).colorId := by
  by_cases hc : colorIdToUse = "" <;>
  simp [remoteAfterCreate, remoteAfterToggle, RemoteEvent.ofCreate, RemoteEvent.applyPatch,
    createBody, createPayload, CreatePayload.toArgs, newTaskRecord, togglePayload,
    patchBodyOfPayload, TogglePayload.toArgs, patchBody, orNull, orElse, truthy, hc]

/-! ## The create flow -/

/-- C10. After a successful create whose reply carries the event `event` with id
`e`, the response callback writes, under the key of the local calendar date of
the start instant (today or not), the previous content of that bucket followed
by one new record with that id, `done = false`, the title of the form and the
colour sent in the create request; every other record of the store is left as
it was. -/
theorem create_callback_appends_task
    (title : String) (start : JsDate) (colorIdToUse shownDate : String) (ts : Nat)
    (now : JsDate) (store : Storage) (r : Resp) (event : JsonDoc) (e : String)
    (hok : r.ok = true) (hdata : r.data = some event) (hid : event.id = some e) :
    (createCallback title start colorIdToUse shownDate ts now (some r) store).store
      = store.set (keyForDate start)
          (StoreVal.tasks (store.bucket (keyForDate start) ++
            [{ title := title, done := false, ts := ts, eventId := some e,
               originalColorId := some colorIdToUse }])) ∧
    (createCallback title start colorIdToUse shownDate ts now (some r) store).store.get
        (keyForDate start)
      = some (StoreVal.tasks (store.bucket (keyForDate start) ++
            [{ title := title, done := false, ts := ts, eventId := some e,
               originalColorId := some colorIdToUse }])) ∧
    (∀ key, key ≠ keyForDate start →
      (createCallback title start colorIdToUse shownDate ts now (some r) store).store.get key
        = store.get key) ∧
    (∀ startISO endISO notes tz sectionName runtimeZone,
      (createBody (createPayload title startISO endISO notes tz colorIdToUse
          sectionName).toArgs runtimeZone).colorId.getD "" = colorIdToUse) := by
  have hrec : newTaskRecord title event.id colorIdToUse ts
      = { title := title, done := false, ts := ts, eventId := some e,
          originalColorId := some colorIdToUse } := by
    by_cases hc : colorIdToUse = "" <;> simp [newTaskRecord, hid, orElse, truthy, hc]
  have hstore : (createCallback title start colorIdToUse shownDate ts now (some r) store).store
      = store.set (keyForDate start)
          (StoreVal.tasks (store.bucket (keyForDate start) ++
            [{ title := title, done := false, ts := ts, eventId := some e,
               originalColorId := some colorIdToUse }])) := by
    by_cases hk : keyForDate start = todayKey now <;>
    simp [createCallback, respOk, hok, hdata, hrec, hk]
  refine ⟨hstore, ?_, ?_, ?_⟩
  · rw [hstore]; exact Storage.get_set_same _ _ _
  · intro key hkey
    rw [hstore]; exact Storage.get_set_of_ne _ _ _ _ hkey
  · intro startISO endISO notes tz sectionName runtimeZone
    by_cases hc : colorIdToUse = "" <;>
    simp [createBody, createPayload, CreatePayload.toArgs, orNull, truthy, hc]

theorem create_callback_appends_task_witness :
    sampleCreateReply.ok = true ∧
    sampleCreateReply.data = some { id := some "evt1", rendered := "\x7b\"id\":\"evt1\"\x7d" } ∧
    (createCallback "Pay rent" sampleNextDay "7" "2025-09-13" 3 sampleDay
        (some sampleCreateReply) sampleStore).store.get (keyForDate sampleNextDay)
      = some (StoreVal.tasks (sampleStore.bucket (keyForDate sampleNextDay) ++
            [{ title := "Pay rent", done := false, ts := 3, eventId := some "evt1",
               originalColorId := some "7" }])) ∧
    (createCallback "Pay rent" sampleNextDay "7" "2025-09-13" 3 sampleDay
        (some sampleCreateReply) sampleStore).store.get (todayKey sampleDay)
      = sampleStore.get (todayKey sampleDay) :=
  ⟨rfl, rfl,
    (create_callback_appends_task "Pay rent" sampleNextDay "7" "2025-09-13" 3 sampleDay
      sampleStore sampleCreateReply _ "evt1" rfl rfl rfl).2.1,
    (create_callback_appends_task "Pay rent" sampleNextDay "7" "2025-09-13" 3 sampleDay
      sampleStore sampleCreateReply _ "evt1" rfl rfl rfl).2.2.1 (todayKey sampleDay)
      (by decide)⟩


/-! ## The next local midnight -/

theorem monthFromDay_lt (d : Int) : monthFromDay d < 12 :=
  (monthOfYearDay (dayWithinYear d) (leapDays (yearFromDay d))).isLt

theorem makeDay_succ_date (d : Int) :
    makeDay (yearFromDay d) (monthFromDay d) (dateFromDay d + 1) = d + 1 := by
  have hm := monthFromDay_lt d
  have hdiv : ((monthFromDay d : Nat) : Int) / 12 = 0 := by omega
  have hmod : monthFromDay d % 12 = monthFromDay d := Nat.mod_eq_of_lt hm
  unfold makeDay dateFromDay dayWithinYear
  simp only [hdiv, hmod, add_zero]
  omega

theorem dayOf_mul (q : Int) : dayOf (q * msPerDay) = q := by
  unfold dayOf msPerDay
  omega

theorem timeWithinDay_mul (q : Int) : timeWithinDay (q * msPerDay) = 0 := by
  unfold timeWithinDay msPerDay
  omega

theorem localTime_utcTime (tzOffset local_ : Int) :
    localTime tzOffset (utcTime tzOffset local_) = local_ := by
  unfold localTime utcTime
  omega

theorem dayOf_mul_le (l : Int) : dayOf l * msPerDay ≤ l ∧ l < (dayOf l + 1) * msPerDay := by
  unfold dayOf msPerDay
  omega

theorem setHoursZero_le (z : Zone) (now : Int)
    (hS : z.Reaches (dayOf (z.localOf now) * msPerDay)) : setHoursZero z now ≤ now := by
  unfold setHoursZero
  by_contra h
  have hlt := hS.2.1 now (by omega)
  have := (dayOf_mul_le (z.localOf now)).1
  omega

theorem nextLocalMidnight_eq (z : Zone) (now : Int)
    (hS : z.Reaches (dayOf (z.localOf now) * msPerDay)) :
    nextLocalMidnight z now = z.utcOf ((dayOf (z.localOf now) + 1) * msPerDay) := by
  have hle := setHoursZero_le z now hS
  unfold nextLocalMidnight
  simp only [hle, if_true]
  unfold setDate getDate
  have hl : z.localOf (setHoursZero z now) = dayOf (z.localOf now) * msPerDay := by
    unfold setHoursZero
    exact hS.1
  simp only [hl, dayOf_mul, timeWithinDay_mul, makeDay_succ_date, add_zero]

theorem Zone.fixed_passesOnce (tzOffset l : Int) : (Zone.fixed tzOffset).PassesOnce l := by
  unfold Zone.PassesOnce Zone.Reaches Zone.fixed localTime utcTime
  refine ⟨⟨?_, ?_, ?_⟩, ?_⟩
  · simp only
    omega
  · intro t h
    simp only at h ⊢
    omega
  · intro t h
    simp only at h ⊢
    omega
  · intro t h
    simp only at h ⊢
    omega

theorem zoneLosAngeles_passesOnce (q : Int) : zoneLosAngeles.PassesOnce (q * msPerDay) := by
  have hmax : max (-25200000 : Int) (-28800000) = -25200000 := by decide
  unfold Zone.PassesOnce Zone.Reaches zoneLosAngeles Zone.oneChange msPerDay
  simp only [hmax]
  refine ⟨⟨?_, ?_, ?_⟩, ?_⟩
  · split_ifs <;> omega
  · intro t h
    split_ifs at h ⊢ <;> omega
  · intro t h
    split_ifs at h ⊢ <;> omega
  · intro t h
    split_ifs at h ⊢ <;> omega

/-- C15, as the code has it. For every instant `now` in a time zone in which the
local midnight that begins the local day of `now` is passed exactly once and
the following local midnight is reached (no change of offset skips either of
them or repeats the first), `nextLocalMidnight` returns the instant of the
following local midnight: it is a local midnight strictly after `now`, no local
midnight lies strictly between `now` and it, and when `now` is itself a local
midnight it reads the local time one day later. -/
theorem nextLocalMidnight_is_next (z : Zone) (now : Int)
    (hS : z.PassesOnce (dayOf (z.localOf now) * msPerDay))
    (hN : z.Reaches ((dayOf (z.localOf now) + 1) * msPerDay)) :
    nextLocalMidnight z now = z.utcOf ((dayOf (z.localOf now) + 1) * msPerDay) ∧
    IsLocalMidnight z (nextLocalMidnight z now) ∧
    now < nextLocalMidnight z now ∧
    (∀ k, IsLocalMidnight z k → now < k → nextLocalMidnight z now ≤ k) ∧
    (IsLocalMidnight z now →
      z.localOf (nextLocalMidnight z now) = z.localOf now + msPerDay) := by
  have heq := nextLocalMidnight_eq z now hS.1
  have hle := setHoursZero_le z now hS.1
  unfold setHoursZero at hle
  have hday := dayOf_mul_le (z.localOf now)
  rw [heq]
  unfold IsLocalMidnight
  refine ⟨rfl, ?_, ?_, ?_, ?_⟩
  · rw [hN.1]
    exact timeWithinDay_mul _
  · by_contra h
    have := hN.2.2 now (by omega)
    omega
  · intro k hk hlt
    by_contra h
    have h1 := hN.2.1 k (by omega)
    have h2 := hS.2 k (by omega)
    unfold timeWithinDay at hk
    unfold msPerDay at *
    omega
  · intro h
    rw [hN.1]
    unfold timeWithinDay dayOf at *
    unfold msPerDay at *
    omega

theorem nextLocalMidnight_is_next_witness :
    zoneLosAngeles.PassesOnce (dayOf (zoneLosAngeles.localOf 1762066800000) * msPerDay) ∧
    zoneLosAngeles.Reaches ((dayOf (zoneLosAngeles.localOf 1762066800000) + 1) * msPerDay) ∧
    IsLocalMidnight zoneLosAngeles 1762066800000 ∧
    nextLocalMidnight zoneLosAngeles 1762066800000 = 1762156800000 ∧
    IsLocalMidnight zoneLosAngeles (nextLocalMidnight zoneLosAngeles 1762066800000) ∧
    (1762066800000 : Int) < nextLocalMidnight zoneLosAngeles 1762066800000 :=
  ⟨zoneLosAngeles_passesOnce _, (zoneLosAngeles_passesOnce _).1, by decide,
    (nextLocalMidnight_is_next zoneLosAngeles 1762066800000 (zoneLosAngeles_passesOnce _)
      (zoneLosAngeles_passesOnce _).1).1.trans (by decide),
    (nextLocalMidnight_is_next zoneLosAngeles 1762066800000 (zoneLosAngeles_passesOnce _)
      (zoneLosAngeles_passesOnce _).1).2.1,
    (nextLocalMidnight_is_next zoneLosAngeles 1762066800000 (zoneLosAngeles_passesOnce _)
      (zoneLosAngeles_passesOnce _).1).2.2.1⟩

/-- C15, the claim as written fails in a zone whose change of offset falls on a
local midnight. Where the clocks go forward from 24:00 to 01:00, the result for
noon of the day before is the instant of the change, whose local time is
01:00:00, not a local midnight, and the result for noon of the day of the change
is 01:00:00 of the next day. Where the clocks go back from 01:00 to 00:00, the
result for 00:30 before the change is the midnight of the next day, and the
second 00:00 of the same day is a local midnight strictly between the two.
Where the clocks go back from 00:30 to 23:30, the result for 23:45 after the
change is the midnight already read before the change, which is not after
`now`. -/
theorem nextLocalMidnight_at_changed_midnight :
    (nextLocalMidnight zoneSkipsMidnight 1757174400000 = 1757217600000 ∧
      timeWithinDay (zoneSkipsMidnight.localOf 1757217600000) = msPerHour ∧
      ¬ IsLocalMidnight zoneSkipsMidnight
          (nextLocalMidnight zoneSkipsMidnight 1757174400000)) ∧
    (nextLocalMidnight zoneSkipsMidnight 1757260800000 = 1757304000000 ∧
      timeWithinDay (zoneSkipsMidnight.localOf 1757304000000) = msPerHour ∧
      ¬ IsLocalMidnight zoneSkipsMidnight
          (nextLocalMidnight zoneSkipsMidnight 1757260800000)) ∧
    (nextLocalMidnight zoneRepeatsMidnight 1762057800000 = 1762146000000 ∧
      IsLocalMidnight zoneRepeatsMidnight 1762059600000 ∧
      (1762057800000 : Int) < 1762059600000 ∧
      (1762059600000 : Int) < nextLocalMidnight zoneRepeatsMidnight 1762057800000) ∧
    (nextLocalMidnight zoneBackAcrossMidnight 1762044300000 = 1762041600000 ∧
      ¬ (1762044300000 : Int) < nextLocalMidnight zoneBackAcrossMidnight 1762044300000) := by
  refine ⟨⟨by decide, by decide, by decide⟩, ⟨by decide, by decide, by decide⟩,
    ⟨by decide, by decide, by decide, by decide⟩, ⟨by decide, by decide⟩⟩

theorem nextLocalMidnight_fixed (tzOffset now : Int) :
    IsLocalMidnight (Zone.fixed tzOffset) (nextLocalMidnight (Zone.fixed tzOffset) now) ∧
    now < nextLocalMidnight (Zone.fixed tzOffset) now ∧
    (∀ k, IsLocalMidnight (Zone.fixed tzOffset) k → now < k →
      nextLocalMidnight (Zone.fixed tzOffset) now ≤ k) ∧
    (IsLocalMidnight (Zone.fixed tzOffset) now →
      nextLocalMidnight (Zone.fixed tzOffset) now = now + msPerDay) := by
  have hS := Zone.fixed_passesOnce tzOffset
    (dayOf ((Zone.fixed tzOffset).localOf now) * msPerDay)
  have hN := (Zone.fixed_passesOnce tzOffset
    ((dayOf ((Zone.fixed tzOffset).localOf now) + 1) * msPerDay)).1
  have heq := nextLocalMidnight_eq (Zone.fixed tzOffset) now hS.1
  have hle := setHoursZero_le (Zone.fixed tzOffset) now hS.1
  have hday := dayOf_mul_le ((Zone.fixed tzOffset).localOf now)
  refine ⟨?_, ?_, ?_, ?_⟩
  · rw [heq]
    unfold IsLocalMidnight
    rw [hN.1]
    exact timeWithinDay_mul _
  · rw [heq]
    by_contra h
    have := hN.2.2 now (by omega)
    omega
  · intro k hk hlt
    rw [heq]
    by_contra h
    have h1 := hN.2.1 k (by omega)
    have h2 := hS.2 k (by unfold setHoursZero at hle; omega)
    unfold IsLocalMidnight timeWithinDay at hk
    unfold msPerDay at *
    omega
  · intro h
    rw [heq]
    unfold IsLocalMidnight timeWithinDay at h
    unfold Zone.fixed localTime utcTime dayOf msPerDay msPerMinute at *
    simp only at *
    omega


/-! ## The mail message -/

/-- C20, as the code has it. For every recipient, subject and body text, the
message built by `buildMime` is, joined by CRLF: the header lines `From`, `To`,
`Subject`, `Date`, `MIME-Version: 1.0`,
`Content-Type: text/plain; charset="UTF-8"` (the charset quoted) and
`Content-Transfer-Encoding: 8bit`, a blank line, and the body, which is empty
when no text is given; `To` and `Subject` carry the given values. -/
theorem buildMime_lines (a : MailArgs) (tzOffset now : Int) :
    (∃ fromValue : String,
      buildMime a tzOffset now
        = ("From: " ++ fromValue) ++ "\r\n" ++
          ("To: " ++ a.to_) ++ "\r\n" ++
          ("Subject: " ++ a.subject) ++ "\r\n" ++
          ("Date: " ++ rfc2822Date tzOffset now) ++ "\r\n" ++
          "MIME-Version: 1.0" ++ "\r\n" ++
          "Content-Type: text/plain; charset=\"UTF-8\"" ++ "\r\n" ++
          "Content-Transfer-Encoding: 8bit" ++ "\r\n" ++
          "" ++ "\r\n" ++
          orElse a.text "") ∧
    (a.text = none → orElse a.text "" = "") ∧
    (∀ body, a.text = some body → orElse a.text "" = body) := by
  refine ⟨⟨"taskadealerts@gmail.com", ?_⟩, ?_, ?_⟩
  · have hfrom : "From: " ++ "taskadealerts@gmail.com" = "From: taskadealerts@gmail.com" := by
      decide
    rw [hfrom]
    simp [buildMime, mimeLines, String.intercalate, String.intercalate.go]
  · intro h
    simp [h, orElse, truthy]
  · intro body h
    by_cases hb : body = "" <;> simp [h, orElse, truthy, hb]

theorem buildMime_lines_witness :
    ({ from_ := "me", to_ := "a@b.co", subject := "S", text := none } : MailArgs).text = none ∧
    orElse ({ from_ := "me", to_ := "a@b.co", subject := "S", text := none } : MailArgs).text ""
      = "" ∧
    ({ from_ := "me", to_ := "a@b.co", subject := "S", text := some "hi" } : MailArgs).text
      = some "hi" ∧
    orElse ({ from_ := "me", to_ := "a@b.co", subject := "S", text := some "hi" } : MailArgs).text
      "" = "hi" :=
  ⟨rfl,
    (buildMime_lines { from_ := "me", to_ := "a@b.co", subject := "S", text := none } 0 0).2.1
      rfl,
    rfl,
    (buildMime_lines { from_ := "me", to_ := "a@b.co", subject := "S", text := some "hi" } 0
      0).2.2 "hi" rfl⟩

/-- C20, the claim as written fails: the message built for a sample mail has
seven header lines, one of them `Content-Transfer-Encoding: 8bit`, and its
`Content-Type` line quotes the charset; it is not a message of the six claimed
header lines, a blank line and the body, whatever its `From` and `Date` lines. -/
theorem buildMime_has_other_headers :
    buildMime { from_ := "me@example.org", to_ := "a@b.co", subject := "S", text := some "hi" }
        0 0
      = "From: taskadealerts@gmail.com\r\nTo: a@b.co\r\nSubject: S\r\n" ++
        "Date: Thu, 01 Jan 1970 00:00:00 +0000\r\nMIME-Version: 1.0\r\n" ++
        "Content-Type: text/plain; charset=\"UTF-8\"\r\n" ++
        "Content-Transfer-Encoding: 8bit\r\n\r\nhi" ∧
    (∀ fromLine dateLine : String,
      mimeLines { from_ := "me@example.org", to_ := "a@b.co", subject := "S", text := some "hi" }
          0 0
        ≠ [fromLine, "To: a@b.co", "Subject: S", dateLine, "MIME-Version: 1.0",
           "Content-Type: text/plain; charset=UTF-8", "", "hi"]) := by
  refine ⟨by rfl, ?_⟩
  intro fromLine dateLine h
  have hlen := congrArg List.length h
  simp [mimeLines] at hlen


/-! ## What sending a mail touches -/

theorem gmailSendRaw_run (raw : String) (env : Env) (st : Bg) :
    ∃ (res : Except String JsonDoc) (a q : Nat) (evs : List Event),
      gmailSendRaw raw env st
        = (res, { st with authCalls := a, requests := q, trace := st.trace ++ evs }) ∧
      evs.all (Event.isMailOf raw) = true ∧
      ((∀ n, truthy (env.identity true n).token = true) → requestsOf evs ≠ []) := by
  refine ⟨(gmailSendRaw raw env st).1, (gmailSendRaw raw env st).2.authCalls,
    (gmailSendRaw raw env st).2.requests,
    (gmailSendRaw raw env st).2.trace.drop st.trace.length, ?_, ?_, ?_⟩
  · by_cases h0 : truthy (env.identity true st.authCalls).token = true <;>
    by_cases h1 : (env.server st.requests).status = 401 <;>
    by_cases h2 : truthy (env.identity true (st.authCalls + 1)).token = true <;>
    simp [gmailSendRaw, bind, BgM.bind, getAccessTokenInteractive, getAuthToken, fetch,
        removeCachedToken, verifyScopes, logEvent, BgM.pure, pure, BgM.throw, BgM.ofExcept,
        h0, h1, h2]
  · by_cases h0 : truthy (env.identity true st.authCalls).token = true <;>
    by_cases h1 : (env.server st.requests).status = 401 <;>
    by_cases h2 : truthy (env.identity true (st.authCalls + 1)).token = true <;>
    simp [gmailSendRaw, bind, BgM.bind, getAccessTokenInteractive, getAuthToken, fetch,
        removeCachedToken, verifyScopes, logEvent, BgM.pure, pure, BgM.throw, BgM.ofExcept,
        h0, h1, h2, Event.isMailOf]
  · intro hg
    have g0 := hg st.authCalls
    have g1 := hg (st.authCalls + 1)
    by_cases h1 : (env.server st.requests).status = 401 <;>
    simp [gmailSendRaw, bind, BgM.bind, getAccessTokenInteractive, getAuthToken, fetch,
        removeCachedToken, verifyScopes, logEvent, BgM.pure, pure, BgM.throw, BgM.ofExcept,
        g0, g1, h1, requestsOf]


theorem gmailSend_run (to_ subject : String) (text : Option String) (env : Env) (st : Bg) :
    ∃ (res : Except String JsonDoc) (a q : Nat) (evs : List Event),
      gmailSend to_ subject text env st
        = (res, { st with authCalls := a, requests := q,
                          trace := st.trace ++ Event.getProfileUserInfo :: evs,
                          clockReads := st.clockReads + 1 }) ∧
      evs.all (Event.isMailOf (rawMessage (orElse env.profileEmail "me") to_ subject text
        env.tzOffset (env.clock st.clockReads))) = true ∧
      ((∀ n, truthy (env.identity true n).token = true) → requestsOf evs ≠ []) := by
  obtain ⟨res, a, q, evs, hrun, hall, hreq⟩ :=
    gmailSendRaw_run (rawMessage (orElse env.profileEmail "me") to_ subject text
        env.tzOffset (env.clock st.clockReads)) env
      { st with trace := st.trace ++ [Event.getProfileUserInfo],
                clockReads := st.clockReads + 1 }
  refine ⟨res, a, q, evs, ?_, hall, hreq⟩
  simp only [gmailSend, bind, BgM.bind, getUserEmail, readClock]
  simp only [rawMessage] at hrun
  rw [hrun]
  simp


/-! ## The address pattern -/

theorem mem_addrRunRests (cs r : List Char) :
    r ∈ addrRunRests cs ↔
      ∃ a : List Char, a ≠ [] ∧ (∀ c ∈ a, isAddrChar c = true) ∧ cs = a ++ r := by
  induction cs with
  | nil =>
    simp only [addrRunRests, List.not_mem_nil, false_iff]
    rintro ⟨a, ha, -, h⟩
    cases a with
    | nil => exact ha rfl
    | cons x xs => simp at h
  | cons c cs ih =>
    by_cases hc : isAddrChar c = true
    · simp only [addrRunRests, hc, if_true, List.mem_append, List.mem_singleton, ih]
      constructor
      · rintro (⟨a, ha, hall, h⟩ | h)
        · refine ⟨c :: a, by simp, ?_, by simp [h]⟩
          intro x hx
          rcases List.mem_cons.1 hx with hx | hx
          · exact hx ▸ hc
          · exact hall x hx
        · exact ⟨[c], by simp, by simpa using hc, by simp [h]⟩
      · rintro ⟨a, ha, hall, h⟩
        cases a with
        | nil => exact absurd rfl ha
        | cons x xs =>
          simp only [List.cons_append, List.cons.injEq] at h
          by_cases hxs : xs = []
          · right
            simp [hxs] at h
            exact h.2.symm
          · left
            exact ⟨xs, hxs, fun y hy => hall y (List.mem_cons_of_mem _ hy), h.2⟩
    · simp only [addrRunRests, hc, Bool.false_eq_true, if_false, List.not_mem_nil, false_iff]
      rintro ⟨a, ha, hall, h⟩
      cases a with
      | nil => exact ha rfl
      | cons x xs =>
        simp only [List.cons_append, List.cons.injEq] at h
        exact hc (h.1 ▸ hall x (List.mem_cons_self _ _))

theorem emailReTest_iff (s : String) : emailReTest s = true ↔ ValidAddress s := by
  unfold emailReTest ValidAddress
  rw [List.any_eq_true]
  constructor
  · rintro ⟨r1, h1, hm⟩
    obtain ⟨loc, hloc, hlocAll, hs⟩ := (mem_addrRunRests _ _).1 h1
    split at hm
    · rename_i r2
      rw [List.any_eq_true] at hm
      obtain ⟨r3, h3, hm3⟩ := hm
      obtain ⟨dom, hdom, hdomAll, hr2⟩ := (mem_addrRunRests _ _).1 h3
      split at hm3
      · rename_i r4
        rw [List.any_eq_true] at hm3
        obtain ⟨r5, h5, hm5⟩ := hm3
        obtain ⟨tld, htld, htldAll, hr4⟩ := (mem_addrRunRests _ _).1 h5
        have h5nil : r5 = [] := by simpa using hm5
        subst h5nil
        refine ⟨loc, dom, tld, ?_, hloc, hdom, htld, hlocAll, hdomAll, htldAll⟩
        rw [hs, hr2, hr4]
        simp
      · exact absurd hm3 (by simp)
    · exact absurd hm (by simp)
  · rintro ⟨loc, dom, tld, hs, hloc, hdom, htld, hlocAll, hdomAll, htldAll⟩
    refine ⟨'@' :: (dom ++ '.' :: tld), (mem_addrRunRests _ _).2 ⟨loc, hloc, hlocAll, hs⟩, ?_⟩
    simp only [List.any_eq_true]
    refine ⟨'.' :: tld, (mem_addrRunRests _ _).2 ⟨dom, hdom, hdomAll, rfl⟩, ?_⟩
    simp only [List.any_eq_true]
    exact ⟨[], (mem_addrRunRests _ _).2 ⟨tld, htld, htldAll, by simp⟩, rfl⟩


/-! ## Reading a part of the store -/

theorem Storage.get_filter_key (s : Storage) (keep : String → Bool) (key : String) :
    Storage.get (s.filter (fun p => keep p.1)) key = if keep key then s.get key else none := by
  induction s with
  | nil => simp [Storage.get]
  | cons p ps ih =>
    unfold Storage.get at ih ⊢
    by_cases hk : keep p.1 = true
    · by_cases hp : p.1 = key
      · have hkey : keep key = true := hp ▸ hk
        simp [List.filter_cons, hk, hp, hkey]
      · have hb : (p.1 == key) = false := by simpa using hp
        rw [List.filter_cons, if_pos hk, List.find?_cons, List.find?_cons]
        simp only [hb]
        exact ih
    · by_cases hp : p.1 = key
      · have hkey : ¬ keep key = true := hp ▸ hk
        rw [List.filter_cons, if_neg hk, ih]
        simp [hkey]
      · have hb : (p.1 == key) = false := by simpa using hp
        rw [List.filter_cons, if_neg hk, List.find?_cons]
        simp only [hb]
        exact ih

theorem Storage.get_pick (s : Storage) (keys : List String) (key : String)
    (h : key ∈ keys) : (s.pick keys).get key = s.get key := by
  unfold Storage.pick
  rw [Storage.get_filter_key s (fun k => keys.contains k) key]
  simp [h]

/-! ## The notification preference -/

theorem notifyToggle_enable_run (email : Option String) (env : Env) (st : Bg)
    (hfault : ∀ n, env.storageFault n = none)
    (hvalid : emailReTest (jsTrim (orElse email "")) = true) :
    ∃ (a q : Nat) (evs : List Event),
      notifyToggle true email env st
        = (Except.ok { ok := true },
           { st with authCalls := a, requests := q,
                     trace := st.trace ++
                       Event.storageSet [("notifyEnabled", StoreVal.bool true),
                         ("notifyEmail", StoreVal.str (jsTrim (orElse email "")))] ::
                       Event.getProfileUserInfo :: evs,
                     store := st.store.setMany [("notifyEnabled", StoreVal.bool true),
                         ("notifyEmail", StoreVal.str (jsTrim (orElse email "")))],
                     clockReads := st.clockReads + 1,
                     storageOps := st.storageOps + 1 }) ∧
      evs.all (Event.isMailOf (rawMessage (orElse env.profileEmail "me")
        (jsTrim (orElse email "")) "Taskade: Notifications enabled" (some welcomeBody)
        env.tzOffset (env.clock st.clockReads))) = true := by
  obtain ⟨res, a, q, evs, hrun, hall, -⟩ :=
    gmailSend_run (jsTrim (orElse email "")) "Taskade: Notifications enabled"
      (some welcomeBody) env
      { st with storageOps := st.storageOps + 1,
                trace := st.trace ++
                  [Event.storageSet [("notifyEnabled", StoreVal.bool true),
                         ("notifyEmail", StoreVal.str (jsTrim (orElse email "")))]],
                store := st.store.setMany [("notifyEnabled", StoreVal.bool true),
                         ("notifyEmail", StoreVal.str (jsTrim (orElse email "")))] }
  refine ⟨a, q, evs, ?_, hall⟩
  simp only [notifyToggle, hvalid, if_true, Bool.not_true, Bool.false_eq_true, if_false,
    bind, BgM.bind, storageSet, hfault, BgM.tryCatch, sendWelcomeEmail]
  rw [hrun]
  cases res <;> simp [pure, BgM.pure]

theorem notifyToggle_disable_run (email : Option String) (env : Env) (st : Bg)
    (hfault : ∀ n, env.storageFault n = none) :
    ∃ (a q c : Nat) (evs : List Event),
      notifyToggle false email env st
        = (Except.ok { ok := true },
           { st with authCalls := a, requests := q,
                     trace := st.trace ++
                       Event.storageGet (some ["notifyEmail"]) ::
                       Event.storageSet [("notifyEnabled", StoreVal.bool false)] :: evs,
                     store := st.store.setMany [("notifyEnabled", StoreVal.bool false)],
                     clockReads := c,
                     storageOps := st.storageOps + 2 }) ∧
      evs.all (Event.isMailOf (rawMessage (orElse env.profileEmail "me")
        (prefString (st.store.get "notifyEmail")) "Taskade: Notifications disabled"
        (some goodbyeBody) env.tzOffset (env.clock st.clockReads))) = true ∧
      (Event.getProfileUserInfo ∈ evs ↔ prefTruthy (st.store.get "notifyEmail") = true) := by
  have hget : (st.store.pick ["notifyEmail"]).get "notifyEmail" = st.store.get "notifyEmail" :=
    Storage.get_pick _ _ _ (by simp)
  by_cases hp : prefTruthy (st.store.get "notifyEmail") = true
  · obtain ⟨res, a, q, evs, hrun, hall, -⟩ :=
      gmailSend_run (prefString (st.store.get "notifyEmail")) "Taskade: Notifications disabled"
        (some goodbyeBody) env
        { st with storageOps := st.storageOps + 1 + 1,
                  trace := st.trace ++ [Event.storageGet (some ["notifyEmail"])] ++
                    [Event.storageSet [("notifyEnabled", StoreVal.bool false)]],
                  store := st.store.setMany [("notifyEnabled", StoreVal.bool false)] }
    refine ⟨a, q, st.clockReads + 1, Event.getProfileUserInfo :: evs, ?_, ?_, ?_⟩
    · simp only [notifyToggle, Bool.false_eq_true, if_false,
        bind, BgM.bind, storageSet, storageGet, hfault, BgM.tryCatch, sendGoodbyeEmail,
        hget, hp, if_true]
      rw [hrun]
      cases res <;> simp [pure, BgM.pure]
    · simpa [Event.isMailOf] using hall
    · simp [hp]
  · refine ⟨st.authCalls, st.requests, st.clockReads, [], ?_, by simp, by simp [hp]⟩
    simp [notifyToggle, bind, BgM.bind, storageSet, storageGet, hfault, hget, hp, pure,
      BgM.pure]


theorem notifyToggle_invalid (email : Option String) (env : Env) (st : Bg)
    (hinvalid : ¬ emailReTest (jsTrim (orElse email "")) = true) :
    notifyToggle true email env st
      = (Except.ok { ok := false, error := some "Invalid email" }, st) := by
  simp [notifyToggle, hinvalid, pure, BgM.pure]

theorem Storage.get_setMany_pair (s : Storage) (k1 k2 : String) (v1 v2 : StoreVal)
    (hne : k1 ≠ k2) :
    Storage.get (Storage.setMany s [(k1, v1), (k2, v2)]) k1 = some v1 ∧
    Storage.get (Storage.setMany s [(k1, v1), (k2, v2)]) k2 = some v2 := by
  simp only [Storage.setMany, List.foldl_cons, List.foldl_nil]
  exact ⟨by rw [Storage.get_set_of_ne _ _ _ _ hne, Storage.get_set_same],
    Storage.get_set_same _ _ _⟩

theorem ValidAddress.one_at (s : String) (h : ValidAddress s) :
    s.toList.count '@' = 1 ∧ ∀ c ∈ s.toList, isJsSpace c = false := by
  obtain ⟨loc, dom, tld, hs, -, -, -, hloc, hdom, htld⟩ := h
  have hcount : ∀ l : List Char, (∀ c ∈ l, isAddrChar c = true) → l.count '@' = 0 := by
    intro l hl
    rw [List.count_eq_zero]
    intro hmem
    have := hl _ hmem
    simp [isAddrChar] at this
  have hspace : ∀ l : List Char, (∀ c ∈ l, isAddrChar c = true) →
      ∀ c ∈ l, isJsSpace c = false := by
    intro l hl c hc
    have := hl c hc
    simp only [isAddrChar, Bool.and_eq_true, Bool.not_eq_true'] at this
    exact this.1
  constructor
  · rw [hs]
    simp [List.count_append, List.count_cons, hcount loc hloc, hcount dom hdom,
      hcount tld htld]
  · intro c hc
    rw [hs] at hc
    simp only [List.mem_append, List.mem_cons] at hc
    rcases hc with hc | hc | hc | hc | hc
    · exact hspace loc hloc c hc
    · subst hc; decide
    · exact hspace dom hdom c hc
    · subst hc; decide
    · exact hspace tld htld c hc

/-- C18. Through `NOTIFY_TOGGLE`, an enable request is answered
`{ ok: false, error: 'Invalid email' }` exactly when the trimmed email is not of the
shape `local@domain.tld` (`ValidAddress`: one `@`, no white space, the three
parts non-empty). On that answer the state is left as it was: nothing is
written and no mail is sent. Otherwise the answer is `{ ok: true }` and the
store holds `notifyEnabled = true` and the trimmed address. Writes to the store
are taken to succeed. -/
theorem enable_request_validates_email (email : Option String) (env : Env) (st : Bg)
    (hfault : ∀ n, env.storageFault n = none) :
    ((router (Message.notifyToggle true email) env st).1
        = { ok := false, error := some "Invalid email" }
      ↔ ¬ ValidAddress (jsTrim (orElse email ""))) ∧
    (¬ ValidAddress (jsTrim (orElse email "")) →
      (router (Message.notifyToggle true email) env st).2 = st) ∧
    (ValidAddress (jsTrim (orElse email "")) →
      (jsTrim (orElse email "")).toList.count '@' = 1 ∧
      (∀ c ∈ (jsTrim (orElse email "")).toList, isJsSpace c = false) ∧
      (router (Message.notifyToggle true email) env st).1 = { ok := true } ∧
      (router (Message.notifyToggle true email) env st).2.store.get "notifyEnabled"
        = some (StoreVal.bool true) ∧
      (router (Message.notifyToggle true email) env st).2.store.get "notifyEmail"
        = some (StoreVal.str (jsTrim (orElse email "")))) := by
  by_cases hv : ValidAddress (jsTrim (orElse email ""))
  · obtain ⟨a, q, evs, hrun, -⟩ :=
      notifyToggle_enable_run email env st hfault ((emailReTest_iff _).2 hv)
    have hpair := Storage.get_setMany_pair st.store "notifyEnabled" "notifyEmail"
      (StoreVal.bool true) (StoreVal.str (jsTrim (orElse email ""))) (by decide)
    refine ⟨?_, fun h => absurd hv h, fun _ => ⟨(ValidAddress.one_at _ hv).1,
      (ValidAddress.one_at _ hv).2, ?_, ?_, ?_⟩⟩
    · simp [router, hrun, replyOrError, hv]
    · simp [router, hrun, replyOrError]
    · simp only [router, hrun]
      exact hpair.1
    · simp only [router, hrun]
      exact hpair.2
  · have hrun := notifyToggle_invalid email env st (fun h => hv ((emailReTest_iff _).1 h))
    refine ⟨?_, fun _ => ?_, fun h => absurd h hv⟩
    · simp [router, hrun, replyOrError, hv]
    · simp [router, hrun]

theorem enable_request_validates_email_witness :
    (∀ n, envPlainServerError.storageFault n = none) ∧
    (router (Message.notifyToggle true (some "a b@c.d")) envPlainServerError Bg.init
        = ({ ok := false, error := some "Invalid email" }, Bg.init)) ∧
    (router (Message.notifyToggle true (some " x@y.zz ")) envPlainServerError Bg.init).1
        = { ok := true } ∧
    (router (Message.notifyToggle true (some " x@y.zz ")) envPlainServerError
        Bg.init).2.store.get "notifyEmail" = some (StoreVal.str "x@y.zz") :=
  ⟨fun _ => rfl,
   Prod.ext
    ((enable_request_validates_email (some "a b@c.d") envPlainServerError Bg.init
      (fun _ => rfl)).1.2 (fun h => absurd ((emailReTest_iff _).2 h) (by decide)))
    ((enable_request_validates_email (some "a b@c.d") envPlainServerError Bg.init
      (fun _ => rfl)).2.1 (fun h => absurd ((emailReTest_iff _).2 h) (by decide))),
   ((enable_request_validates_email (some " x@y.zz ") envPlainServerError Bg.init
      (fun _ => rfl)).2.2 ((emailReTest_iff _).1 (by decide))).2.2.1,
   ((enable_request_validates_email (some " x@y.zz ") envPlainServerError Bg.init
      (fun _ => rfl)).2.2 ((emailReTest_iff _).1 (by decide))).2.2.2.2⟩

/-- C19. For the two transitions of the preference through `NOTIFY_TOGGLE`
(enable with a valid email, disable), for every behaviour of the token
provider and of the mail service: the write of the flag to the store comes
before every effect of the mail send; the reply is `{ ok: true }` and the store
is the prior store with the flag written (and, on enable, the trimmed email),
whatever the send does. On disable the stored email is as before, and a
goodbye send is begun exactly when the stored email is truthy. Reads and
writes of the store are taken to succeed. -/
theorem toggle_writes_before_mail (env : Env) (st : Bg)
    (hfault : ∀ n, env.storageFault n = none) :
    (∀ email : Option String, ValidAddress (jsTrim (orElse email "")) →
      (router (Message.notifyToggle true email) env st).1 = { ok := true } ∧
      (router (Message.notifyToggle true email) env st).2.store
        = st.store.setMany [("notifyEnabled", StoreVal.bool true),
            ("notifyEmail", StoreVal.str (jsTrim (orElse email "")))] ∧
      ∃ evs : List Event,
        (router (Message.notifyToggle true email) env st).2.trace
          = st.trace ++ Event.storageSet [("notifyEnabled", StoreVal.bool true),
              ("notifyEmail", StoreVal.str (jsTrim (orElse email "")))] :: evs ∧
        Event.getProfileUserInfo ∈ evs ∧
        evs.all (Event.isMailOf (rawMessage (orElse env.profileEmail "me")
          (jsTrim (orElse email "")) "Taskade: Notifications enabled" (some welcomeBody)
          env.tzOffset (env.clock st.clockReads))) = true) ∧
    (∀ email : Option String,
      (router (Message.notifyToggle false email) env st).1 = { ok := true } ∧
      (router (Message.notifyToggle false email) env st).2.store
        = st.store.setMany [("notifyEnabled", StoreVal.bool false)] ∧
      (router (Message.notifyToggle false email) env st).2.store.get "notifyEnabled"
        = some (StoreVal.bool false) ∧
      (router (Message.notifyToggle false email) env st).2.store.get "notifyEmail"
        = st.store.get "notifyEmail" ∧
      ∃ evs : List Event,
        (router (Message.notifyToggle false email) env st).2.trace
          = st.trace ++ Event.storageGet (some ["notifyEmail"]) ::
              Event.storageSet [("notifyEnabled", StoreVal.bool false)] :: evs ∧
        (Event.getProfileUserInfo ∈ evs ↔ prefTruthy (st.store.get "notifyEmail") = true) ∧
        evs.all (Event.isMailOf (rawMessage (orElse env.profileEmail "me")
          (prefString (st.store.get "notifyEmail")) "Taskade: Notifications disabled"
          (some goodbyeBody) env.tzOffset (env.clock st.clockReads))) = true) := by
  constructor
  · intro email hv
    obtain ⟨a, q, evs, hrun, hall⟩ :=
      notifyToggle_enable_run email env st hfault ((emailReTest_iff _).2 hv)
    refine ⟨by simp [router, hrun, replyOrError], by simp [router, hrun],
      Event.getProfileUserInfo :: evs, by simp [router, hrun], by simp, ?_⟩
    simpa [Event.isMailOf] using hall
  · intro email
    obtain ⟨a, q, c, evs, hrun, hall, hiff⟩ := notifyToggle_disable_run email env st hfault
    refine ⟨by simp [router, hrun, replyOrError], by simp [router, hrun], ?_, ?_,
      evs, by simp [router, hrun], hiff, hall⟩
    · simp only [router, hrun, Storage.setMany, List.foldl_cons, List.foldl_nil]
      exact Storage.get_set_same _ _ _
    · simp only [router, hrun, Storage.setMany, List.foldl_cons, List.foldl_nil]
      exact Storage.get_set_of_ne _ _ _ _ (by decide)


theorem toggle_writes_before_mail_witness :
    (∀ n, envMidnightMailDown.storageFault n = none) ∧
    (router (Message.notifyToggle false none) envMidnightMailDown sampleNightBg).1
      = { ok := true } ∧
    (router (Message.notifyToggle false none) envMidnightMailDown sampleNightBg).2.store.get
      "notifyEnabled" = some (StoreVal.bool false) ∧
    (router (Message.notifyToggle false none) envMidnightMailDown sampleNightBg).2.store.get
      "notifyEmail" = some (StoreVal.str "me@example.com") :=
  ⟨fun _ => rfl,
   ((toggle_writes_before_mail envMidnightMailDown sampleNightBg (fun _ => rfl)).2 none).1,
   ((toggle_writes_before_mail envMidnightMailDown sampleNightBg (fun _ => rfl)).2 none).2.2.1,
   ((toggle_writes_before_mail envMidnightMailDown sampleNightBg
      (fun _ => rfl)).2 none).2.2.2.1⟩

theorem notifyToggle_preserves_invariant (enabled : Bool) (email : Option String)
    (env : Env) (st : Bg) (hfault : ∀ n, env.storageFault n = none)
    (hinv : PrefInvariant st.store) :
    PrefInvariant (router (Message.notifyToggle enabled email) env st).2.store := by
  cases enabled with
  | true =>
    by_cases hv : emailReTest (jsTrim (orElse email "")) = true
    · obtain ⟨a, q, evs, hrun, -⟩ := notifyToggle_enable_run email env st hfault hv
      have hpair := Storage.get_setMany_pair st.store "notifyEnabled" "notifyEmail"
        (StoreVal.bool true) (StoreVal.str (jsTrim (orElse email ""))) (by decide)
      simp only [router, hrun, PrefInvariant, hpair.2, prefString, StoreVal.toJsString]
      exact fun _ => hv
    · simpa [router, notifyToggle_invalid email env st hv] using hinv
  | false =>
    obtain ⟨a, q, c, evs, hrun, -, -⟩ := notifyToggle_disable_run email env st hfault
    have hget : Storage.get (Storage.setMany st.store [("notifyEnabled", StoreVal.bool false)])
        "notifyEnabled" = some (StoreVal.bool false) := by
      simp only [Storage.setMany, List.foldl_cons, List.foldl_nil]
      exact Storage.get_set_same _ _ _
    simp only [router, hrun, PrefInvariant, hget, prefTruthy, StoreVal.truthy]
    intro h
    exact absurd h (by decide)

/-- C17. The handler `saveNotifySettings` of the popup does not keep the
invariant of the preference: with the checkbox checked and an email field whose
trimmed value is not a valid address, it writes `notifyEnabled = true` together
with that value, sends no message and leaves the store so, whatever the store
held before. -/
theorem saveNotifySettings_breaks_invariant (emailValue : String)
    (reply : Message → Option Resp) (store : Storage)
    (hinvalid : ¬ ValidAddress (jsTrim emailValue)) :
    (saveNotifySettings true emailValue reply store).sent = [] ∧
    (saveNotifySettings true emailValue reply store).store.get "notifyEnabled"
      = some (StoreVal.bool true) ∧
    (saveNotifySettings true emailValue reply store).store.get "notifyEmail"
      = some (StoreVal.str (jsTrim emailValue)) ∧
    ¬ PrefInvariant (saveNotifySettings true emailValue reply store).store := by
  have hre : emailReTest (jsTrim emailValue) = false := by
    cases h : emailReTest (jsTrim emailValue) with
    | false => rfl
    | true => exact absurd ((emailReTest_iff _).1 h) hinvalid
  have hpair := Storage.get_setMany_pair store "notifyEnabled" "notifyEmail"
    (StoreVal.bool true) (StoreVal.str (jsTrim emailValue)) (by decide)
  have hout : saveNotifySettings true emailValue reply store
      = { store := store.setMany [("notifyEnabled", StoreVal.bool true),
            ("notifyEmail", StoreVal.str (jsTrim emailValue))],
          sent := [], status := ("Please enter a valid email.", "hint err") } := by
    simp [saveNotifySettings, validEmail, hre]
  rw [hout]
  refine ⟨rfl, hpair.1, hpair.2, ?_⟩
  simp only [PrefInvariant, hpair.1, hpair.2, prefTruthy, prefString, StoreVal.truthy,
    StoreVal.toJsString, hre]
  intro h
  exact absurd (h trivial) (by decide)

theorem saveNotifySettings_breaks_invariant_witness :
    ¬ ValidAddress (jsTrim "abc") ∧
    PrefInvariant [] ∧
    (saveNotifySettings true "abc" (backgroundReply envMidnight) []).store
      = [("notifyEnabled", StoreVal.bool true), ("notifyEmail", StoreVal.str "abc")] ∧
    ¬ PrefInvariant (saveNotifySettings true "abc" (backgroundReply envMidnight) []).store :=
  ⟨fun h => absurd ((emailReTest_iff _).2 h) (by decide),
   by decide,
   by decide,
   (saveNotifySettings_breaks_invariant "abc" (backgroundReply envMidnight) []
     (fun h => absurd ((emailReTest_iff _).2 h) (by decide))).2.2.2⟩


/-! ## The unfinished tasks -/

theorem itemsOf_get (s : Storage) (key : String) : itemsOf (s.get key) = s.bucket key := by
  unfold Storage.bucket
  cases h : s.get key with
  | none => rfl
  | some v => cases v <;> rfl

theorem Storage.mem_of_get (s : Storage) (key : String) (v : StoreVal)
    (h : s.get key = some v) : (key, v) ∈ s := by
  unfold Storage.get at h
  cases hf : s.find? (fun p => p.1 == key) with
  | none => simp [hf] at h
  | some p =>
    have hmem := List.mem_of_find?_eq_some hf
    have hkey := List.find?_some hf
    simp only [hf, Option.map_some', Option.some.injEq] at h
    have hk : p.1 = key := by simpa using hkey
    have hp : p = (key, v) := Prod.ext hk h
    exact hp ▸ hmem

theorem title_ne_of_titlesPresent (s : Storage) (h : titlesPresent s = true)
    (key : String) (t : Task) (ht : t ∈ s.bucket key) : t.title ≠ "" := by
  rw [← itemsOf_get] at ht
  cases hg : s.get key with
  | none => simp [hg, itemsOf] at ht
  | some v =>
    have hmem := Storage.mem_of_get s key v hg
    have hall := List.all_eq_true.1 h (key, v) hmem
    rw [hg] at ht
    have := List.all_eq_true.1 hall t ht
    simpa using this

theorem unfinishedOf_bucket (s : Storage) (h : titlesPresent s = true) (key : String) :
    unfinishedOf (itemsOf (s.get key)) = openLines s key := by
  rw [itemsOf_get]
  unfold unfinishedOf openLines
  congr 1
  apply List.filter_congr
  intro t ht
  have := title_ne_of_titlesPresent s h key t ht
  simp [this]

theorem unfinishedNowLines_eq (s : Storage) (h : titlesPresent s = true) :
    unfinishedNowLines s = (todoKeysOf s).flatMap (openLines s) := by
  unfold unfinishedNowLines
  congr 1
  funext key
  exact unfinishedOf_bucket s h key

theorem digestLines_eq (s : Storage) (h : titlesPresent s = true) (tKey : String) :
    digestLines s tKey
      = ((todoKeysOf s).filter (fun key => key != tKey)).flatMap (openLines s) := by
  unfold digestLines
  congr 1
  funext key
  exact unfinishedOf_bucket s h key

theorem flatMap_openLines_ne_nil (s : Storage) (keys : List String) :
    keys.flatMap (openLines s) ≠ [] ↔ ∃ key ∈ keys, ∃ t ∈ s.bucket key, t.done = false := by
  constructor
  · intro h
    obtain ⟨line, hline⟩ := List.exists_mem_of_ne_nil _ h
    obtain ⟨key, hkey, hl⟩ := List.mem_flatMap.1 hline
    unfold openLines at hl
    obtain ⟨t, ht, -⟩ := List.mem_map.1 hl
    rw [List.mem_filter] at ht
    exact ⟨key, hkey, t, ht.1, by simpa using ht.2⟩
  · rintro ⟨key, hkey, t, ht, hd⟩ hnil
    have hmem : bulletLine t ∈ keys.flatMap (openLines s) := by
      refine List.mem_flatMap.2 ⟨key, hkey, ?_⟩
      unfold openLines
      exact List.mem_map.2 ⟨t, List.mem_filter.2 ⟨ht, by simp [hd]⟩, rfl⟩
    rw [hnil] at hmem
    exact absurd hmem (List.not_mem_nil _)


/-! ## The manual digest -/

theorem emailUnfinishedNow_run (env : Env) (st : Bg)
    (hfault : ∀ n, env.storageFault n = none) :
    (emailUnfinishedNow env st).2.store = st.store ∧
    (emailUnfinishedNow env st).2.alarms = st.alarms ∧
    ∃ evs : List Event,
      (emailUnfinishedNow env st).2.trace
        = st.trace ++ Event.storageGet (some ["notifyEnabled", "notifyEmail"]) :: evs ∧
      (Event.getProfileUserInfo ∈ evs ↔
        (prefTruthy (st.store.get "notifyEnabled") = true ∧
         prefTruthy (st.store.get "notifyEmail") = true ∧
         unfinishedNowLines st.store ≠ [])) ∧
      (∀ e ∈ evs, e = Event.storageGet none ∨
        Event.isMailOf (rawMessage (orElse env.profileEmail "me")
          (prefString (st.store.get "notifyEmail"))
          ("Unfinished tasks (" ++ env.toLocaleString (env.clock st.clockReads) ++ ")")
          (some (String.intercalate "\n" (unfinishedNowLines st.store)))
          env.tzOffset (env.clock (st.clockReads + 1))) e = true) ∧
      (requestsOf evs ≠ [] → Event.getProfileUserInfo ∈ evs) ∧
      ((∀ n, truthy (env.identity true n).token = true) →
        Event.getProfileUserInfo ∈ evs → requestsOf evs ≠ []) := by
  have hen : (st.store.pick ["notifyEnabled", "notifyEmail"]).get "notifyEnabled"
      = st.store.get "notifyEnabled" := Storage.get_pick _ _ _ (by simp)
  have hem : (st.store.pick ["notifyEnabled", "notifyEmail"]).get "notifyEmail"
      = st.store.get "notifyEmail" := Storage.get_pick _ _ _ (by simp)
  by_cases h1 : prefTruthy (st.store.get "notifyEnabled") = true
  · by_cases h2 : prefTruthy (st.store.get "notifyEmail") = true
    · by_cases h3 : unfinishedNowLines st.store = []
      · refine ⟨?_, ?_, [Event.storageGet none], ?_, ?_, ?_, ?_, ?_⟩ <;>
        simp [requestsOf, emailUnfinishedNow, bind, BgM.bind, storageGet, hfault, hen, hem, h1, h2, h3,
          pure, BgM.pure]
      · obtain ⟨res, a, q, evs, hrun, hall, hreq⟩ :=
          gmailSend_run (prefString (st.store.get "notifyEmail"))
            ("Unfinished tasks (" ++ env.toLocaleString (env.clock st.clockReads) ++ ")")
            (some (String.intercalate "\n" (unfinishedNowLines st.store))) env
            { st with storageOps := st.storageOps + 1 + 1,
                      trace := st.trace ++
                        [Event.storageGet (some ["notifyEnabled", "notifyEmail"])] ++
                        [Event.storageGet none],
                      clockReads := st.clockReads + 1 }
        have hlen : ¬ (unfinishedNowLines st.store).length = 0 := by
          simpa [List.length_eq_zero] using h3
        have hout : emailUnfinishedNow env st
            = (res.map (fun _ => ()),
               { st with authCalls := a, requests := q,
                         trace := st.trace ++
                           Event.storageGet (some ["notifyEnabled", "notifyEmail"]) ::
                           Event.storageGet none :: Event.getProfileUserInfo :: evs,
                         clockReads := st.clockReads + 1 + 1,
                         storageOps := st.storageOps + 1 + 1 }) := by
          simp only [emailUnfinishedNow, bind, BgM.bind, storageGet, hfault, hen, hem, h1, h2,
            hlen, readClock, Bool.not_true, Bool.or_self, Bool.false_eq_true, if_false]
          rw [hrun]
          cases res <;> simp [pure, BgM.pure, Except.map]
        rw [hout]
        refine ⟨rfl, rfl, Event.storageGet none :: Event.getProfileUserInfo :: evs, rfl, ?_,
          ?_, ?_, ?_⟩
        · simp [h1, h2, h3]
        · intro e he
          rcases List.mem_cons.1 he with he | he
          · exact Or.inl he
          · rcases List.mem_cons.1 he with he | he
            · right
              subst he
              rfl
            · right
              exact List.all_eq_true.1 hall e he
        · intro _
          simp
        · intro hg _
          have := hreq hg
          simpa [requestsOf] using this
    · refine ⟨?_, ?_, [], ?_, ?_, ?_, ?_, ?_⟩ <;>
      simp [requestsOf, emailUnfinishedNow, bind, BgM.bind, storageGet, hfault, hen, hem, h1, h2,
        pure, BgM.pure]
  · refine ⟨?_, ?_, [], ?_, ?_, ?_, ?_, ?_⟩ <;>
    simp [requestsOf, emailUnfinishedNow, bind, BgM.bind, storageGet, hfault, hen, hem, h1,
      pure, BgM.pure]


/-- C16. For every store whose tasks have a title, `emailUnfinishedNow` leaves
the store as it was and performs no write or removal. It begins a send (and,
with a token granted, submits a message) exactly when `notifyEnabled` and
`notifyEmail` are truthy and some day bucket, the one of today included, holds
a task that is not done. The text of the message it sends is the lines of the
open tasks of all day buckets, joined by newlines. Reads of the store are
taken to succeed. -/
theorem manual_send_keeps_store (env : Env) (st : Bg)
    (hfault : ∀ n, env.storageFault n = none)
    (htitles : titlesPresent st.store = true) :
    (emailUnfinishedNow env st).2.store = st.store ∧
    ∃ evs : List Event,
      (emailUnfinishedNow env st).2.trace
        = st.trace ++ Event.storageGet (some ["notifyEnabled", "notifyEmail"]) :: evs ∧
      (Event.getProfileUserInfo ∈ evs ↔
        (prefTruthy (st.store.get "notifyEnabled") = true ∧
         prefTruthy (st.store.get "notifyEmail") = true ∧
         HasOpenTask st.store)) ∧
      (∀ e ∈ evs, e = Event.storageGet none ∨
        Event.isMailOf (rawMessage (orElse env.profileEmail "me")
          (prefString (st.store.get "notifyEmail"))
          ("Unfinished tasks (" ++ env.toLocaleString (env.clock st.clockReads) ++ ")")
          (some (String.intercalate "\n" ((todoKeysOf st.store).flatMap (openLines st.store))))
          env.tzOffset (env.clock (st.clockReads + 1))) e = true) ∧
      ((∀ n, truthy (env.identity true n).token = true) →
        (requestsOf evs ≠ [] ↔
          (prefTruthy (st.store.get "notifyEnabled") = true ∧
           prefTruthy (st.store.get "notifyEmail") = true ∧
           HasOpenTask st.store))) := by
  obtain ⟨hstore, -, evs, htrace, hbegun, hmail, hreq1, hreq2⟩ :=
    emailUnfinishedNow_run env st hfault
  have hopen : unfinishedNowLines st.store ≠ [] ↔ HasOpenTask st.store := by
    rw [unfinishedNowLines_eq st.store htitles]
    exact flatMap_openLines_ne_nil st.store (todoKeysOf st.store)
  rw [hopen] at hbegun
  rw [unfinishedNowLines_eq st.store htitles] at hmail
  exact ⟨hstore, evs, htrace, hbegun, hmail,
    fun hg => ⟨fun h => hbegun.1 (hreq1 h), fun h => hreq2 hg (hbegun.2 h)⟩⟩

theorem manual_send_keeps_store_witness :
    (∀ n, envMidnight.storageFault n = none) ∧
    titlesPresent sampleNightBg.store = true ∧
    (emailUnfinishedNow envMidnight sampleNightBg).2.store = sampleNightStore :=
  ⟨fun _ => rfl, by decide,
   (manual_send_keeps_store envMidnight sampleNightBg (fun _ => rfl) (by decide)).1⟩

/-! ## The timers are left alone by everything but the scheduling -/

theorem keepsAlarms_pure {α : Type} (a : α) : KeepsAlarms (pure a : BgM α) :=
  fun _ _ => ⟨rfl, Nat.le_refl _⟩

theorem keepsAlarms_bind {α β : Type} (m : BgM α) (f : α → BgM β)
    (hm : KeepsAlarms m) (hf : ∀ a, KeepsAlarms (f a)) : KeepsAlarms (m >>= f) := by
  intro env st
  have h1 := hm env st
  show (BgM.bind m f env st).2.alarms = st.alarms ∧ st.clockReads ≤ (BgM.bind m f env st).2.clockReads
  unfold BgM.bind
  cases hres : m env st with
  | mk r st1 =>
    rw [hres] at h1
    cases r with
    | error e => exact h1
    | ok a =>
      have h2 := hf a env st1
      exact ⟨h2.1.trans h1.1, Nat.le_trans h1.2 h2.2⟩

theorem keepsAlarms_tryCatch {α : Type} (body : BgM α) (handler : String → BgM α)
    (hb : KeepsAlarms body) (hh : ∀ e, KeepsAlarms (handler e)) :
    KeepsAlarms (BgM.tryCatch body handler) := by
  intro env st
  have h1 := hb env st
  unfold BgM.tryCatch
  cases hres : body env st with
  | mk r st1 =>
    rw [hres] at h1
    cases r with
    | ok a => exact h1
    | error e =>
      have h2 := hh e env st1
      exact ⟨h2.1.trans h1.1, Nat.le_trans h1.2 h2.2⟩

theorem keepsAlarms_ite {α : Type} (c : Prop) [Decidable c] (a b : BgM α)
    (ha : KeepsAlarms a) (hb : KeepsAlarms b) : KeepsAlarms (if c then a else b) := by
  by_cases h : c
  · rw [if_pos h]; exact ha
  · rw [if_neg h]; exact hb

theorem keepsAlarms_storageGet (keys : Option (List String)) :
    KeepsAlarms (storageGet keys) := by
  intro env st
  unfold storageGet
  cases env.storageFault st.storageOps <;> exact ⟨rfl, Nat.le_refl _⟩

theorem keepsAlarms_storageRemove (keys : List String) :
    KeepsAlarms (storageRemove keys) := by
  intro env st
  unfold storageRemove
  cases env.storageFault st.storageOps <;> exact ⟨rfl, Nat.le_refl _⟩

theorem keepsAlarms_readClock : KeepsAlarms readClock :=
  fun _ _ => ⟨rfl, Nat.le_succ _⟩

theorem keepsAlarms_gmailSend (to_ subject : String) (text : Option String) :
    KeepsAlarms (gmailSend to_ subject text) := by
  intro env st
  obtain ⟨res, a, q, evs, hrun, -, -⟩ := gmailSend_run to_ subject text env st
  rw [hrun]
  exact ⟨rfl, Nat.le_succ _⟩

theorem keepsAlarms_digestAndCleanup : KeepsAlarms digestAndCleanup := by
  intro env st
  unfold digestAndCleanup
  refine keepsAlarms_bind _ _ (keepsAlarms_storageGet _) (fun prefs => ?_) env st
  refine keepsAlarms_bind _ _ (keepsAlarms_storageGet _) (fun all => ?_)
  refine keepsAlarms_bind _ _ keepsAlarms_readClock (fun today => ?_)
  dsimp only
  have hjp : ∀ keys : List String, KeepsAlarms
      (if (keys.length != 0) = true then storageRemove keys else (pure () : BgM Unit)) :=
    fun keys => keepsAlarms_ite _ _ _ (keepsAlarms_storageRemove _) (keepsAlarms_pure _)
  apply keepsAlarms_ite
  · refine keepsAlarms_bind _ _ keepsAlarms_readClock (fun now => ?_)
    refine keepsAlarms_bind _ _ ?_ (fun _ => hjp _)
    apply keepsAlarms_tryCatch
    · exact keepsAlarms_bind _ _ (keepsAlarms_gmailSend _ _ _) (fun _ => keepsAlarms_pure _)
    · intro e
      exact keepsAlarms_pure _
  · exact keepsAlarms_bind _ _ (keepsAlarms_pure _) (fun _ => hjp _)

theorem scheduleDailyAlarm_run (env : Env) (st : Bg) :
    scheduleDailyAlarm env st
      = (Except.ok (),
         { st with alarms := st.alarms.filter (fun a => a.1 != "dailyDigest") ++
                     [("dailyDigest", nextLocalMidnight env.zone (env.clock st.clockReads))],
                   trace := st.trace ++ [Event.alarmCreate "dailyDigest"
                     (nextLocalMidnight env.zone (env.clock st.clockReads))],
                   clockReads := st.clockReads + 1 }) := by
  simp [scheduleDailyAlarm, bind, BgM.bind, readClock, alarmsCreate]

theorem pendingDigest_after_schedule (env : Env) (st : Bg) :
    pendingDigest (scheduleDailyAlarm env st).2
      = [("dailyDigest", nextLocalMidnight env.zone (env.clock st.clockReads))] := by
  rw [scheduleDailyAlarm_run]
  simp [pendingDigest, List.filter_append, List.filter_filter]

theorem clockReads_after_schedule (env : Env) (st : Bg) :
    (scheduleDailyAlarm env st).2.clockReads = st.clockReads + 1 := by
  rw [scheduleDailyAlarm_run]

theorem onAlarmBody_eq (env : Env) (st : Bg) :
    onAlarmBody env st = digestAndCleanup env (scheduleDailyAlarm env st).2 := by
  show BgM.bind scheduleDailyAlarm (fun _ => digestAndCleanup) env st = _
  unfold BgM.bind
  rw [scheduleDailyAlarm_run]

theorem rearm_eq (env : Env) (st : Bg) :
    BgM.tryCatch scheduleDailyAlarm (fun _ => pure ()) env st
      = (Except.ok (), (scheduleDailyAlarm env st).2) := by
  unfold BgM.tryCatch
  rw [scheduleDailyAlarm_run]

theorem onAlarm_pending (env : Env) (st : Bg) :
    ∃ j, st.clockReads ≤ j ∧ j < (onAlarm "dailyDigest" env st).2.clockReads ∧
      pendingDigest (onAlarm "dailyDigest" env st).2
        = [("dailyDigest", nextLocalMidnight env.zone (env.clock j))] := by
  have hon : onAlarm "dailyDigest" env st
      = BgM.tryCatch onAlarmBody
          (fun _ => BgM.tryCatch scheduleDailyAlarm (fun _ => pure ())) env st := by
    simp [onAlarm]
  have hkeep := keepsAlarms_digestAndCleanup env (scheduleDailyAlarm env st).2
  have hpend := pendingDigest_after_schedule env st
  have hclock := clockReads_after_schedule env st
  rw [hon]
  unfold BgM.tryCatch
  rw [onAlarmBody_eq]
  cases hres : digestAndCleanup env (scheduleDailyAlarm env st).2 with
  | mk r st1 =>
    rw [hres] at hkeep
    cases r with
    | ok a =>
      refine ⟨st.clockReads, Nat.le_refl _, ?_, ?_⟩
      · show st.clockReads < st1.clockReads
        have h2 : (scheduleDailyAlarm env st).2.clockReads ≤ st1.clockReads := hkeep.2
        rw [hclock] at h2
        omega
      · show pendingDigest st1 = _
        unfold pendingDigest at hpend ⊢
        rw [hkeep.1]
        exact hpend
    | error e =>
      have h2 : (scheduleDailyAlarm env st).2.clockReads ≤ st1.clockReads := hkeep.2
      rw [hclock] at h2
      refine ⟨st1.clockReads, by omega, ?_, ?_⟩
      · show st1.clockReads < (scheduleDailyAlarm env st1).2.clockReads
        rw [clockReads_after_schedule]
        exact Nat.lt_succ_self _
      · exact pendingDigest_after_schedule env st1

theorem fireAlarm_pending (env : Env) (st : Bg) :
    ∃ j, st.clockReads ≤ j ∧ j < (fireAlarm "dailyDigest" env st).2.clockReads ∧
      pendingDigest (fireAlarm "dailyDigest" env st).2
        = [("dailyDigest", nextLocalMidnight env.zone (env.clock j))] :=
  onAlarm_pending env { st with alarms := st.alarms.filter (fun a => a.1 != "dailyDigest") }


theorem nextLocalMidnight_future (z : Zone) (now : Int)
    (hzone : ∀ q : Int, z.Reaches (q * msPerDay)) :
    IsLocalMidnight z (nextLocalMidnight z now) ∧ now < nextLocalMidnight z now := by
  have hS := hzone (dayOf (z.localOf now))
  have hN := hzone (dayOf (z.localOf now) + 1)
  have hday := dayOf_mul_le (z.localOf now)
  rw [nextLocalMidnight_eq z now hS]
  unfold IsLocalMidnight
  constructor
  · rw [hN.1]
    exact timeWithinDay_mul _
  · by_contra h
    have := hN.2.2 now (by omega)
    omega

theorem afterFires_clock_le (env : Env) (st : Bg) (n : Nat) :
    st.clockReads ≤ (afterFires env n st).clockReads := by
  induction n with
  | zero => exact Nat.le_refl _
  | succ k ih =>
    obtain ⟨j, h1, h2, -⟩ := fireAlarm_pending env (afterFires env k st)
    show st.clockReads ≤ (fireAlarm "dailyDigest" env (afterFires env k st)).2.clockReads
    omega

theorem one_pending_timer_any_zone (env : Env) (st : Bg) (n : Nat) :
    ∃ j : Nat,
      (match n with
        | 0 => st.clockReads
        | k + 1 => (afterFires env k (startup env st)).clockReads) ≤ j ∧
      j < (afterFires env n (startup env st)).clockReads ∧
      pendingDigest (afterFires env n (startup env st))
        = [("dailyDigest", nextLocalMidnight env.zone (env.clock j))] := by
  cases n with
  | zero =>
    refine ⟨st.clockReads, Nat.le_refl _, ?_, ?_⟩
    · show st.clockReads < (scheduleDailyAlarm env st).2.clockReads
      rw [clockReads_after_schedule]
      exact Nat.lt_succ_self _
    · exact pendingDigest_after_schedule env st
  | succ k => exact fireAlarm_pending env (afterFires env k (startup env st))

/-- C14, as the code has it. In a time zone in which every local midnight is
reached (no change of offset skips one): from the state left by the install or
startup listener, after any number `n` of consecutive fires of the
`dailyDigest` timer, for every behaviour of the clock, the token provider, the
mail service and the store (so also when reads or removals of the store are
rejected and when the send fails), exactly one `dailyDigest` timer is pending;
it is armed for the local midnight that follows a reading `j` of the clock,
and that reading was taken during the last fire (during the listener when
`n = 0`), so that the timer is armed for a local midnight strictly later than
that reading. -/
theorem one_pending_timer (env : Env) (st : Bg) (n : Nat)
    (hzone : ∀ q : Int, env.zone.Reaches (q * msPerDay)) :
    ∃ j : Nat,
      (match n with
        | 0 => st.clockReads
        | k + 1 => (afterFires env k (startup env st)).clockReads) ≤ j ∧
      j < (afterFires env n (startup env st)).clockReads ∧
      pendingDigest (afterFires env n (startup env st))
        = [("dailyDigest", nextLocalMidnight env.zone (env.clock j))] ∧
      IsLocalMidnight env.zone (nextLocalMidnight env.zone (env.clock j)) ∧
      env.clock j < nextLocalMidnight env.zone (env.clock j) := by
  obtain ⟨j, h1, h2, h3⟩ := one_pending_timer_any_zone env st n
  exact ⟨j, h1, h2, h3, nextLocalMidnight_future env.zone (env.clock j) hzone⟩

theorem one_pending_timer_witness :
    (∀ q : Int, envFallBack.zone.Reaches (q * msPerDay)) ∧
    pendingDigest (startup envFallBack sampleNightBg) = [("dailyDigest", 1762156800000)] ∧
    IsLocalMidnight envFallBack.zone 1762156800000 ∧
    ∃ j : Nat,
      (afterFires envFallBack 0 (startup envFallBack sampleNightBg)).clockReads ≤ j ∧
      j < (afterFires envFallBack 1 (startup envFallBack sampleNightBg)).clockReads ∧
      pendingDigest (afterFires envFallBack 1 (startup envFallBack sampleNightBg))
        = [("dailyDigest", nextLocalMidnight envFallBack.zone (envFallBack.clock j))] ∧
      IsLocalMidnight envFallBack.zone
        (nextLocalMidnight envFallBack.zone (envFallBack.clock j)) ∧
      envFallBack.clock j < nextLocalMidnight envFallBack.zone (envFallBack.clock j) :=
  ⟨fun q => (zoneLosAngeles_passesOnce q).1, by decide, by decide,
    one_pending_timer envFallBack sampleNightBg 1 (fun q => (zoneLosAngeles_passesOnce q).1)⟩

/-- C14, the claim as written fails in a zone whose change of offset falls on a
local midnight. Where the clocks go forward from 24:00 to 01:00, the timer the
startup listener arms at noon of the day before is set to the instant of the
change, whose local time is 01:00:00, not a local midnight. Where the clocks go
back from 00:30 to 23:30, the timer armed at 23:45 after the change is set to
the midnight already read before the change, which is earlier than the reading
of the clock. -/
theorem startup_arms_after_skipped_midnight :
    (pendingDigest (startup envSkipsMidnight Bg.init) = [("dailyDigest", 1757217600000)] ∧
      timeWithinDay (envSkipsMidnight.zone.localOf 1757217600000) = msPerHour ∧
      ¬ IsLocalMidnight envSkipsMidnight.zone 1757217600000) ∧
    (pendingDigest (startup envBackAcrossMidnight Bg.init)
        = [("dailyDigest", 1762041600000)] ∧
      envBackAcrossMidnight.clock 0 = 1762044300000 ∧
      ¬ envBackAcrossMidnight.clock 0 < (1762041600000 : Int)) := by
  refine ⟨⟨by decide, by decide, by decide⟩, ⟨by decide, by decide, by decide⟩⟩

/-! ## The nightly digest and the cleanup -/

theorem Storage.remove_nil (s : Storage) : Storage.remove s [] = s := by
  simp [Storage.remove]

theorem Storage.remove_prior (s : Storage) (tKey : String) :
    Storage.remove s ((todoKeysOf s).filter (fun k => k != tKey))
      = s.filter (fun p => !(startsWith p.1 "todos_" && p.1 != tKey)) := by
  unfold Storage.remove
  apply List.filter_congr
  intro p hp
  have hmem : p.1 ∈ Storage.keys s := List.mem_map.2 ⟨p, hp, rfl⟩
  by_cases h1 : startsWith p.1 "todos_" = true <;> by_cases h2 : p.1 = tKey <;>
    simp [todoKeysOf, hmem, h1, h2]

theorem digestAndCleanup_run (env : Env) (st : Bg)
    (hfault : ∀ n, env.storageFault n = none) :
    (digestAndCleanup env st).1 = Except.ok () ∧
    (digestAndCleanup env st).2.store
      = st.store.remove ((todoKeysOf st.store).filter (fun k =>
          k != Background.todayKey (localFields env.tzOffset (env.clock st.clockReads)))) ∧
    ∃ evs : List Event,
      (digestAndCleanup env st).2.trace
        = st.trace ++ Event.storageGet (some ["notifyEnabled", "notifyEmail"]) ::
            Event.storageGet none :: evs ++
            (if (todoKeysOf st.store).filter (fun k =>
                  k != Background.todayKey
                    (localFields env.tzOffset (env.clock st.clockReads))) = []
             then []
             else [Event.storageRemove ((todoKeysOf st.store).filter (fun k =>
                  k != Background.todayKey
                    (localFields env.tzOffset (env.clock st.clockReads))))]) ∧
      (Event.getProfileUserInfo ∈ evs ↔
        (prefTruthy (st.store.get "notifyEnabled") = true ∧
         prefTruthy (st.store.get "notifyEmail") = true ∧
         digestLines st.store (Background.todayKey
           (localFields env.tzOffset (env.clock st.clockReads))) ≠ [])) ∧
      evs.all (Event.isMailOf (rawMessage (orElse env.profileEmail "me")
          (prefString (st.store.get "notifyEmail"))
          (digestSubject (localFields env.tzOffset (env.clock (st.clockReads + 1))))
          (some (digestBody (digestLines st.store (Background.todayKey
            (localFields env.tzOffset (env.clock st.clockReads))))))
          env.tzOffset (env.clock (st.clockReads + 2)))) = true ∧
      (requestsOf evs ≠ [] → Event.getProfileUserInfo ∈ evs) ∧
      ((∀ n, truthy (env.identity true n).token = true) →
        Event.getProfileUserInfo ∈ evs → requestsOf evs ≠ []) := by
  have hen : (st.store.pick ["notifyEnabled", "notifyEmail"]).get "notifyEnabled"
      = st.store.get "notifyEnabled" := Storage.get_pick _ _ _ (by simp)
  have hem : (st.store.pick ["notifyEnabled", "notifyEmail"]).get "notifyEmail"
      = st.store.get "notifyEmail" := Storage.get_pick _ _ _ (by simp)
  generalize htk : Background.todayKey (localFields env.tzOffset (env.clock st.clockReads))
    = tKey
  by_cases hc : (prefTruthy (st.store.get "notifyEnabled") &&
      prefTruthy (st.store.get "notifyEmail") &&
      (digestLines st.store tKey).length != 0) = true
  · obtain ⟨res, a, q, evs, hrun, hall, hreq⟩ :=
      gmailSend_run (prefString (st.store.get "notifyEmail"))
        (digestSubject (localFields env.tzOffset (env.clock (st.clockReads + 1))))
        (some (digestBody (digestLines st.store tKey))) env
        { st with storageOps := st.storageOps + 1 + 1,
                  trace := st.trace ++
                    [Event.storageGet (some ["notifyEnabled", "notifyEmail"])] ++
                    [Event.storageGet none],
                  clockReads := st.clockReads + 1 + 1 }
    have hc3 : prefTruthy (st.store.get "notifyEnabled") = true ∧
        prefTruthy (st.store.get "notifyEmail") = true ∧ digestLines st.store tKey ≠ [] := by
      simpa [and_assoc] using hc
    by_cases hk : (todoKeysOf st.store).filter (fun k => k != tKey) = []
    · have hout : digestAndCleanup env st
          = (Except.ok (),
             { st with authCalls := a, requests := q,
                       trace := st.trace ++
                         Event.storageGet (some ["notifyEnabled", "notifyEmail"]) ::
                         Event.storageGet none :: Event.getProfileUserInfo :: evs,
                       clockReads := st.clockReads + 1 + 1 + 1,
                       storageOps := st.storageOps + 1 + 1 }) := by
        simp only [digestAndCleanup, bind, BgM.bind, storageGet, hfault, hen, hem, htk, hc,
          readClock, if_true, BgM.tryCatch]
        rw [hrun]
        cases res <;> simp [pure, BgM.pure, hk]
      rw [hout]
      refine ⟨rfl, ?_, Event.getProfileUserInfo :: evs, ?_, ?_, ?_, ?_, ?_⟩
      · simp [hk, Storage.remove_nil]
      · simp [hk]
      · simp [hc3]
      · simpa [Event.isMailOf] using hall
      · intro _
        simp
      · intro hg _
        have := hreq hg
        simpa [requestsOf] using this
    · have hout : digestAndCleanup env st
          = (Except.ok (),
             { st with authCalls := a, requests := q,
                       trace := st.trace ++
                         Event.storageGet (some ["notifyEnabled", "notifyEmail"]) ::
                         Event.storageGet none :: Event.getProfileUserInfo :: evs ++
                         [Event.storageRemove
                           ((todoKeysOf st.store).filter (fun k => k != tKey))],
                       store := st.store.remove
                         ((todoKeysOf st.store).filter (fun k => k != tKey)),
                       clockReads := st.clockReads + 1 + 1 + 1,
                       storageOps := st.storageOps + 1 + 1 + 1 }) := by
        simp only [digestAndCleanup, bind, BgM.bind, storageGet, hfault, hen, hem, htk, hc,
          readClock, if_true, BgM.tryCatch]
        rw [hrun]
        cases res <;> simp [pure, BgM.pure, hk, storageRemove, hfault]
      rw [hout]
      refine ⟨rfl, rfl, Event.getProfileUserInfo :: evs, ?_, ?_, ?_, ?_, ?_⟩
      · simp [hk]
      · simp [hc3]
      · simpa [Event.isMailOf] using hall
      · intro _
        simp
      · intro hg _
        have := hreq hg
        simpa [requestsOf] using this
  · have hc3 : ¬ (prefTruthy (st.store.get "notifyEnabled") = true ∧
        prefTruthy (st.store.get "notifyEmail") = true ∧ digestLines st.store tKey ≠ []) := by
      simpa [and_assoc] using hc
    by_cases hk : (todoKeysOf st.store).filter (fun k => k != tKey) = []
    · have hout : digestAndCleanup env st
          = (Except.ok (),
             { st with trace := st.trace ++
                         [Event.storageGet (some ["notifyEnabled", "notifyEmail"]),
                          Event.storageGet none],
                       clockReads := st.clockReads + 1,
                       storageOps := st.storageOps + 1 + 1 }) := by
        simp only [digestAndCleanup, bind, BgM.bind, storageGet, hfault, hen, hem, htk, hc,
          readClock, if_false]
        simp [pure, BgM.pure, BgM.bind, hk]
      rw [hout]
      refine ⟨rfl, ?_, [], ?_, ?_, ?_, ?_, ?_⟩ <;>
      simp [requestsOf, hc3, hk, Storage.remove_nil]
    · have hout : digestAndCleanup env st
          = (Except.ok (),
             { st with trace := st.trace ++
                         [Event.storageGet (some ["notifyEnabled", "notifyEmail"]),
                          Event.storageGet none,
                          Event.storageRemove
                            ((todoKeysOf st.store).filter (fun k => k != tKey))],
                       store := st.store.remove
                         ((todoKeysOf st.store).filter (fun k => k != tKey)),
                       clockReads := st.clockReads + 1,
                       storageOps := st.storageOps + 1 + 1 + 1 }) := by
        simp only [digestAndCleanup, bind, BgM.bind, storageGet, hfault, hen, hem, htk, hc,
          readClock, if_false]
        simp [pure, BgM.pure, BgM.bind, hk, storageRemove, hfault]
      rw [hout]
      refine ⟨rfl, rfl, [], ?_, ?_, ?_, ?_, ?_⟩ <;>
      simp [requestsOf, hc3, hk]


theorem fireAlarm_eq (env : Env) (st : Bg) (hfault : ∀ n, env.storageFault n = none) :
    fireAlarm "dailyDigest" env st
      = digestAndCleanup env (scheduleDailyAlarm env
          { st with alarms := st.alarms.filter (fun a => a.1 != "dailyDigest") }).2 := by
  have hon : fireAlarm "dailyDigest" env st
      = BgM.tryCatch onAlarmBody
          (fun _ => BgM.tryCatch scheduleDailyAlarm (fun _ => pure ())) env
          { st with alarms := st.alarms.filter (fun a => a.1 != "dailyDigest") } := by
    simp [fireAlarm, onAlarm]
  rw [hon]
  unfold BgM.tryCatch
  rw [onAlarmBody_eq]
  have h := (digestAndCleanup_run env (scheduleDailyAlarm env
    { st with alarms := st.alarms.filter (fun a => a.1 != "dailyDigest") }).2 hfault).1
  cases hres : digestAndCleanup env (scheduleDailyAlarm env
      { st with alarms := st.alarms.filter (fun a => a.1 != "dailyDigest") }).2 with
  | mk r st1 =>
    rw [hres] at h
    cases r with
    | ok a => rfl
    | error e => exact absurd h (by simp)

theorem fireAlarm_run (env : Env) (st : Bg) (hfault : ∀ n, env.storageFault n = none) :
    (fireAlarm "dailyDigest" env st).2.store
      = st.store.remove ((todoKeysOf st.store).filter (fun k =>
          k != Background.todayKey
            (localFields env.tzOffset (env.clock (st.clockReads + 1))))) ∧
    ∃ evs tail : List Event,
      (fireAlarm "dailyDigest" env st).2.trace
        = st.trace ++ Event.alarmCreate "dailyDigest"
              (nextLocalMidnight env.zone (env.clock st.clockReads)) ::
            Event.storageGet (some ["notifyEnabled", "notifyEmail"]) ::
            Event.storageGet none :: evs ++ tail ∧
      requestsOf tail = [] ∧
      (Event.getProfileUserInfo ∈ evs ↔
        (prefTruthy (st.store.get "notifyEnabled") = true ∧
         prefTruthy (st.store.get "notifyEmail") = true ∧
         digestLines st.store (Background.todayKey
           (localFields env.tzOffset (env.clock (st.clockReads + 1)))) ≠ [])) ∧
      evs.all (Event.isMailOf (rawMessage (orElse env.profileEmail "me")
          (prefString (st.store.get "notifyEmail"))
          (digestSubject (localFields env.tzOffset (env.clock (st.clockReads + 1 + 1))))
          (some (digestBody (digestLines st.store (Background.todayKey
            (localFields env.tzOffset (env.clock (st.clockReads + 1)))))))
          env.tzOffset (env.clock (st.clockReads + 1 + 2)))) = true ∧
      (requestsOf evs ≠ [] → Event.getProfileUserInfo ∈ evs) ∧
      ((∀ n, truthy (env.identity true n).token = true) →
        Event.getProfileUserInfo ∈ evs → requestsOf evs ≠ []) := by
  have h := digestAndCleanup_run env (scheduleDailyAlarm env
    { st with alarms := st.alarms.filter (fun a => a.1 != "dailyDigest") }).2 hfault
  rw [← fireAlarm_eq env st hfault] at h
  have hs : (scheduleDailyAlarm env
      { st with alarms := st.alarms.filter (fun a => a.1 != "dailyDigest") }).2.store
        = st.store := by rw [scheduleDailyAlarm_run]
  have hcl : (scheduleDailyAlarm env
      { st with alarms := st.alarms.filter (fun a => a.1 != "dailyDigest") }).2.clockReads
        = st.clockReads + 1 := by rw [scheduleDailyAlarm_run]
  have htr : (scheduleDailyAlarm env
      { st with alarms := st.alarms.filter (fun a => a.1 != "dailyDigest") }).2.trace
        = st.trace ++ [Event.alarmCreate "dailyDigest"
              (nextLocalMidnight env.zone (env.clock st.clockReads))] := by
    rw [scheduleDailyAlarm_run]
  rw [hs, hcl, htr] at h
  obtain ⟨-, hstore, evs, htrace, hbegun, hall, hreq1, hreq2⟩ := h
  refine ⟨hstore, evs,
    (if (todoKeysOf st.store).filter (fun k => k != Background.todayKey
          (localFields env.tzOffset (env.clock (st.clockReads + 1)))) = []
     then []
     else [Event.storageRemove ((todoKeysOf st.store).filter (fun k =>
          k != Background.todayKey
            (localFields env.tzOffset (env.clock (st.clockReads + 1)))))]),
    ?_, ?_, hbegun, hall, hreq1, hreq2⟩
  · rw [htrace]
    simp only [List.append_assoc, List.singleton_append, List.cons_append, List.nil_append]
  · split <;> simp [requestsOf]


/-- C13. For every store, every notification preference and every behaviour of
the token provider and of the mail service (so whether the digest is not
attempted, sent, or fails), the store after a fire of the `dailyDigest` timer is
the store before it without the records whose key starts with `todos_` and is
not the key of today: those day buckets are gone, and the bucket of today, the
preference and every other record are as before. Today is the day of the
second clock reading of the handler. Reads and removals of the store are taken
to succeed. -/
theorem cleanup_removes_prior_days (env : Env) (st : Bg)
    (hfault : ∀ n, env.storageFault n = none) :
    (fireAlarm "dailyDigest" env st).2.store
      = st.store.filter (fun p => !(startsWith p.1 "todos_" &&
          p.1 != Background.todayKey
            (localFields env.tzOffset (env.clock (st.clockReads + 1))))) ∧
    (∀ key, startsWith key "todos_" = true →
      key ≠ Background.todayKey (localFields env.tzOffset (env.clock (st.clockReads + 1))) →
      (fireAlarm "dailyDigest" env st).2.store.get key = none) ∧
    (∀ key, (startsWith key "todos_" = false ∨
        key = Background.todayKey
          (localFields env.tzOffset (env.clock (st.clockReads + 1)))) →
      (fireAlarm "dailyDigest" env st).2.store.get key = st.store.get key) := by
  have hstore : (fireAlarm "dailyDigest" env st).2.store
      = st.store.filter (fun p => !(startsWith p.1 "todos_" &&
          p.1 != Background.todayKey
            (localFields env.tzOffset (env.clock (st.clockReads + 1))))) := by
    rw [(fireAlarm_run env st hfault).1, Storage.remove_prior]
  refine ⟨hstore, ?_, ?_⟩
  · intro key h1 h2
    rw [hstore, Storage.get_filter_key st.store (fun k => !(startsWith k "todos_" &&
          k != Background.todayKey
            (localFields env.tzOffset (env.clock (st.clockReads + 1))))) key]
    simp [h1, h2]
  · intro key h
    rw [hstore, Storage.get_filter_key st.store (fun k => !(startsWith k "todos_" &&
          k != Background.todayKey
            (localFields env.tzOffset (env.clock (st.clockReads + 1))))) key]
    rcases h with h | h
    · simp [h]
    · simp [h]

theorem cleanup_removes_prior_days_witness :
    (∀ n, envMidnightMailDown.storageFault n = none) ∧
    (fireAlarm "dailyDigest" envMidnightMailDown sampleNightBg).2.store
      = [("notifyEnabled", StoreVal.bool true),
         ("notifyEmail", StoreVal.str "me@example.com"),
         ("todos_2025-09-13", StoreVal.tasks [sampleLinked])] :=
  ⟨fun _ => rfl,
   (cleanup_removes_prior_days envMidnightMailDown sampleNightBg (fun _ => rfl)).1.trans
     (by decide)⟩


/-- C12. On a fire of the `dailyDigest` timer, for every store whose tasks have
a title: the task lines of the digest are the lines (a bullet and the title) of
the tasks that are not done, of every day bucket other than the one of today,
in the order of the keys of the store and, inside a bucket, in the order of the
list. A line is listed exactly when it is the line of such a task, so no done
task and no task of today is listed and no open task of another day is left
out. These lines, between the opening and the closing lines of `digestBody`,
are the text of every message the fire submits. Today is the day of the second
clock reading of the handler. Reads and removals of the store are taken to
succeed. -/
theorem digest_lists_prior_open_tasks (env : Env) (st : Bg)
    (hfault : ∀ n, env.storageFault n = none)
    (htitles : titlesPresent st.store = true) :
    digestLines st.store
        (Background.todayKey (localFields env.tzOffset (env.clock (st.clockReads + 1))))
      = ((todoKeysOf st.store).filter (fun key => key != Background.todayKey
          (localFields env.tzOffset (env.clock (st.clockReads + 1))))).flatMap
          (fun key => ((st.store.bucket key).filter (fun t => !t.done)).map
            (fun t => "• " ++ t.title)) ∧
    (∀ line, line ∈ digestLines st.store
        (Background.todayKey (localFields env.tzOffset (env.clock (st.clockReads + 1)))) ↔
      ∃ key ∈ todoKeysOf st.store,
        key ≠ Background.todayKey
          (localFields env.tzOffset (env.clock (st.clockReads + 1))) ∧
        ∃ t ∈ st.store.bucket key, t.done = false ∧ line = "• " ++ t.title) ∧
    ∃ evs tail : List Event,
      (fireAlarm "dailyDigest" env st).2.trace
        = st.trace ++ Event.alarmCreate "dailyDigest"
              (nextLocalMidnight env.zone (env.clock st.clockReads)) ::
            Event.storageGet (some ["notifyEnabled", "notifyEmail"]) ::
            Event.storageGet none :: evs ++ tail ∧
      requestsOf tail = [] ∧
      evs.all (Event.isMailOf (rawMessage (orElse env.profileEmail "me")
          (prefString (st.store.get "notifyEmail"))
          (digestSubject (localFields env.tzOffset (env.clock (st.clockReads + 1 + 1))))
          (some (String.intercalate "\n"
            (["Here are tasks that carried over:", ""] ++
             digestLines st.store (Background.todayKey
               (localFields env.tzOffset (env.clock (st.clockReads + 1)))) ++
             ["\nIt's okay you didn't finish everything today.",
              "Tomorrow is a new day. Taskade will wipe the slate clean so you can start fresh.",
              "Best regards,",
              "Taskade"])))
          env.tzOffset (env.clock (st.clockReads + 1 + 2)))) = true ∧
      ((∀ n, truthy (env.identity true n).token = true) →
        (requestsOf evs ≠ [] ↔
          (prefTruthy (st.store.get "notifyEnabled") = true ∧
           prefTruthy (st.store.get "notifyEmail") = true ∧
           digestLines st.store (Background.todayKey
             (localFields env.tzOffset (env.clock (st.clockReads + 1)))) ≠ []))) := by
  have hlines := digestLines_eq st.store htitles
    (Background.todayKey (localFields env.tzOffset (env.clock (st.clockReads + 1))))
  refine ⟨hlines, ?_, ?_⟩
  · intro line
    rw [hlines, List.mem_flatMap]
    constructor
    · rintro ⟨key, hkey, hl⟩
      rw [List.mem_filter] at hkey
      unfold openLines at hl
      obtain ⟨t, ht, hline⟩ := List.mem_map.1 hl
      rw [List.mem_filter] at ht
      exact ⟨key, hkey.1, by simpa using hkey.2, t, ht.1, by simpa using ht.2, hline.symm⟩
    · rintro ⟨key, hkey, hne, t, ht, hd, hline⟩
      refine ⟨key, List.mem_filter.2 ⟨hkey, by simpa using hne⟩, ?_⟩
      unfold openLines
      exact List.mem_map.2 ⟨t, List.mem_filter.2 ⟨ht, by simp [hd]⟩, hline.symm⟩
  · obtain ⟨-, evs, tail, htrace, htail, hbegun, hall, hreq1, hreq2⟩ :=
      fireAlarm_run env st hfault
    exact ⟨evs, tail, htrace, htail, hall,
      fun hg => ⟨fun h => hbegun.1 (hreq1 h), fun h => hreq2 hg (hbegun.2 h)⟩⟩

theorem digest_lists_prior_open_tasks_witness :
    (∀ n, envMidnight.storageFault n = none) ∧
    titlesPresent sampleNightBg.store = true ∧
    digestLines sampleNightBg.store
        (Background.todayKey (localFields envMidnight.tzOffset
          (envMidnight.clock (sampleNightBg.clockReads + 1))))
      = ["• Pay rent"] :=
  ⟨fun _ => rfl, by decide,
   (digest_lists_prior_open_tasks envMidnight sampleNightBg (fun _ => rfl) (by decide)).1.trans
     (by decide)⟩


/-! ## The create click handler -/

theorem router_create_requests (p : CreatePayload) (env : Env) :
    ∀ req ∈ requestsOf (router (Message.createEvent p) env Bg.init).2.trace,
      req.body = ReqBody.create (createBody p.toArgs env.timeZone) := by
  by_cases h0 : truthy (env.identity true 0).token = true <;>
  by_cases h1 : (env.server 0).status = 401 <;>
  by_cases hl : truthy (env.identity false 1).token = true <;>
  by_cases h2 : truthy (env.identity true 2).token = true <;>
  simp [router, createCalendarEvent, bind, BgM.bind, getAccessTokenInteractive,
    getAuthToken, fetch, evictCachedToken, logEvent, BgM.pure, pure, BgM.throw,
    BgM.ofExcept, Bg.init, h0, h1, hl, h2, requestsOf]

theorem createClick_cases (f : CreateForm) :
    (createClick f).sent = [] ∨
    ∃ s e, jsTrim f.titleValue ≠ "" ∧ f.start = some (some s) ∧
      effectiveEnd (some s) f.endField f.duration = some (some e) ∧ s < e ∧
      createClick f = { status := "Creating event…",
                        sent := [Message.createEvent
                          (createPayload (jsTrim f.titleValue) (toISOString s) (toISOString e)
                            (jsTrim f.notesValue) f.timeZone (resolveColor f)
                            (jsTrim f.sectionValue))] } := by
  by_cases ht : jsTrim f.titleValue = ""
  · left
    simp [createClick, ht]
  · cases hs : f.start with
    | none => left; simp [createClick, ht, hs]
    | some start =>
      cases start with
      | none =>
        left
        cases he : effectiveEnd none f.endField f.duration with
        | none => simp [createClick, ht, hs, he]
        | some e => cases e <;> simp [createClick, ht, hs, he]
      | some s =>
        cases he : effectiveEnd (some s) f.endField f.duration with
        | none => left; simp [createClick, ht, hs, he]
        | some e =>
          cases e with
          | none => left; simp [createClick, ht, hs, he]
          | some e =>
            by_cases hlt : s < e
            · by_cases hsec : (jsTrim f.sectionValue != "" && !f.sectionsSaved) = true
              · left
                simp only [createClick, hs, he, hlt, hsec]
                simp [ht]
              · right
                refine ⟨s, e, ht, rfl, he, hlt, ?_⟩
                simp only [createClick, hs, he, hlt, hsec]
                simp [ht]
            · left
              simp [createClick, ht, hs, he, hlt]

/-- C11. The create click handler validates before anything is sent. A
`CREATE_EVENT` message is sent only with a trimmed title that is not empty and
with the ISO texts of a start instant and an end instant of which the start is
strictly the earlier; the end is the end field, or the start plus the duration
when the end field is not after the start and the duration is positive. With
an empty trimmed title, or with an end that is not after the start, the handler
stops with its status text and sends nothing. The handler sends nothing but
such messages, and every request the background submits for such a message
carries that title and those two instants. -/
theorem create_validation_precedes_network (f : CreateForm) :
    (∀ p, Message.createEvent p ∈ (createClick f).sent →
      p.title = jsTrim f.titleValue ∧ p.title ≠ "" ∧
      ∃ s e, f.start = some (some s) ∧
        effectiveEnd (some s) f.endField f.duration = some (some e) ∧ s < e ∧
        p.startISO = toISOString s ∧ p.endISO = toISOString e) ∧
    (∀ m ∈ (createClick f).sent, ∃ p, m = Message.createEvent p) ∧
    (jsTrim f.titleValue = "" →
      createClick f = { status := "Title is required.", sent := [] }) ∧
    (jsTrim f.titleValue ≠ "" → ∀ start, f.start = some start →
      (¬ ∃ s e, start = some s ∧
        effectiveEnd start f.endField f.duration = some (some e) ∧ s < e) →
      createClick f = { status := "End time must be after Start time.", sent := [] }) ∧
    (∀ s e, f.endField = some (some e) → s < e →
      effectiveEnd (some s) f.endField f.duration = some (some e)) ∧
    (∀ p env, Message.createEvent p ∈ (createClick f).sent →
      ∀ req ∈ requestsOf (router (Message.createEvent p) env Bg.init).2.trace,
        ∃ b, req.body = ReqBody.create b ∧ b.summary = p.title ∧
          b.startDateTime = p.startISO ∧ b.endDateTime = p.endISO) := by
  refine ⟨?_, ?_, ?_, ?_, ?_, ?_⟩
  · intro p hp
    rcases createClick_cases f with h | ⟨s, e, ht, hs, he, hlt, hout⟩
    · rw [h] at hp
      exact absurd hp (List.not_mem_nil _)
    · rw [hout] at hp
      simp only [List.mem_singleton, Message.createEvent.injEq] at hp
      subst hp
      exact ⟨rfl, ht, s, e, hs, he, hlt, rfl, rfl⟩
  · intro m hm
    rcases createClick_cases f with h | ⟨s, e, -, -, -, -, hout⟩
    · rw [h] at hm
      exact absurd hm (List.not_mem_nil _)
    · rw [hout] at hm
      exact ⟨_, List.mem_singleton.1 hm⟩
  · intro ht
    simp [createClick, ht]
  · intro ht start hs hno
    cases start with
    | none =>
      cases he : effectiveEnd none f.endField f.duration with
      | none => simp [createClick, ht, hs, he]
      | some e => cases e <;> simp [createClick, ht, hs, he]
    | some s =>
      cases he : effectiveEnd (some s) f.endField f.duration with
      | none => simp [createClick, ht, hs, he]
      | some e =>
        cases e with
        | none => simp [createClick, ht, hs, he]
        | some e =>
          have hlt : ¬ s < e := fun h => hno ⟨s, e, rfl, he, h⟩
          simp [createClick, ht, hs, he, hlt]
  · intro s e he hlt
    cases hd : f.duration <;> simp [effectiveEnd, he, hd, dateGt, hlt]
  · intro p env _ req hreq
    refine ⟨_, router_create_requests p env req hreq, rfl, rfl, rfl⟩


/-! ## The sender of a mail -/

theorem buildMime_ignores_from (fromA fromB to_ subject : String) (text : Option String)
    (tzOffset now : Int) :
    buildMime { from_ := fromA, to_ := to_, subject := subject, text := text } tzOffset now
      = buildMime { from_ := fromB, to_ := to_, subject := subject, text := text }
          tzOffset now := rfl

/-- C21, as the code has it. In every `gmailSend` call the address of the profile
is resolved first (`getUserEmail`), but the message submitted does not carry it:
its `From` line is always `From: taskadealerts@gmail.com`, and the encoded
message is the one built for that sender, whatever the profile gives. With the
profile address `owner@example.com` the `From` line is not
`From: owner@example.com`. -/
theorem from_header_ignores_profile (to_ subject : String) (text : Option String)
    (env : Env) (st : Bg) :
    (∃ evs : List Event,
      (gmailSend to_ subject text env st).2.trace
        = st.trace ++ Event.getProfileUserInfo :: evs ∧
      evs.all (Event.isMailOf (toBase64Url (buildMime
        { from_ := "taskadealerts@gmail.com", to_ := to_, subject := subject, text := text }
        env.tzOffset (env.clock st.clockReads)))) = true) ∧
    (mimeLines { from_ := orElse env.profileEmail "me", to_ := to_, subject := subject,
                 text := text } env.tzOffset (env.clock st.clockReads)).head?
      = some "From: taskadealerts@gmail.com" ∧
    (mimeLines { from_ := orElse envMidnight.profileEmail "me", to_ := to_, subject := subject,
                 text := text } env.tzOffset (env.clock st.clockReads)).head?
      ≠ some ("From: " ++ orElse envMidnight.profileEmail "me") := by
  refine ⟨?_, rfl, ?_⟩
  swap
  · show some "From: taskadealerts@gmail.com"
      ≠ some ("From: " ++ orElse envMidnight.profileEmail "me")
    decide
  obtain ⟨res, a, q, evs, hrun, hall, -⟩ := gmailSend_run to_ subject text env st
  refine ⟨evs, by rw [hrun], ?_⟩
  unfold rawMessage at hall
  rw [buildMime_ignores_from (orElse env.profileEmail "me") "taskadealerts@gmail.com"] at hall
  exact hall

/-! ## The date line of a mail -/

theorem rfc2822Date_eq_spec_of_same_day (tzOffset d : Int)
    (h : dayOf (localTime tzOffset d) = dayOf d) :
    rfc2822Date tzOffset d = rfc2822DateSpec tzOffset d := by
  unfold rfc2822Date rfc2822DateSpec
  simp only [h]

/-- C25, as the code has it. `rfc2822Date` takes the day of the week, the day,
the month and the year from the UTC fields and the time of day from the local
fields. For the instant 2025-09-13T02:00:00Z seven hours west of Greenwich
(local time Friday 12 September, 19:00:00) it renders
`Sat, 13 Sep 2025 19:00:00 -0700`, which is the rendering of the instant one day
later; the local fields give `Fri, 12 Sep 2025 19:00:00 -0700`. For the example
of the code comment, where the UTC day is the local day, the two agree. -/
theorem rfc2822Date_mixes_utc_and_local :
    rfc2822Date 420 1757728800000 = "Sat, 13 Sep 2025 19:00:00 -0700" ∧
    rfc2822DateSpec 420 1757728800000 = "Fri, 12 Sep 2025 19:00:00 -0700" ∧
    rfc2822Date 420 1757728800000 = rfc2822DateSpec 420 (1757728800000 + msPerDay) ∧
    rfc2822Date 420 1757705696000 = "Fri, 12 Sep 2025 12:34:56 -0700" ∧
    rfc2822DateSpec 420 1757705696000 = "Fri, 12 Sep 2025 12:34:56 -0700" := by
  refine ⟨by decide, by decide, by decide, by decide, by decide⟩

/-! ## Rewriting the list of today -/

theorem addTodo_rereads (inputValue : String) (ts : Nat) (now : JsDate) (store : Storage)
    (h : jsTrim inputValue ≠ "") :
    (addTodoHandler inputValue ts now now store).store
      = store.set (todayKey now) (StoreVal.tasks (store.bucket (todayKey now) ++
          [{ title := jsTrim inputValue, done := false, ts := ts, eventId := none,
             originalColorId := none }])) := by
  simp [addTodoHandler, h, saveTodos]

theorem clearCompleted_rereads (now : JsDate) (store : Storage) :
    (clearCompletedHandler now now store).store
      = store.set (todayKey now)
          (StoreVal.tasks ((store.bucket (todayKey now)).filter (fun t => !t.done))) := by
  simp [clearCompletedHandler, saveTodos]

/-- C23, as the code has it. The checkbox handler and the delete handler of a
row do not read the store: for a local-only task of the rendered list `items`,
whatever the store holds at the time of the action, the value written is the
rendered list with the mutation applied (the row toggled, or the row removed),
under the key of the day of the save. -/
theorem row_handlers_write_rendered_list (items : List Task) (idx : Nat) (t : Task)
    (nextDone : Bool) (now1 now2 : JsDate) (reply : Message → Option Resp) (store : Storage)
    (hrow : items[idx]? = some t) (hlocal : truthy t.eventId = false) :
    (toggleHandler items idx nextDone now1 now2 reply store).store
      = store.set (todayKey now1)
          (StoreVal.tasks (items.set idx { t with done := nextDone })) ∧
    (deleteHandler items idx now1 reply store).store
      = store.set (todayKey now1) (StoreVal.tasks (items.eraseIdx idx)) := by
  constructor
  · simp [toggleHandler, hrow, hlocal, saveTodos]
  · simp [deleteHandler, hrow, hlocal, saveTodos]

theorem row_handlers_write_rendered_list_witness :
    ([sampleLocal][0]? = some sampleLocal ∧ truthy sampleLocal.eventId = false) ∧
    sampleGrownStore.bucket (todayKey sampleDay) = [sampleLocal, sampleLinked] ∧
    (toggleHandler [sampleLocal] 0 false sampleDay sampleDay (fun _ => none)
        sampleGrownStore).store
      = [("todos_2025-09-12", StoreVal.tasks [sampleLocalOpen])] ∧
    (toggleHandler [sampleLocal] 0 false sampleDay sampleDay (fun _ => none)
        sampleGrownStore).store
      ≠ [("todos_2025-09-12", StoreVal.tasks [sampleLocalOpen, sampleLinked])] ∧
    (deleteHandler [sampleLocal] 0 sampleDay (fun _ => none) sampleGrownStore).store
      = [("todos_2025-09-12", StoreVal.tasks [])] :=
  ⟨⟨rfl, rfl⟩, by decide,
   (row_handlers_write_rendered_list [sampleLocal] 0 sampleLocal false sampleDay sampleDay
      (fun _ => none) sampleGrownStore rfl rfl).1.trans (by decide),
   by decide,
   (row_handlers_write_rendered_list [sampleLocal] 0 sampleLocal false sampleDay sampleDay
      (fun _ => none) sampleGrownStore rfl rfl).2.trans (by decide)⟩


/-! ## The decimal rendering of numbers -/

theorem digitChar_value (k : Nat) (hk : k < 10) : (Nat.digitChar k).toNat - 48 = k := by
  interval_cases k <;> rfl

theorem digitChar_isDigit (k : Nat) (hk : k < 10) : IsDecimalDigit (Nat.digitChar k) := by
  unfold IsDecimalDigit
  interval_cases k <;> decide

theorem toDigitsCore_fold (fuel : Nat) : ∀ (n : Nat) (ds : List Char), n < fuel →
    (Nat.toDigitsCore 10 fuel n ds).foldl (fun acc c => acc * 10 + (c.toNat - 48)) 0
      = ds.foldl (fun acc c => acc * 10 + (c.toNat - 48)) n := by
  induction fuel with
  | zero => intro n ds h; omega
  | succ fuel ih =>
    intro n ds h
    have hv := digitChar_value (n % 10) (Nat.mod_lt _ (by decide))
    simp only [Nat.toDigitsCore]
    split
    · rename_i h0
      simp only [List.foldl_cons, hv]
      congr 1
      omega
    · rename_i h0
      rw [ih (n / 10) _ (by omega)]
      simp only [List.foldl_cons, hv]
      congr 1
      omega

theorem toDigitsCore_digits (fuel : Nat) : ∀ (n : Nat) (ds : List Char),
    (∀ c ∈ ds, IsDecimalDigit c) → ∀ c ∈ Nat.toDigitsCore 10 fuel n ds, IsDecimalDigit c := by
  induction fuel with
  | zero => intro n ds h c hc; exact h c hc
  | succ fuel ih =>
    intro n ds h
    have hd := digitChar_isDigit (n % 10) (Nat.mod_lt _ (by decide))
    have hds : ∀ c ∈ Nat.digitChar (n % 10) :: ds, IsDecimalDigit c := by
      intro c hc
      rcases List.mem_cons.1 hc with hc | hc
      · exact hc ▸ hd
      · exact h c hc
    simp only [Nat.toDigitsCore]
    split
    · exact hds
    · exact ih (n / 10) _ hds

theorem decodeDigits_toString (n : Nat) : decodeDigits (toString n).toList = n := by
  show decodeDigits (Nat.toDigits 10 n) = n
  unfold decodeDigits Nat.toDigits
  rw [toDigitsCore_fold (n + 1) n [] (Nat.lt_succ_self n)]
  rfl

theorem toString_digits (n : Nat) : ∀ c ∈ (toString n).toList, IsDecimalDigit c := by
  show ∀ c ∈ Nat.toDigits 10 n, IsDecimalDigit c
  unfold Nat.toDigits
  exact toDigitsCore_digits (n + 1) n [] (fun c hc => absurd hc (List.not_mem_nil _))

theorem toString_nat_inj (n m : Nat) (h : toString n = toString m) : n = m := by
  have h2 : decodeDigits (toString n).toList = decodeDigits (toString m).toList := by rw [h]
  rw [decodeDigits_toString, decodeDigits_toString] at h2
  exact h2

theorem toString_int_inj (a b : Int) (h : toString a = toString b) : a = b := by
  have hcancel : ∀ x y : String, "-" ++ x = "-" ++ y → x = y := by
    intro x y hxy
    have := congrArg String.data hxy
    simp only [String.data_append, List.append_cancel_left_eq] at this
    exact String.ext this
  have hmixed : ∀ n m : Nat, toString n ≠ "-" ++ toString (m + 1) := by
    intro n m hnm
    have hdata := congrArg String.data hnm
    simp only [String.data_append] at hdata
    have hmem : '-' ∈ (toString n).toList := by
      show '-' ∈ (toString n).data
      rw [hdata]
      exact List.mem_append_left _ (by decide)
    exact (toString_digits n '-' hmem).1 rfl
  cases a with
  | ofNat n =>
    cases b with
    | ofNat m => exact congrArg Int.ofNat (toString_nat_inj n m h)
    | negSucc m => exact absurd h (hmixed n m)
  | negSucc n =>
    cases b with
    | ofNat m => exact absurd h.symm (hmixed m n)
    | negSucc m =>
      have := toString_nat_inj (n + 1) (m + 1) (hcancel _ _ h)
      have hnm : n = m := by omega
      rw [hnm]

theorem fold_digits_lt (l : List Char) : ∀ acc : Nat, (∀ c ∈ l, IsDecimalDigit c) →
    l.foldl (fun acc c => acc * 10 + (c.toNat - 48)) acc < (acc + 1) * 10 ^ l.length := by
  induction l with
  | nil => intro acc _; simp
  | cons c cs ih =>
    intro acc h
    have hc := (h c (List.mem_cons_self _ _)).2
    have := ih (acc * 10 + (c.toNat - 48)) (fun x hx => h x (List.mem_cons_of_mem _ hx))
    simp only [List.foldl_cons, List.length_cons]
    calc _ < (acc * 10 + (c.toNat - 48) + 1) * 10 ^ cs.length := this
      _ ≤ ((acc + 1) * 10) * 10 ^ cs.length := Nat.mul_le_mul_right _ (by omega)
      _ = (acc + 1) * 10 ^ (cs.length + 1) := by rw [Nat.pow_succ]; ring

theorem toString_length_four (n : Nat) (h1 : 1000 ≤ n) (h2 : n ≤ 9999) :
    (toString n).length = 4 := by
  have hle : (toString n).length ≤ 4 := Nat.repr_length n 4 (by decide) (by omega)
  have hlt := fold_digits_lt (toString n).toList 0 (toString_digits n)
  have hdec : (toString n).toList.foldl (fun acc c => acc * 10 + (c.toNat - 48)) 0 = n :=
    decodeDigits_toString n
  rw [hdec] at hlt
  have hlen : (toString n).toList.length = (toString n).length := rfl
  rw [hlen] at hlt
  by_contra hne
  have h3 : (toString n).length ≤ 3 := by omega
  have hpow : 10 ^ (toString n).length ≤ 10 ^ 3 := Nat.pow_le_pow_right (by decide) h3
  omega


/-! ## The day keys -/

theorem padStart_two (n : Nat) (h : n ≤ 31) :
    padStart (toString n) 2 '0' = twoDigits n ∧ (twoDigits n).length = 2 := by
  interval_cases n <;> exact ⟨by decide, by decide⟩

theorem decodeDigits_twoDigits (n : Nat) : decodeDigits (twoDigits n).toList = n := by
  unfold twoDigits
  split
  · have h := decodeDigits_toString n
    unfold decodeDigits at h ⊢
    show List.foldl _ 0 ("0" ++ toString n).data = n
    rw [String.data_append]
    simpa [List.foldl_append] using h
  · exact decodeDigits_toString n

theorem twoDigits_inj (n m : Nat) (h : twoDigits n = twoDigits m) : n = m := by
  have h2 : decodeDigits (twoDigits n).toList = decodeDigits (twoDigits m).toList := by rw [h]
  rw [decodeDigits_twoDigits, decodeDigits_twoDigits] at h2
  exact h2

theorem specDayKey_inj (y y2 : Int) (m d m2 d2 : Nat)
    (hm : (twoDigits m).length = 2) (hd : (twoDigits d).length = 2)
    (hm2 : (twoDigits m2).length = 2) (hd2 : (twoDigits d2).length = 2)
    (h : specDayKey y m d = specDayKey y2 m2 d2) : y = y2 ∧ m = m2 ∧ d = d2 := by
  have hdata := congrArg String.data h
  unfold specDayKey at hdata
  simp only [String.data_append] at hdata
  have hlen : ∀ s : String, s.length = s.data.length := fun _ => rfl
  rw [hlen] at hm hd hm2 hd2
  obtain ⟨h1, hdd⟩ := List.append_inj' hdata (by rw [hd, hd2])
  obtain ⟨h2, -⟩ := List.append_inj' h1 rfl
  obtain ⟨h3, hmm⟩ := List.append_inj' h2 (by rw [hm, hm2])
  obtain ⟨h4, -⟩ := List.append_inj' h3 rfl
  have hy : (toString y).data = (toString y2).data := List.append_cancel_left h4
  exact ⟨toString_int_inj y y2 (String.ext hy), twoDigits_inj m m2 (String.ext hmm),
    twoDigits_inj d d2 (String.ext hdd)⟩

theorem keyForDate_eq_spec (a : JsDate) (ha : a.InRange) :
    keyForDate a = specDayKey a.fullYear (a.month + 1) a.date := by
  unfold keyForDate specDayKey
  simp only
  rw [(padStart_two (a.month + 1) (by unfold JsDate.InRange at ha; omega)).1,
    (padStart_two a.date ha.2.2).1]

/-- C24. For every calendar date given by the getters of a `Date` (month 0 to
11, day 1 to 31, any year), `keyForDate` and `todayKey` of the popup and
`todayKey` of the background yield the same key, and it is `todos_` followed by
the year, `-`, the month number in two digits, `-`, the day in two digits (the
year is written as the number it is: four digits for the years 1000 to 9999).
Two such dates with the same key are the same date. -/
theorem day_keys_agree (a b : JsDate) (ha : a.InRange) (hb : b.InRange) :
    keyForDate a = specDayKey a.fullYear (a.month + 1) a.date ∧
    todayKey a = specDayKey a.fullYear (a.month + 1) a.date ∧
    Background.todayKey a = specDayKey a.fullYear (a.month + 1) a.date ∧
    (twoDigits (a.month + 1)).length = 2 ∧ (twoDigits a.date).length = 2 ∧
    (1000 ≤ a.fullYear → a.fullYear ≤ 9999 → (toString a.fullYear).length = 4) ∧
    (keyForDate a = keyForDate b → a = b) := by
  have hma : a.month + 1 ≤ 31 := by unfold JsDate.InRange at ha; omega
  have hmb : b.month + 1 ≤ 31 := by unfold JsDate.InRange at hb; omega
  refine ⟨keyForDate_eq_spec a ha, keyForDate_eq_spec a ha, keyForDate_eq_spec a ha,
    (padStart_two _ hma).2, (padStart_two _ ha.2.2).2, ?_, ?_⟩
  · intro h1 h2
    cases hy : a.fullYear with
    | ofNat n =>
      rw [hy, Int.ofNat_eq_coe] at h1 h2
      exact toString_length_four n (by exact_mod_cast h1) (by exact_mod_cast h2)
    | negSucc n =>
      rw [hy] at h1
      exact absurd h1 (by intro h; have := Int.negSucc_lt_zero n; omega)
  · intro h
    rw [keyForDate_eq_spec a ha, keyForDate_eq_spec b hb] at h
    obtain ⟨hy, hm, hd⟩ := specDayKey_inj _ _ _ _ _ _ (padStart_two _ hma).2
      (padStart_two _ ha.2.2).2 (padStart_two _ hmb).2 (padStart_two _ hb.2.2).2 h
    cases a
    cases b
    simp only [JsDate.mk.injEq]
    simp only at hy hm hd
    exact ⟨hy, by omega, hd⟩

theorem day_keys_agree_witness :
    sampleDay.InRange ∧ sampleNextDay.InRange ∧
    keyForDate sampleDay = "todos_2025-09-12" ∧
    Background.todayKey sampleDay = specDayKey 2025 9 12 ∧
    (keyForDate sampleDay = keyForDate sampleNextDay → sampleDay = sampleNextDay) :=
  ⟨by decide, by decide,
   (day_keys_agree sampleDay sampleNextDay (by decide) (by decide)).1.trans (by decide),
   (day_keys_agree sampleDay sampleNextDay (by decide) (by decide)).2.2.1,
   (day_keys_agree sampleDay sampleNextDay (by decide) (by decide)).2.2.2.2.2.2⟩


/-! ## UTF-8 -/

theorem char_toNat_lt (c : Char) : c.toNat < 1114112 := by
  have h := c.valid
  unfold UInt32.isValidChar Nat.isValidChar at h
  show c.val.toNat < 1114112
  omega

theorem char_toNat_inj (c d : Char) (h : c.toNat = d.toNat) : c = d := by
  rw [← Char.ofNat_toNat c, ← Char.ofNat_toNat d, h]

theorem utf8EncodeChar_lt (c : Char) : ∀ b ∈ utf8EncodeChar c, b < 256 := by
  have hc := char_toNat_lt c
  intro b hb
  unfold utf8EncodeChar at hb
  simp only at hb
  split_ifs at hb <;> simp only [List.mem_cons, List.mem_singleton, List.not_mem_nil,
    or_false] at hb <;> omega

theorem utf8Encode_lt (s : String) : ∀ b ∈ utf8Encode s, b < 256 := by
  intro b hb
  unfold utf8Encode at hb
  obtain ⟨c, -, hc⟩ := List.mem_flatMap.1 hb
  exact utf8EncodeChar_lt c b hc

theorem utf8EncodeChar_prefix_free (c d : Char) (r t : List Nat)
    (h : utf8EncodeChar c ++ r = utf8EncodeChar d ++ t) : c = d ∧ r = t := by
  have hc := char_toNat_lt c
  have hd := char_toNat_lt d
  unfold utf8EncodeChar at h
  simp only at h
  split_ifs at h <;>
    simp only [List.cons_append, List.nil_append, List.cons.injEq] at h
  all_goals first
    | (exfalso; omega)
    | exact ⟨char_toNat_inj c d (by omega), by simp [h]⟩

theorem utf8EncodeChar_ne_nil (c : Char) : utf8EncodeChar c ≠ [] := by
  unfold utf8EncodeChar
  simp only
  split_ifs <;> simp

theorem flatMap_utf8_inj : ∀ l m : List Char,
    l.flatMap utf8EncodeChar = m.flatMap utf8EncodeChar → l = m := by
  intro l
  induction l with
  | nil =>
    intro m h
    cases m with
    | nil => rfl
    | cons d ds =>
      simp only [List.flatMap_nil, List.flatMap_cons] at h
      have := utf8EncodeChar_ne_nil d
      cases hd : utf8EncodeChar d with
      | nil => exact absurd hd this
      | cons x xs => rw [hd] at h; simp at h
  | cons c cs ih =>
    intro m h
    cases m with
    | nil =>
      simp only [List.flatMap_nil, List.flatMap_cons] at h
      have := utf8EncodeChar_ne_nil c
      cases hc : utf8EncodeChar c with
      | nil => exact absurd hc this
      | cons x xs => rw [hc] at h; simp at h
    | cons d ds =>
      simp only [List.flatMap_cons] at h
      obtain ⟨hcd, hrest⟩ := utf8EncodeChar_prefix_free c d _ _ h
      rw [hcd, ih ds hrest]

theorem utf8Encode_inj (s t : String) (h : utf8Encode s = utf8Encode t) : s = t :=
  String.ext (flatMap_utf8_inj s.toList t.toList h)


/-! ## Base64url -/

theorem sextets_lt : ∀ bytes : List Nat, (∀ b ∈ bytes, b < 256) →
    ∀ v ∈ sextets bytes, v < 64 := by
  intro bytes
  induction bytes using sextets.induct with
  | case1 a b c rest ih =>
    intro h v hv
    have ha := h a (by simp)
    have hb := h b (by simp)
    have hc := h c (by simp)
    simp only [sextets, List.mem_cons] at hv
    rcases hv with hv | hv | hv | hv | hv
    · omega
    · omega
    · omega
    · omega
    · exact ih (fun x hx => h x (by simp [hx])) v hv
  | case2 a b =>
    intro h v hv
    have ha := h a (by simp)
    have hb := h b (by simp)
    simp only [sextets, List.mem_cons, List.mem_singleton, List.not_mem_nil, or_false] at hv
    omega
  | case3 a =>
    intro h v hv
    have ha := h a (by simp)
    simp only [sextets, List.mem_cons, List.mem_singleton, List.not_mem_nil, or_false] at hv
    omega
  | case4 =>
    intro _ v hv
    simp [sextets] at hv

theorem unsextets_sextets : ∀ bytes : List Nat, (∀ b ∈ bytes, b < 256) →
    unsextets (sextets bytes) = bytes := by
  intro bytes
  induction bytes using sextets.induct with
  | case1 a b c rest ih =>
    intro h
    have ha := h a (by simp)
    have hb := h b (by simp)
    have hc := h c (by simp)
    simp only [sextets, unsextets, ih (fun x hx => h x (by simp [hx])), List.cons.injEq,
      and_true]
    refine ⟨by omega, by omega, by omega⟩
  | case2 a b =>
    intro h
    have ha := h a (by simp)
    have hb := h b (by simp)
    simp only [sextets, unsextets, List.cons.injEq, and_true]
    refine ⟨by omega, by omega⟩
  | case3 a =>
    intro h
    have ha := h a (by simp)
    simp only [sextets, unsextets, List.cons.injEq, and_true]
    omega
  | case4 =>
    intro _
    simp [sextets, unsextets]

theorem btoa_eq : ∀ bytes : List Nat,
    btoa bytes = (sextets bytes).map base64Digit ++ List.replicate (padCount bytes) '=' := by
  intro bytes
  induction bytes using sextets.induct with
  | case1 a b c rest ih => simp [btoa, sextets, padCount, ih]
  | case2 a b => simp [btoa, sextets, padCount, List.replicate]
  | case3 a => simp [btoa, sextets, padCount, List.replicate]
  | case4 => simp [btoa, sextets, padCount]

theorem base64UrlDigit_facts (v : Nat) (hv : v < 64) :
    (if base64Digit v = '+' then '-' else if base64Digit v = '/' then '_' else base64Digit v)
      = base64UrlDigit v ∧
    (base64UrlDigit v == '=') = false ∧
    isBase64UrlChar (base64UrlDigit v) = true ∧
    base64UrlValue (base64UrlDigit v) = some v := by
  interval_cases v <;> exact ⟨by decide, by decide, by decide, by decide⟩


theorem dropWhile_replicate_append (p : Char → Bool) (x : Char) (hx : p x = true)
    (l : List Char) : ∀ k, List.dropWhile p (List.replicate k x ++ l) = List.dropWhile p l := by
  intro k
  induction k with
  | zero => simp
  | succ k ih => simp [List.replicate_succ, List.dropWhile_cons, hx, ih]

theorem dropWhile_of_all_false (p : Char → Bool) (l : List Char)
    (h : ∀ c ∈ l, p c = false) : List.dropWhile p l = l := by
  cases l with
  | nil => rfl
  | cons c cs => simp [List.dropWhile_cons, h c (List.mem_cons_self _ _)]

theorem toBase64Url_eq (s : String) :
    toBase64Url s = String.mk ((sextets (utf8Encode s)).map base64UrlDigit) := by
  have hlt := sextets_lt (utf8Encode s) (utf8Encode_lt s)
  have hmap : ((sextets (utf8Encode s)).map base64Digit).map
      (fun c => if c = '+' then '-' else if c = '/' then '_' else c)
        = (sextets (utf8Encode s)).map base64UrlDigit := by
    rw [List.map_map]
    apply List.map_congr_left
    intro v hv
    exact (base64UrlDigit_facts v (hlt v hv)).1
  have hpad : ∀ k, (List.replicate k '=').map
      (fun c => if c = '+' then '-' else if c = '/' then '_' else c) = List.replicate k '=' := by
    intro k
    rw [List.map_replicate]
    rfl
  have hno : ∀ c ∈ ((sextets (utf8Encode s)).map base64UrlDigit).reverse,
      (c == '=') = false := by
    intro c hc
    rw [List.mem_reverse, List.mem_map] at hc
    obtain ⟨v, hv, rfl⟩ := hc
    exact (base64UrlDigit_facts v (hlt v hv)).2.1
  unfold toBase64Url
  simp only
  rw [btoa_eq, List.map_append, hmap, hpad, List.reverse_append, List.reverse_replicate,
    dropWhile_replicate_append _ '=' rfl, dropWhile_of_all_false _ _ hno, List.reverse_reverse]

theorem base64UrlValues_map : ∀ vs : List Nat, (∀ v ∈ vs, v < 64) →
    base64UrlValues (vs.map base64UrlDigit) = some vs := by
  intro vs
  induction vs with
  | nil => intro _; rfl
  | cons v vs ih =>
    intro h
    have hv := (base64UrlDigit_facts v (h v (List.mem_cons_self _ _))).2.2.2
    have hvs := ih (fun x hx => h x (List.mem_cons_of_mem _ hx))
    simp only [List.map_cons, base64UrlValues, hv, hvs]

theorem fromBase64Url_toBase64Url (s : String) :
    fromBase64Url (toBase64Url s) = some (utf8Encode s) := by
  unfold fromBase64Url
  rw [toBase64Url_eq]
  show (base64UrlValues ((sextets (utf8Encode s)).map base64UrlDigit)).map unsextets = _
  rw [base64UrlValues_map _ (sextets_lt (utf8Encode s) (utf8Encode_lt s))]
  simp only [Option.map_some']
  rw [unsextets_sextets _ (utf8Encode_lt s)]

/-- C22. For every string `s` (a Lean string is a well-formed Unicode string),
`toBase64Url s` is the text of the base64url digits of the six-bit groups of the
UTF-8 bytes of `s`, without padding: every character of it belongs to `A-Z`,
`a-z`, `0-9`, `-`, `_` (none is `+`, `/` or `=`), decoding it as base64url
gives exactly the UTF-8 bytes of `s`, and two strings with the same encoding are
the same string. -/
theorem toBase64Url_round_trip (s t : String) :
    toBase64Url s = String.mk ((sextets (utf8Encode s)).map base64UrlDigit) ∧
    (∀ c ∈ (toBase64Url s).toList,
      isBase64UrlChar c = true ∧ c ≠ '+' ∧ c ≠ '/' ∧ c ≠ '=') ∧
    fromBase64Url (toBase64Url s) = some (utf8Encode s) ∧
    (toBase64Url s = toBase64Url t → s = t) := by
  refine ⟨toBase64Url_eq s, ?_, fromBase64Url_toBase64Url s, ?_⟩
  · intro c hc
    rw [toBase64Url_eq] at hc
    obtain ⟨v, hv, rfl⟩ := List.mem_map.1 hc
    have hfacts := base64UrlDigit_facts v
      (sextets_lt (utf8Encode s) (utf8Encode_lt s) v hv)
    refine ⟨hfacts.2.2.1, ?_, ?_, ?_⟩
    · intro h
      rw [h] at hfacts
      exact absurd hfacts.2.2.1 (by decide)
    · intro h
      rw [h] at hfacts
      exact absurd hfacts.2.2.1 (by decide)
    · intro h
      rw [h] at hfacts
      exact absurd hfacts.2.2.1 (by decide)
  · intro h
    have h2 : fromBase64Url (toBase64Url s) = fromBase64Url (toBase64Url t) := by rw [h]
    rw [fromBase64Url_toBase64Url, fromBase64Url_toBase64Url] at h2
    exact utf8Encode_inj s t (Option.some.inj h2)


end CalendarExtension
